import Mathlib

/-! AnimeEffects: FFD key payload and timeline editor.

A shallow embedding of `src/core/FFDKey.cpp` and `src/ctrl/TimeLineEditor.cpp`.

Conventions of the embedding:

* C++ `int` is `Int` (no operation here depends on wrap-around).
* `XC_ASSERT` is compiled out, as in a release build: the functions are total and the
  asserted preconditions appear as hypotheses of the theorems.
* `QVector<T>` is `List T`; a raw pointer into an array is the list of the elements it points at.
* Classes whose sources are not part of the excerpt (streams, focus, scale, command stack,
  project) are either modelled from the specification (and say so) or taken as parameters.
-/

set_option autoImplicit false

namespace core

/-! ## `FFDKey::Data` -/

/-- `QVector<T>::resize(n)`: keeps the first `n` elements and pads with default-constructed
elements up to length `n`. A negative size is outside Qt's contract; it is read as `0`. -/
def qvResize {V : Type} [Inhabited V] (buf : List V) (n : Int) : List V :=
  buf.take n.toNat ++ List.replicate (n.toNat - buf.length) default

/-- `memcpy(dst, src, sizeof(T) * k)` on arrays seen as lists: the first `k` cells of `dst`
are overwritten by the first `k` cells of `src`. Cells that do not exist on either side
(an overrun in C++) are left out, so the destination keeps its length. -/
def memcpy {V : Type} : List V → List V → Nat → List V
  | _ :: ds, s :: ss, k + 1 => s :: memcpy ds ss k
  | ds, _, _ => ds

/-- `FFDKey::Data`: easing parameter, vertex buffer and logical vertex count. -/
structure Data (P V : Type) where
  mEasing : P
  mBuffer : List V
  mVtxCount : Int

namespace Data

variable {P V : Type}

/-- `FFDKey::Data::Data()`: default easing, empty buffer, count `0`. -/
def init [Inhabited P] : Data P V :=
  { mEasing := default, mBuffer := [], mVtxCount := 0 }

/-- `FFDKey::Data::count`. -/
def count (d : Data P V) : Int := d.mVtxCount

/-- `FFDKey::Data::positions`: the cells of the backing buffer. -/
def positions (d : Data P V) : List V := d.mBuffer

/-- `FFDKey::Data::easing`. -/
def easing (d : Data P V) : P := d.mEasing

/-- `FFDKey::Data::alloc`. -/
def alloc [Inhabited V] (d : Data P V) (aVtxCount : Int) : Data P V :=
  let d := { d with mVtxCount := aVtxCount }
  if (d.mBuffer.length : Int) ≠ aVtxCount then
    { d with mBuffer := qvResize d.mBuffer aVtxCount }
  else d

/-- `FFDKey::Data::write`. -/
def write (d : Data P V) (aSrc : List V) (aVtxCount : Int) : Data P V :=
  let writeCount := if aVtxCount ≤ d.mVtxCount then aVtxCount else d.mVtxCount
  if writeCount > 0 then
    { d with mBuffer := memcpy d.mBuffer aSrc writeCount.toNat }
  else d

/-- `FFDKey::Data::allocAndWrite`. -/
def allocAndWrite [Inhabited V] (d : Data P V) (aSrc : List V) (aVtxCount : Int) : Data P V :=
  (d.alloc aVtxCount).write aSrc aVtxCount

/-- `FFDKey::Data::clear`. -/
def clear (d : Data P V) : Data P V :=
  { d with mVtxCount := 0, mBuffer := [] }

/-- `FFDKey::Data::swap`: returns the new data and the new content of `aRhs`. -/
def swap (d : Data P V) (aRhs : List V) : Data P V × List V :=
  ({ d with mVtxCount := aRhs.length, mBuffer := aRhs }, d.mBuffer)

/-- `FFDKey::Data::insertVtx`. -/
def insertVtx (d : Data P V) (aIndex : Int) (aPos : V) : Data P V :=
  { d with mBuffer := d.mBuffer.insertIdx aIndex.toNat aPos, mVtxCount := d.mVtxCount + 1 }

/-- `FFDKey::Data::pushBackVtx`. -/
def pushBackVtx (d : Data P V) (aPos : V) : Data P V :=
  { d with mBuffer := d.mBuffer ++ [aPos], mVtxCount := d.mVtxCount + 1 }

/-- `FFDKey::Data::removeVtx`: returns the removed position and the new data. An index
outside the buffer (excluded by the assertions) reads the default element. -/
def removeVtx [Inhabited V] (d : Data P V) (aIndex : Int) : V × Data P V :=
  let pos := d.mBuffer.getD aIndex.toNat default
  (pos, { d with mBuffer := d.mBuffer.eraseIdx aIndex.toNat, mVtxCount := d.mVtxCount - 1 })

/-- `FFDKey::Data::popBackVtx`: returns the removed position and the new data. -/
def popBackVtx [Inhabited V] (d : Data P V) : V × Data P V :=
  let pos := d.mBuffer.getD (d.count - 1).toNat default
  (pos, { d with mBuffer := d.mBuffer.dropLast, mVtxCount := d.mVtxCount - 1 })

end Data

/-! ## Streams -/

/-- Modelled from the spec: the byte stream of `Serializer` / `Deserializer` (their sources
are not part of the excerpt), as the ordered sequence of values written: an easing
parameter, an `int`, or one `gl::Vector3` of a raw array. -/
inductive Token (P V : Type) where
  | easing (e : P)
  | int (n : Int)
  | vec (v : V)

/-- Modelled from the spec: `Serializer`, "ordered scalar/array write primitives plus an
end-of-operation error check". A stream in error state drops what is written to it. -/
structure Serializer (P V : Type) where
  out : List (Token P V)
  failed : Bool

namespace Serializer

variable {P V : Type}

/-- Modelled from the spec: the one write primitive of `Serializer`, appending tokens. -/
def put (s : Serializer P V) (ts : List (Token P V)) : Serializer P V :=
  if s.failed then s else { s with out := s.out ++ ts }

/-- Modelled from the spec: `Serializer::write(const util::Easing::Param&)`. -/
def write (s : Serializer P V) (e : P) : Serializer P V := s.put [Token.easing e]

/-- Modelled from the spec: `Serializer::write(int)`. -/
def writeInt (s : Serializer P V) (n : Int) : Serializer P V := s.put [Token.int n]

/-- Modelled from the spec: `Serializer::writeGL(const gl::Vector3*, int)`, the raw array of
`n` vectors starting at the pointer. -/
def writeGL (s : Serializer P V) (src : List V) (n : Int) : Serializer P V :=
  s.put ((src.take n.toNat).map Token.vec)

/-- Modelled from the spec: `Serializer::checkStream`, true when the stream reports no error. -/
def checkStream (s : Serializer P V) : Bool := !s.failed

end Serializer

/-- Modelled from the spec: `Deserializer`, "ordered scalar/array read primitives plus an
end-of-operation error check", with the stack of diagnostic scopes and the messages
recorded by `errored`. -/
structure Deserializer (P V : Type) where
  input : List (Token P V)
  failed : Bool
  scopes : List String
  errors : List String

namespace Deserializer

variable {P V : Type}

/-- Modelled from the spec: `Deserializer::pushLogScope`. -/
def pushLogScope (d : Deserializer P V) (name : String) : Deserializer P V :=
  { d with scopes := name :: d.scopes }

/-- Modelled from the spec: `Deserializer::popLogScope`. -/
def popLogScope (d : Deserializer P V) : Deserializer P V :=
  { d with scopes := d.scopes.tail }

/-- Modelled from the spec: `Deserializer::errored`, which "both records the message and
signals failure". -/
def errored (d : Deserializer P V) (msg : String) : Bool × Deserializer P V :=
  (false, { d with errors := d.errors ++ [msg] })

/-- Modelled from the spec: `Deserializer::checkStream`. -/
def checkStream (d : Deserializer P V) : Bool := !d.failed

/-- Modelled from the spec: `Deserializer::read(util::Easing::Param&)`. Returns whether the
parameter was read, the stream, and the value of the reference argument afterwards. -/
def read (d : Deserializer P V) (target : P) : Bool × Deserializer P V × P :=
  if d.failed then (false, d, target)
  else
    match d.input with
    | Token.easing e :: rest => (true, { d with input := rest }, e)
    | _ => (false, { d with failed := true }, target)

/-- Modelled from the spec: `Deserializer::read(int&)`. A failed read leaves the reference
argument as it was and puts the stream in error state. -/
def readInt (d : Deserializer P V) (target : Int) : Deserializer P V × Int :=
  if d.failed then (d, target)
  else
    match d.input with
    | Token.int n :: rest => ({ d with input := rest }, n)
    | _ => ({ d with failed := true }, target)

/-- The vectors at the head of a token sequence, at most `n` of them, and what follows. -/
def takeVecs : Nat → List (Token P V) → List V × List (Token P V)
  | n + 1, Token.vec v :: rest =>
      let r := takeVecs n rest
      (v :: r.1, r.2)
  | _, ts => ([], ts)

/-- Modelled from the spec: `Deserializer::readGL(gl::Vector3*, int)`, reading `n` vectors
into the array at the pointer. When the stream holds fewer, the ones present are stored
and the stream is put in error state. Returns the stream and the array. -/
def readGL (d : Deserializer P V) (dst : List V) (n : Int) : Deserializer P V × List V :=
  if d.failed then (d, dst)
  else
    let r := takeVecs n.toNat d.input
    ({ d with input := r.2, failed := decide (r.1.length < n.toNat) },
     memcpy dst r.1 n.toNat)

end Deserializer

/-! ## `FFDKey` -/

/-- `FFDKey`: a time key whose payload is `FFDKey::Data`. -/
structure FFDKey (P V : Type) where
  mData : Data P V

namespace FFDKey

variable {P V : Type}

/-- `FFDKey::FFDKey()`. -/
def init [Inhabited P] : FFDKey P V := { mData := Data.init }

/-- `FFDKey::serialize`: returns `checkStream()` and the stream. -/
def serialize (k : FFDKey P V) (aOut : Serializer P V) : Bool × Serializer P V :=
  -- easing
  let aOut := aOut.write k.mData.easing
  -- vertex count
  let aOut := aOut.writeInt k.mData.count
  -- positions
  let aOut := if k.mData.count > 0 then aOut.writeGL k.mData.positions k.mData.count else aOut
  (aOut.checkStream, aOut)

/-- `FFDKey::deserialize`: returns the result, the stream and the key. -/
def deserialize [Inhabited V] (k : FFDKey P V) (aIn : Deserializer P V) :
    Bool × Deserializer P V × FFDKey P V :=
  let aIn := aIn.pushLogScope "FFDKey"
  let r := aIn.read k.mData.mEasing
  let k : FFDKey P V := { mData := { k.mData with mEasing := r.2.2 } }
  if !r.1 then
    let e := r.2.1.errored "invalid easing param"
    (e.1, e.2, k)
  else
    -- vertex count
    let c := r.2.1.readInt 0
    let count := c.2
    if count > 0 then
      -- allocate
      let data := k.mData.alloc count
      -- positions
      let g := c.1.readGL data.positions data.count
      let aIn := g.1.popLogScope
      (aIn.checkStream, aIn, { mData := { data with mBuffer := g.2 } })
    else
      let aIn := c.1.popLogScope
      (aIn.checkStream, aIn, { mData := k.mData.clear })

end FFDKey

end core

namespace ctrl

/-! ## Constants of `TimeLineEditor.cpp` -/

def kTimeLineFpsA : Int := 60
def kTimeLineFpsB : Int := 30
def kTimeLineFpsC : Int := 10
def kTimeLineMargin : Int := 14
def kHeaderHeight : Int := 22
def kDefaultMaxFrame : Int := 600

/-! ## Value types used by the editor -/

/-- Qt's `QPoint`. -/
structure QPoint where
  x : Int
  y : Int
  deriving DecidableEq, Repr

/-- Qt's `QVector2D`. Its `float` coordinates are read as the rationals they denote. -/
structure QVector2D where
  x : ℚ
  y : ℚ

/-- Qt's `QRect`, stored as its inclusive corner coordinates. -/
structure QRect where
  x1 : Int
  y1 : Int
  x2 : Int
  y2 : Int
  deriving DecidableEq, Repr

namespace QRect

/-- `QRect(const QPoint& topLeft, const QPoint& bottomRight)`. -/
def ofPoints (topLeft bottomRight : QPoint) : QRect :=
  { x1 := topLeft.x, y1 := topLeft.y, x2 := bottomRight.x, y2 := bottomRight.y }

def left (r : QRect) : Int := r.x1
def top (r : QRect) : Int := r.y1
def right (r : QRect) : Int := r.x2
def bottom (r : QRect) : Int := r.y2

/-- `QRect::width`: `x2 - x1 + 1`. -/
def width (r : QRect) : Int := r.x2 - r.x1 + 1

/-- `QRect::setRight`. -/
def setRight (r : QRect) (v : Int) : QRect := { r with x2 := v }

/-- `QRect::setWidth`: `x2 = x1 + w - 1`. -/
def setWidth (r : QRect) (w : Int) : QRect := { r with x2 := r.x1 + w - 1 }

/-- `QRect::contains(const QPoint&)` for a normalised rectangle. -/
def contains (r : QRect) (p : QPoint) : Bool :=
  decide (r.x1 ≤ p.x) && decide (p.x ≤ r.x2) && decide (r.y1 ≤ p.y) && decide (p.y ≤ r.y2)

end QRect

/-- `util::Range`: a closed integer interval. -/
structure Range where
  min : Int
  max : Int
  deriving DecidableEq, Repr

/-- `core::Frame::clamp`. Modelled from the spec: "integer time coordinate, clampable to
`[0, maxFrame]`" (`core/Frame.h` is not part of the excerpt). -/
def clampFrame (v lo hi : Int) : Int := max lo (min v hi)

/-- The value of an `int` computation whose exact result is `v`: the 32-bit two's complement
reading, `v` itself when `-2^31 ≤ v < 2^31`. -/
def toInt32 (v : Int) : Int := (v + 2147483648) % 4294967296 - 2147483648

/-- `TimeLineEditor::State`. -/
inductive State where
  | Standby
  | MoveCurrent
  | MoveKeys
  | EncloseKeys
  deriving DecidableEq, Repr

/-- `TimeLineEditor::UpdateFlags`: the set of `UpdateFlag_ModView` and `UpdateFlag_ModFrame`,
one boolean per flag (`flags |= UpdateFlag_X` sets the boolean of `X`). -/
structure UpdateFlags where
  modView : Bool
  modFrame : Bool
  deriving DecidableEq, Repr

/-- `TimeLineRow`: node (by identity, `none` for a null pointer), rectangle, folder flag,
selection flag. -/
structure TimeLineRow where
  node : Option Nat
  rect : QRect
  closedFolder : Bool
  selecting : Bool
  deriving DecidableEq, Repr

/-- `core::TimeLineEvent::Type`, the values the editor sets; `Unset` is the type of a
default-constructed event. -/
inductive EventType where
  | Unset
  | MoveKey
  | RemoveKey
  deriving DecidableEq, Repr

/-- `core::TimeLineEvent::Target`: node identity, key type and key index (the frame). -/
structure Target where
  node : Nat
  keyType : Nat
  index : Int
  deriving DecidableEq, Repr

/-- `core::TimeLineEvent`. -/
structure TimeLineEvent where
  type : EventType
  targets : List Target
  deriving DecidableEq, Repr

/-- `TimeLineEvent()`. -/
def TimeLineEvent.init : TimeLineEvent := { type := EventType.Unset, targets := [] }

/-- `TimeLineFocus::SingleFocus`: `isValid()`, and the node and key position it points at. -/
structure SingleFocus where
  isValid : Bool
  target : Target
  deriving DecidableEq, Repr

/-- `TimeLineUtil::MoveKey`, the command object built by `new MoveKey(event)`. -/
structure MoveKey where
  event : TimeLineEvent
  deriving DecidableEq, Repr

/-- A command handed to `cmnd::Stack::push`: the move command, or the remover that
`TimeLine::createRemover` builds for one key. -/
inductive Command where
  | moveKey (m : MoveKey)
  | remover (t : Target)
  deriving DecidableEq, Repr

/-- The calls the editor makes on the project, its command stack and its commands, in the
order of the source. -/
inductive Call where
  /-- Constructor of `cmnd::ScopedMacro(stack, name)`. -/
  | beginMacro (name : String)
  /-- `macro.grabListener(notifier)`, with the notifier's event. -/
  | grabListener (ev : TimeLineEvent)
  /-- `commandStack().push(cmd)`. -/
  | push (cmd : Command)
  /-- Destructor of `cmnd::ScopedMacro`, at the end of its block. -/
  | endMacro
  /-- `mMoveRef->modifyMove(modEvent, add, range)`. -/
  | modifyMove (m : MoveKey) (add : Int) (range : Range)
  /-- `mProject->onTimeLineModified(event, undo)`. -/
  | onTimeLineModified (ev : TimeLineEvent) (undo : Bool)
  deriving DecidableEq, Repr

/-- `AbstractCursor`, the accessors `updateCursor` reads. `worldPosPoint` is
`worldPos().toPoint()`. -/
structure AbstractCursor where
  isLeftPressState : Bool
  isLeftMoveState : Bool
  isLeftReleaseState : Bool
  screenPos : QVector2D
  worldPosPoint : QPoint
  worldPoint : QPoint

/-! ## Collaborators

`TimeLineFocus`, `TimeLineScale`, `core::Project`, `cmnd::Stack` and `TimeLineUtil` are not
part of the excerpt. The editor is embedded over any implementation of them: `F`, `S` and
`P` are the states of the focus, the scale and the project (with its command stack). -/

/-- The operations of the collaborators. The focus holds references to the editor's rows
and scale, so its operations receive them. -/
structure Collab (F S P : Type) where
  /-- `TimeLineFocus(mRows, mTimeScale, margin)`. -/
  focusNew : Int → F
  /-- `TimeLineFocus::reset`: new focus state and the single target returned. -/
  focusReset : List TimeLineRow → S → F → QPoint → F × SingleFocus
  /-- `TimeLineFocus::isInRange`. -/
  focusIsInRange : List TimeLineRow → S → F → QPoint → Bool
  /-- `TimeLineFocus::update`. -/
  focusUpdate : List TimeLineRow → S → F → QPoint → F
  /-- `TimeLineFocus::hasRange`. -/
  focusHasRange : List TimeLineRow → S → F → Bool
  /-- `TimeLineFocus::select`: result, the event after the call, new focus state. -/
  focusSelect : List TimeLineRow → S → F → TimeLineEvent → Bool × TimeLineEvent × F
  /-- `TimeLineFocus::moveBoundingRect`. -/
  focusMoveBoundingRect : List TimeLineRow → S → F → Int → F
  /-- `TimeLineFocus::viewIsChanged`. -/
  focusViewIsChanged : List TimeLineRow → S → F → Bool
  /-- `TimeLineFocus::clear`. -/
  focusClear : List TimeLineRow → S → F → F
  /-- `TimeLineScale()`. -/
  scaleNew : S
  /-- `TimeLineScale::setFrameList`. -/
  scaleSetFrameList : S → List Int → S
  /-- `TimeLineScale::setMaxFrame`. -/
  scaleSetMaxFrame : S → Int → S
  /-- `TimeLineScale::update`. -/
  scaleUpdate : S → Int → S
  /-- `TimeLineScale::pixelWidth`. -/
  pixelWidth : S → Int → Int
  /-- `TimeLineScale::frame`. -/
  frame : S → Int → Int
  /-- `TimeLineScale::maxPixelWidth`. -/
  maxPixelWidth : S → Int
  /-- `(screenPos - QVector2D(handlePos)).length() < handleRange()`, a comparison of
  floating-point values. -/
  nearHandle : QVector2D → QPoint → Bool
  /-- `project.attribute().maxFrame()`. -/
  maxFrame : P → Int
  /-- The effect of a call on the project and its command stack. -/
  exec : P → Call → P
  /-- Whether a call makes the project notify the editor through `updateKey()` before it
  returns. -/
  notifies : P → Call → Bool
  /-- `commandStack().isModifiable(mMoveRef)`. -/
  isModifiable : P → Option MoveKey → Bool
  /-- `MoveKey::modifyMove`: its result and the event it fills in. -/
  modifyMove : P → MoveKey → Int → Range → Bool × TimeLineEvent
  /-- `TimeLineUtil::createMoveNotifier(project, node, pos)`: the notifier's event. -/
  createMoveNotifier : P → SingleFocus → TimeLineEvent

/-! ## `TimeLineEditor::TimeCurrent` -/

/-- `TimeLineEditor::TimeCurrent`. -/
structure TimeCurrent where
  mMaxFrame : Int
  mFrame : Int
  mPos : QPoint
  deriving DecidableEq, Repr

namespace TimeCurrent

variable {F S P : Type}

/-- `TimeCurrent::TimeCurrent()`. -/
def init : TimeCurrent := { mMaxFrame := 0, mFrame := 0, mPos := { x := 0, y := 11 } }

/-- `TimeCurrent::setMaxFrame`. -/
def setMaxFrame (t : TimeCurrent) (aMaxFrame : Int) : TimeCurrent :=
  { t with mMaxFrame := aMaxFrame }

/-- `TimeCurrent::setFrame`. The handle position is an `int` sum. -/
def setFrame (E : Collab F S P) (t : TimeCurrent) (aScale : S) (aFrame : Int) : TimeCurrent :=
  let f := clampFrame aFrame 0 t.mMaxFrame
  { t with
    mFrame := f
    mPos := { t.mPos with x := toInt32 (kTimeLineMargin + E.pixelWidth aScale f) } }

/-- `TimeCurrent::setHandlePos`. The handle position is an `int` sum. -/
def setHandlePos (E : Collab F S P) (t : TimeCurrent) (aScale : S) (aPos : QPoint) :
    TimeCurrent :=
  let f := clampFrame (E.frame aScale (aPos.x - kTimeLineMargin)) 0 t.mMaxFrame
  { t with
    mFrame := f
    mPos := { t.mPos with x := toInt32 (kTimeLineMargin + E.pixelWidth aScale f) } }

/-- `TimeCurrent::update`. The handle position is an `int` sum. -/
def update (E : Collab F S P) (t : TimeCurrent) (aScale : S) : TimeCurrent :=
  { t with mPos := { t.mPos with x := toInt32 (kTimeLineMargin + E.pixelWidth aScale t.mFrame) } }

/-- `TimeCurrent::frame`. -/
def frame (t : TimeCurrent) : Int := t.mFrame

/-- `TimeCurrent::handlePos`. -/
def handlePos (t : TimeCurrent) : QPoint := t.mPos

end TimeCurrent

/-! ## `TimeLineEditor` -/

/-- `TimeLineEditor`. `mProject` holds the state of the project the link pointer refers to
(`none` for a null pointer) and `mMoveRef` the command the pointer refers to. `calls` and
`unguarded` are not members of the class: `calls` records, in order, the calls made on the
project side, and `unguarded` those of them made while `mOnUpdatingKey` was false. -/
structure TimeLineEditor (F S P : Type) where
  mProject : Option P
  mRows : List TimeLineRow
  mSelectingRow : Option Nat
  mTimeMax : Int
  mState : State
  mTimeCurrent : TimeCurrent
  mTimeScale : S
  mFocus : F
  mMoveRef : Option MoveKey
  mMoveFrame : Int
  mOnUpdatingKey : Bool
  mShowSelectionRange : Bool
  calls : List Call
  unguarded : List Call

namespace TimeLineEditor

variable {F S P : Type}

/-- `TimeLineEditor::setMaxFrame`. -/
def setMaxFrame (E : Collab F S P) (ed : TimeLineEditor F S P) (aValue : Int) :
    TimeLineEditor F S P :=
  let ed := { ed with mTimeMax := aValue }
  let ed := { ed with mTimeScale := E.scaleSetMaxFrame ed.mTimeScale ed.mTimeMax }
  let ed := { ed with mTimeCurrent := ed.mTimeCurrent.setMaxFrame ed.mTimeMax }
  { ed with mTimeCurrent := ed.mTimeCurrent.setFrame E ed.mTimeScale 0 }

/-- `TimeLineEditor::TimeLineEditor()`. -/
def init (E : Collab F S P) : TimeLineEditor F S P :=
  let ed : TimeLineEditor F S P :=
    { mProject := none, mRows := [], mSelectingRow := none, mTimeMax := 0,
      mState := State.Standby, mTimeCurrent := TimeCurrent.init,
      mTimeScale := E.scaleSetFrameList E.scaleNew [kTimeLineFpsA, kTimeLineFpsB, kTimeLineFpsC],
      mFocus := E.focusNew kTimeLineMargin, mMoveRef := none, mMoveFrame := 0,
      mOnUpdatingKey := false, mShowSelectionRange := false, calls := [], unguarded := [] }
  -- reset max frame
  setMaxFrame E ed kDefaultMaxFrame

/-- `TimeLineEditor::clearState`. -/
def clearState (E : Collab F S P) (ed : TimeLineEditor F S P) : TimeLineEditor F S P :=
  { ed with
    mFocus := E.focusClear ed.mRows ed.mTimeScale ed.mFocus
    mState := State.Standby
    mMoveRef := none
    mMoveFrame := 0
    mShowSelectionRange := false }

/-- `TimeLineEditor::clearRows`. -/
def clearRows (E : Collab F S P) (ed : TimeLineEditor F S P) : TimeLineEditor F S P :=
  clearState E { ed with mRows := [] }

/-- `TimeLineEditor::setProject`; the argument is the project pointed at, `none` for null. -/
def setProject (E : Collab F S P) (ed : TimeLineEditor F S P) (aProject : Option P) :
    TimeLineEditor F S P :=
  let ed := clearRows E ed
  let ed := { ed with mProject := none }
  match aProject with
  | some p => setMaxFrame E { ed with mProject := some p } (E.maxFrame p)
  | none => setMaxFrame E ed kDefaultMaxFrame

/-- `TimeLineEditor::pushRow`; `aNode` is the node's identity. -/
def pushRow (E : Collab F S P) (ed : TimeLineEditor F S P) (aNode : Option Nat)
    (aWorldTB : Range) (aClosedFolder : Bool) : TimeLineEditor F S P :=
  let left := kTimeLineMargin
  let right := left + E.maxPixelWidth ed.mTimeScale
  let rect := QRect.ofPoints { x := left, y := aWorldTB.min } { x := right, y := aWorldTB.max }
  let row : TimeLineRow :=
    { node := aNode, rect := rect, closedFolder := aClosedFolder,
      selecting := decide (aNode = ed.mSelectingRow) }
  { ed with mRows := ed.mRows ++ [row] }

/-- `TimeLineEditor::updateRowSelection`. -/
def updateRowSelection (ed : TimeLineEditor F S P) (aRepresent : Option Nat) :
    TimeLineEditor F S P :=
  { ed with
    mSelectingRow := aRepresent
    mRows := ed.mRows.map fun row =>
      { row with selecting := row.node.isSome && decide (row.node = aRepresent) } }

/-- `TimeLineEditor::updateKey`. -/
def updateKey (E : Collab F S P) (ed : TimeLineEditor F S P) : TimeLineEditor F S P :=
  if !ed.mOnUpdatingKey then clearState E ed else ed

/-- One call on the project side (`mProject->...`): it is recorded, the project takes its
effect, and when the project notifies its listeners the editor is re-entered through
`updateKey()` before the call returns. With a null project nothing happens (the source
only makes these calls behind the null check of `updateCursor`). -/
def callProject (E : Collab F S P) (ed : TimeLineEditor F S P) (c : Call) :
    TimeLineEditor F S P :=
  match ed.mProject with
  | none => ed
  | some p =>
    let ed :=
      { ed with
        mProject := some (E.exec p c)
        calls := ed.calls ++ [c]
        unguarded := if ed.mOnUpdatingKey then ed.unguarded else ed.unguarded ++ [c] }
    if E.notifies p c then updateKey E ed else ed

/-- `TimeLineEditor::updateProjectAttribute`. -/
def updateProjectAttribute (E : Collab F S P) (ed : TimeLineEditor F S P) :
    TimeLineEditor F S P :=
  let ed := clearState E ed
  match ed.mProject with
  | some p =>
    let newMaxFrame := E.maxFrame p
    if ed.mTimeMax ≠ newMaxFrame then
      let ed := setMaxFrame E ed newMaxFrame
      let newRowRight := kTimeLineMargin + E.maxPixelWidth ed.mTimeScale
      { ed with mRows := ed.mRows.map fun row => { row with rect := row.rect.setRight newRowRight } }
    else ed
  | none => ed

/-- `TimeLineEditor::beginMoveKey`. -/
def beginMoveKey (E : Collab F S P) (ed : TimeLineEditor F S P) (aTarget : SingleFocus) :
    TimeLineEditor F S P :=
  match ed.mProject with
  | none => ed
  | some p =>
    let ed := { ed with mOnUpdatingKey := true }
    let ed := callProject E ed (Call.beginMacro "move time key")
    let notifier := E.createMoveNotifier (E.exec p (Call.beginMacro "move time key")) aTarget
    let ed := callProject E ed (Call.grabListener notifier)
    let ed := { ed with mMoveRef := some { event := notifier } }
    let ed := callProject E ed (Call.push (Command.moveKey { event := notifier }))
    let ed := { ed with mMoveFrame := aTarget.target.index }
    let ed := callProject E ed Call.endMacro
    { ed with mOnUpdatingKey := false }

/-- `TimeLineEditor::beginMoveKeys`. -/
def beginMoveKeys (E : Collab F S P) (ed : TimeLineEditor F S P) (aWorldPos : QPoint) :
    Bool × TimeLineEditor F S P :=
  let ed := { ed with mOnUpdatingKey := true }
  let notifier : TimeLineEvent := { TimeLineEvent.init with type := EventType.MoveKey }
  let sel := E.focusSelect ed.mRows ed.mTimeScale ed.mFocus notifier
  let ed := { ed with mFocus := sel.2.2 }
  if sel.1 then
    let ed := callProject E ed (Call.beginMacro "move time keys")
    let ed := callProject E ed (Call.grabListener sel.2.1)
    let ed := { ed with mMoveRef := some { event := sel.2.1 } }
    let ed := callProject E ed (Call.push (Command.moveKey { event := sel.2.1 }))
    let ed := { ed with mMoveFrame := E.frame ed.mTimeScale (aWorldPos.x - kTimeLineMargin) }
    let ed := callProject E ed Call.endMacro
    (true, { ed with mOnUpdatingKey := false })
  else
    (false, { ed with mMoveRef := none, mOnUpdatingKey := false })

/-- `TimeLineEditor::modifyMoveKeys`. A null `mMoveRef` that the stack calls modifiable
would be dereferenced by the source; here the call on it is left out. -/
def modifyMoveKeys (E : Collab F S P) (ed : TimeLineEditor F S P) (aWorldPos : QPoint) :
    Bool × TimeLineEditor F S P :=
  match ed.mProject with
  | none => (false, ed)
  | some p =>
    if E.isModifiable p ed.mMoveRef then
      let newFrame := E.frame ed.mTimeScale (aWorldPos.x - kTimeLineMargin)
      let addFrame := newFrame - ed.mMoveFrame
      let ed := { ed with mOnUpdatingKey := true }
      match ed.mMoveRef with
      | none => (true, { ed with mOnUpdatingKey := false })
      | some m =>
        let range : Range := { min := 0, max := ed.mTimeMax }
        let r := E.modifyMove p m addFrame range
        let ed := callProject E ed (Call.modifyMove m addFrame range)
        let ed :=
          if r.1 then
            let ed := { ed with mMoveFrame := newFrame }
            let ed := { ed with
              mFocus := E.focusMoveBoundingRect ed.mRows ed.mTimeScale ed.mFocus addFrame }
            callProject E ed (Call.onTimeLineModified r.2 false)
          else ed
        (true, { ed with mOnUpdatingKey := false })
    else (false, ed)

/-- `TimeLineEditor::updateCursor`: the flags returned and the editor afterwards. -/
def updateCursor (E : Collab F S P) (ed : TimeLineEditor F S P) (aCursor : AbstractCursor) :
    UpdateFlags × TimeLineEditor F S P :=
  let flags : UpdateFlags := { modView := false, modFrame := false }
  match ed.mProject with
  | none => (flags, ed)
  | some _ =>
    let worldPoint := aCursor.worldPoint
    let r : UpdateFlags × TimeLineEditor F S P :=
      if aCursor.isLeftPressState then
        -- a selection range is exists.
        let r1 : UpdateFlags × TimeLineEditor F S P :=
          if ed.mState = State.EncloseKeys then
            if E.focusIsInRange ed.mRows ed.mTimeScale ed.mFocus worldPoint then
              let b := beginMoveKeys E ed worldPoint
              if b.1 then
                ({ flags with modView := true }, { b.2 with mState := State.MoveKeys })
              else
                ({ flags with modView := true },
                 { b.2 with mShowSelectionRange := false, mState := State.Standby })
            else
              ({ flags with modView := true },
               { ed with mShowSelectionRange := false, mState := State.Standby })
          else (flags, ed)
        -- idle state
        if r1.2.mState = State.Standby then
          let t := E.focusReset r1.2.mRows r1.2.mTimeScale r1.2.mFocus worldPoint
          let ed1 := { r1.2 with mFocus := t.1 }
          let target := t.2
          let handlePos := ed1.mTimeCurrent.handlePos
          if E.nearHandle aCursor.screenPos handlePos then
            ({ r1.1 with modView := true }, { ed1 with mState := State.MoveCurrent })
          else if aCursor.screenPos.y < (kHeaderHeight : ℚ) then
            ({ r1.1 with modView := true, modFrame := true },
             { ed1 with
               mTimeCurrent :=
                 ed1.mTimeCurrent.setHandlePos E ed1.mTimeScale aCursor.worldPosPoint
               mState := State.MoveCurrent })
          else if target.isValid then
            ({ r1.1 with modView := true },
             { beginMoveKey E ed1 target with mState := State.MoveKeys })
          else
            ({ r1.1 with modView := true },
             { ed1 with mShowSelectionRange := true, mState := State.EncloseKeys })
        else r1
      else if aCursor.isLeftMoveState then
        if ed.mState = State.MoveCurrent then
          ({ flags with modView := true, modFrame := true },
           { ed with
             mTimeCurrent := ed.mTimeCurrent.setHandlePos E ed.mTimeScale aCursor.worldPosPoint })
        else if ed.mState = State.MoveKeys then
          let m := modifyMoveKeys E ed aCursor.worldPoint
          let ed1 :=
            if !m.1 then
              { m.2 with
                mState := State.Standby
                mMoveRef := none
                mFocus := E.focusClear m.2.mRows m.2.mTimeScale m.2.mFocus }
            else m.2
          ({ flags with modView := true, modFrame := true }, ed1)
        else if ed.mState = State.EncloseKeys then
          ({ flags with modView := true },
           { ed with mFocus := E.focusUpdate ed.mRows ed.mTimeScale ed.mFocus aCursor.worldPoint })
        else (flags, ed)
      else if aCursor.isLeftReleaseState then
        if ed.mState ≠ State.EncloseKeys
            ∨ E.focusHasRange ed.mRows ed.mTimeScale ed.mFocus = false then
          ({ flags with modView := true },
           { ed with mMoveRef := none, mState := State.Standby, mShowSelectionRange := false })
        else (flags, ed)
      else
        if ed.mState ≠ State.EncloseKeys then
          (flags,
           { ed with mFocus := (E.focusReset ed.mRows ed.mTimeScale ed.mFocus aCursor.worldPoint).1 })
        else (flags, ed)
    if E.focusViewIsChanged r.2.mRows r.2.mTimeScale r.2.mFocus then
      ({ r.1 with modView := true }, r.2)
    else r

/-! The blocks of `updateCursor`, one by one; `updateCursor_eq_blocks` shows that
`updateCursor` is their composition. -/

/-- The block of `updateCursor` for a left press in state EncloseKeys ("a selection range
is exists"). -/
def pressEnclose (E : Collab F S P) (ed : TimeLineEditor F S P) (aCursor : AbstractCursor) :
    UpdateFlags × TimeLineEditor F S P :=
  if ed.mState = State.EncloseKeys then
    if E.focusIsInRange ed.mRows ed.mTimeScale ed.mFocus aCursor.worldPoint then
      if (beginMoveKeys E ed aCursor.worldPoint).1 then
        ({ modView := true, modFrame := false },
         { (beginMoveKeys E ed aCursor.worldPoint).2 with mState := State.MoveKeys })
      else
        ({ modView := true, modFrame := false },
         { (beginMoveKeys E ed aCursor.worldPoint).2 with
           mShowSelectionRange := false, mState := State.Standby })
    else
      ({ modView := true, modFrame := false },
       { ed with mShowSelectionRange := false, mState := State.Standby })
  else ({ modView := false, modFrame := false }, ed)

/-- The block of `updateCursor` for a left press in state Standby ("idle state"), entered
with the flags and the editor the first block left. -/
def pressStandby (E : Collab F S P) (r1 : UpdateFlags × TimeLineEditor F S P)
    (aCursor : AbstractCursor) : UpdateFlags × TimeLineEditor F S P :=
  if r1.2.mState = State.Standby then
    if E.nearHandle aCursor.screenPos r1.2.mTimeCurrent.handlePos then
      ({ r1.1 with modView := true },
       { r1.2 with
         mFocus := (E.focusReset r1.2.mRows r1.2.mTimeScale r1.2.mFocus aCursor.worldPoint).1
         mState := State.MoveCurrent })
    else if aCursor.screenPos.y < (kHeaderHeight : ℚ) then
      ({ r1.1 with modView := true, modFrame := true },
       { r1.2 with
         mFocus := (E.focusReset r1.2.mRows r1.2.mTimeScale r1.2.mFocus aCursor.worldPoint).1
         mTimeCurrent := r1.2.mTimeCurrent.setHandlePos E r1.2.mTimeScale aCursor.worldPosPoint
         mState := State.MoveCurrent })
    else if (E.focusReset r1.2.mRows r1.2.mTimeScale r1.2.mFocus aCursor.worldPoint).2.isValid then
      ({ r1.1 with modView := true },
       { (beginMoveKey E
            { r1.2 with
              mFocus :=
                (E.focusReset r1.2.mRows r1.2.mTimeScale r1.2.mFocus aCursor.worldPoint).1 }
            (E.focusReset r1.2.mRows r1.2.mTimeScale r1.2.mFocus aCursor.worldPoint).2)
         with mState := State.MoveKeys })
    else
      ({ r1.1 with modView := true },
       { r1.2 with
         mFocus := (E.focusReset r1.2.mRows r1.2.mTimeScale r1.2.mFocus aCursor.worldPoint).1
         mShowSelectionRange := true
         mState := State.EncloseKeys })
  else r1

/-- The block of `updateCursor` for a left move. -/
def onMove (E : Collab F S P) (ed : TimeLineEditor F S P) (aCursor : AbstractCursor) :
    UpdateFlags × TimeLineEditor F S P :=
  if ed.mState = State.MoveCurrent then
    ({ modView := true, modFrame := true },
     { ed with
       mTimeCurrent := ed.mTimeCurrent.setHandlePos E ed.mTimeScale aCursor.worldPosPoint })
  else if ed.mState = State.MoveKeys then
    ({ modView := true, modFrame := true },
     if !(modifyMoveKeys E ed aCursor.worldPoint).1 then
       { (modifyMoveKeys E ed aCursor.worldPoint).2 with
         mState := State.Standby
         mMoveRef := none
         mFocus := E.focusClear (modifyMoveKeys E ed aCursor.worldPoint).2.mRows
           (modifyMoveKeys E ed aCursor.worldPoint).2.mTimeScale
           (modifyMoveKeys E ed aCursor.worldPoint).2.mFocus }
     else (modifyMoveKeys E ed aCursor.worldPoint).2)
  else if ed.mState = State.EncloseKeys then
    ({ modView := true, modFrame := false },
     { ed with mFocus := E.focusUpdate ed.mRows ed.mTimeScale ed.mFocus aCursor.worldPoint })
  else ({ modView := false, modFrame := false }, ed)

/-- The block of `updateCursor` for a left release. -/
def onRelease (E : Collab F S P) (ed : TimeLineEditor F S P) :
    UpdateFlags × TimeLineEditor F S P :=
  if ed.mState ≠ State.EncloseKeys ∨ E.focusHasRange ed.mRows ed.mTimeScale ed.mFocus = false then
    ({ modView := true, modFrame := false },
     { ed with mMoveRef := none, mState := State.Standby, mShowSelectionRange := false })
  else ({ modView := false, modFrame := false }, ed)

/-- The block of `updateCursor` for a cursor with no button event. -/
def onIdle (E : Collab F S P) (ed : TimeLineEditor F S P) (aCursor : AbstractCursor) :
    UpdateFlags × TimeLineEditor F S P :=
  if ed.mState ≠ State.EncloseKeys then
    ({ modView := false, modFrame := false },
     { ed with mFocus := (E.focusReset ed.mRows ed.mTimeScale ed.mFocus aCursor.worldPoint).1 })
  else ({ modView := false, modFrame := false }, ed)

/-- The end of `updateCursor`: `if (mFocus.viewIsChanged()) flags |= UpdateFlag_ModView`. -/
def viewChanged (E : Collab F S P) (r : UpdateFlags × TimeLineEditor F S P) :
    UpdateFlags × TimeLineEditor F S P :=
  if E.focusViewIsChanged r.2.mRows r.2.mTimeScale r.2.mFocus then
    ({ r.1 with modView := true }, r.2)
  else r

/-- `TimeLineEditor::checkDeletableKeys`: the result, the event after the call and the
editor. -/
def checkDeletableKeys (E : Collab F S P) (ed : TimeLineEditor F S P) (aEvent : TimeLineEvent)
    (aPos : QPoint) : Bool × TimeLineEvent × TimeLineEditor F S P :=
  if E.focusHasRange ed.mRows ed.mTimeScale ed.mFocus
      && !E.focusIsInRange ed.mRows ed.mTimeScale ed.mFocus aPos then
    (false, aEvent, ed)
  else
    let sel := E.focusSelect ed.mRows ed.mTimeScale ed.mFocus aEvent
    (sel.1, sel.2.1, { ed with mFocus := sel.2.2 })

/-- `TimeLineEditor::deleteCheckedKeys`. -/
def deleteCheckedKeys (E : Collab F S P) (ed : TimeLineEditor F S P) (aEvent : TimeLineEvent) :
    TimeLineEditor F S P :=
  let ed := { ed with mOnUpdatingKey := true }
  -- create notifier
  let notifier : TimeLineEvent := { aEvent with type := EventType.RemoveKey }
  -- push delete keys command
  let ed := callProject E ed (Call.beginMacro "remove time keys")
  let ed := callProject E ed (Call.grabListener notifier)
  let ed := aEvent.targets.foldl
    (fun ed target => callProject E ed (Call.push (Command.remover target))) ed
  let ed := callProject E ed Call.endMacro
  let ed := { ed with mOnUpdatingKey := false }
  clearState E ed

/-- `TimeLineEditor::updateWheel`. -/
def updateWheel (E : Collab F S P) (ed : TimeLineEditor F S P) (aDelta : Int) :
    TimeLineEditor F S P :=
  let ed := { ed with mTimeScale := E.scaleUpdate ed.mTimeScale aDelta }
  let ed := { ed with mTimeCurrent := ed.mTimeCurrent.update E ed.mTimeScale }
  let lineWidth := E.maxPixelWidth ed.mTimeScale
  { ed with mRows := ed.mRows.map fun row => { row with rect := row.rect.setWidth lineWidth } }

/-- `TimeLineEditor::setFrame`. -/
def setFrame (E : Collab F S P) (ed : TimeLineEditor F S P) (aFrame : Int) :
    TimeLineEditor F S P :=
  { ed with mTimeCurrent := ed.mTimeCurrent.setFrame E ed.mTimeScale aFrame }

/-- `TimeLineEditor::currentFrame`. -/
def currentFrame (ed : TimeLineEditor F S P) : Int := ed.mTimeCurrent.frame

/-- `TimeLineEditor::currentTimeCursorPos`. -/
def currentTimeCursorPos (ed : TimeLineEditor F S P) : QPoint := ed.mTimeCurrent.handlePos

end TimeLineEditor

/-! ## Reference collaborators

Concrete collaborators, written after sections 4.3 to 4.5 of the specification. The
theorems about the editor hold for every `Collab`; these are the ones the editor is run
with on concrete inputs. -/

namespace Ref

/-- Modelled from the spec: `TimeLineScale` ("CoordinateScale"), a zoom level into the
frame list `60, 30, 10` and a maximum frame. -/
structure Scale where
  maxFrame : Int
  index : Nat
  deriving DecidableEq, Repr

/-- Modelled from the spec: the "pixel-per-frame derived metric" of the zoom level, for a
unit of 120 pixels: 2, 4 or 12 pixels per frame. -/
def Scale.pixelPerFrame (s : Scale) : Int :=
  match s.index with
  | 0 => 2
  | 1 => 4
  | _ => 12

/-- Modelled from the spec: `TimeLineScale::pixelWidth`, "frame → pixel offset". -/
def Scale.pixelWidth (s : Scale) (frame : Int) : Int := frame * s.pixelPerFrame

/-- Modelled from the spec: `TimeLineScale::frame`, "pixel → frame, rounding toward the
nearest valid frame". -/
def Scale.frame (s : Scale) (pixel : Int) : Int :=
  (2 * pixel + s.pixelPerFrame) / (2 * s.pixelPerFrame)

/-- Modelled from the spec: `TimeLineScale::update`, "steps the zoom level up/down by one
notch per call, clamped to the list bounds". -/
def Scale.update (s : Scale) (delta : Int) : Scale :=
  if delta > 0 then { s with index := min (s.index + 1) 2 }
  else if delta < 0 then { s with index := s.index - 1 }
  else s

/-- Modelled from the spec: "FocusState — either empty, a single resolved key target, or an
enclosure rectangle in world coordinates plus the set of keys it currently encloses". -/
inductive FocusState where
  | Empty
  | SingleTarget (t : Target)
  | Range (rect : QRect) (keys : List Target)
  deriving DecidableEq, Repr

/-- Modelled from the spec: `TimeLineFocus` ("FocusSelection"). `keys` lists the keys shown
on the rows with their world positions, `anchor` is the point of the last `reset`. -/
structure Focus where
  keys : List (QPoint × Target)
  anchor : QPoint
  state : FocusState
  changed : Bool
  deriving DecidableEq, Repr

/-- Modelled from the spec: the "small pixel tolerance" of a key hit, 5 pixels. -/
def Focus.hits (p : QPoint) (k : QPoint × Target) : Bool :=
  decide ((k.1.x - p.x) ^ 2 + (k.1.y - p.y) ^ 2 ≤ 25)

/-- Modelled from the spec: `reset(worldPoint)`, "returns a SingleTarget if a key is hit,
else transitions to Empty and returns invalid". -/
def Focus.reset (f : Focus) (p : QPoint) : Focus × SingleFocus :=
  match f.keys.find? (Focus.hits p) with
  | some k =>
      ({ f with anchor := p, state := FocusState.SingleTarget k.2, changed := true },
       { isValid := true, target := k.2 })
  | none =>
      ({ f with anchor := p, state := FocusState.Empty,
                changed := decide (f.state ≠ FocusState.Empty) },
       { isValid := false, target := { node := 0, keyType := 0, index := 0 } })

/-- Modelled from the spec: `isInRange(point)`, "true iff a Range is active and point falls
within its rectangle". -/
def Focus.isInRange (f : Focus) (p : QPoint) : Bool :=
  match f.state with
  | FocusState.Range rect _ => rect.contains p
  | _ => false

/-- Modelled from the spec: `update(worldPoint)`, "extends the rectangle from its anchor to
worldPoint and recomputes the enclosed-key set". -/
def Focus.update (f : Focus) (p : QPoint) : Focus :=
  let rect : QRect :=
    { x1 := min f.anchor.x p.x, y1 := min f.anchor.y p.y,
      x2 := max f.anchor.x p.x, y2 := max f.anchor.y p.y }
  { f with
    state := FocusState.Range rect ((f.keys.filter fun k => rect.contains k.1).map Prod.snd)
    changed := true }

/-- Modelled from the spec: `hasRange()`, "true iff a non-degenerate Range is active". -/
def Focus.hasRange (f : Focus) : Bool :=
  match f.state with
  | FocusState.Range rect _ => decide (rect.x1 < rect.x2) && decide (rect.y1 < rect.y2)
  | _ => false

/-- Modelled from the spec: `select(event)`, "populates an externally-owned event object
with the currently focused key(s) (single or enclosed set) as edit targets; returns false
if nothing is focused". -/
def Focus.select (f : Focus) (ev : TimeLineEvent) : Bool × TimeLineEvent × Focus :=
  match f.state with
  | FocusState.Empty => (false, ev, f)
  | FocusState.SingleTarget t => (true, { ev with targets := ev.targets ++ [t] }, f)
  | FocusState.Range _ keys => (!keys.isEmpty, { ev with targets := ev.targets ++ keys }, f)

/-- Modelled from the spec: `moveBoundingRect(deltaFrames)`, "shifts the active Range
rectangle horizontally by the pixel equivalent of deltaFrames". -/
def Focus.moveBoundingRect (s : Scale) (f : Focus) (delta : Int) : Focus :=
  match f.state with
  | FocusState.Range rect keys =>
      { f with
        state := FocusState.Range
          { rect with x1 := rect.x1 + s.pixelWidth delta, x2 := rect.x2 + s.pixelWidth delta }
          keys
        changed := true }
  | _ => f

/-- Modelled from the spec: `clear()`, "returns to Empty". -/
def Focus.clear (f : Focus) : Focus :=
  { f with state := FocusState.Empty, changed := decide (f.state ≠ FocusState.Empty) }

/-- Modelled from the spec: the project with its command stack, "a black-box transactional
list of reversible commands": the maximum frame, the commands pushed (latest first) and
the frames by which the latest command has been amended. -/
structure Project where
  maxFrame : Int
  stack : List Command
  moved : Int
  deriving DecidableEq, Repr

/-- Modelled from the spec: `MoveKey::modifyMove`, the amendment "clamped to
`[0, maxFrame]`": it is accepted when every moved key stays inside the range. -/
def Project.modifyMove (p : Project) (m : MoveKey) (add : Int) (range : Range) :
    Bool × TimeLineEvent :=
  (m.event.targets.all fun t =>
      decide (range.min ≤ t.index + p.moved + add) && decide (t.index + p.moved + add ≤ range.max),
   { type := EventType.MoveKey, targets := m.event.targets })

/-- Modelled from the spec: the effect of a call on the project: a push puts the command on
the stack, an accepted amendment is accumulated, the other calls leave the stack as it is. -/
def Project.exec (p : Project) : Call → Project
  | Call.push cmd => { p with stack := cmd :: p.stack, moved := 0 }
  | Call.modifyMove m add range =>
      if (p.modifyMove m add range).1 then { p with moved := p.moved + add } else p
  | _ => p

/-- Modelled from the spec: the calls that reach the editor's `updateKey()` through the
project's change notification: a push (the command is executed) and `onTimeLineModified`. -/
def Project.notifies (_p : Project) : Call → Bool
  | Call.push _ => true
  | Call.onTimeLineModified _ _ => true
  | _ => false

/-- Modelled from the spec: `isModifiable`, "is this specific pushed command still the
live, amendable top". -/
def Project.isModifiable (p : Project) : Option MoveKey → Bool
  | some m => decide (p.stack.head? = some (Command.moveKey m))
  | none => false

/-- Modelled from the spec: the reference collaborators as a `Collab`. The hit radius of the
playback handle is 5 pixels. -/
def collab : Collab Focus Scale Project where
  focusNew := fun _ =>
    { keys := [], anchor := { x := 0, y := 0 }, state := FocusState.Empty, changed := false }
  focusReset := fun _ _ f p => f.reset p
  focusIsInRange := fun _ _ f p => f.isInRange p
  focusUpdate := fun _ _ f p => f.update p
  focusHasRange := fun _ _ f => f.hasRange
  focusSelect := fun _ _ f ev => f.select ev
  focusMoveBoundingRect := fun _ s f d => Focus.moveBoundingRect s f d
  focusViewIsChanged := fun _ _ f => f.changed
  focusClear := fun _ _ f => f.clear
  scaleNew := { maxFrame := 0, index := 0 }
  scaleSetFrameList := fun s _ => s
  scaleSetMaxFrame := fun s n => { s with maxFrame := n }
  scaleUpdate := Scale.update
  pixelWidth := Scale.pixelWidth
  frame := Scale.frame
  maxPixelWidth := fun s => s.pixelWidth s.maxFrame
  nearHandle := fun sp hp => decide ((sp.x - hp.x) ^ 2 + (sp.y - hp.y) ^ 2 < 25)
  maxFrame := Project.maxFrame
  exec := Project.exec
  notifies := Project.notifies
  isModifiable := Project.isModifiable
  modifyMove := Project.modifyMove
  createMoveNotifier := fun _ t => { type := EventType.MoveKey, targets := [t.target] }

/-! ### A concrete timeline -/

/-- The key of node 1 at frame 10. -/
def key1 : Target := { node := 1, keyType := 0, index := 10 }

/-- The key of node 1 at frame 20. -/
def key2 : Target := { node := 1, keyType := 0, index := 20 }

/-- A project of 600 frames with an empty command stack. -/
def project0 : Project := { maxFrame := 600, stack := [], moved := 0 }

/-- The editor after construction, `setProject(project0)` and one `pushRow`, looking at a
row with `key1` at world point (34, 40) and `key2` at (54, 40). -/
def editor0 : TimeLineEditor Focus Scale Project :=
  let ed := TimeLineEditor.setProject collab (TimeLineEditor.init collab) (some project0)
  let ed := TimeLineEditor.pushRow collab ed (some 1) { min := 30, max := 50 } false
  { ed with
    mFocus := { ed.mFocus with keys := [({ x := 34, y := 40 }, key1), ({ x := 54, y := 40 }, key2)] } }

/-- A cursor at the same integer position in screen and world coordinates. -/
def cursorAt (press move release : Bool) (x y : Int) : AbstractCursor :=
  { isLeftPressState := press, isLeftMoveState := move, isLeftReleaseState := release,
    screenPos := { x := x, y := y }, worldPosPoint := { x := x, y := y },
    worldPoint := { x := x, y := y } }

/-- A left press at `(x, y)`. -/
def pressAt (x y : Int) : AbstractCursor := cursorAt true false false x y

/-- A left move (drag) to `(x, y)`. -/
def moveTo (x y : Int) : AbstractCursor := cursorAt false true false x y

/-- A left release at `(x, y)`. -/
def releaseAt (x y : Int) : AbstractCursor := cursorAt false false true x y

/-- The editor after a press on `key1`: state MoveKeys, one move command pushed. -/
def editorMoving : TimeLineEditor Focus Scale Project :=
  (TimeLineEditor.updateCursor collab editor0 (pressAt 34 40)).2

/-- The project of `editorMoving`: the move command of `key1` is on the stack. -/
def projectMoving : Project :=
  { maxFrame := 600
    stack := [Command.moveKey { event := { type := EventType.MoveKey, targets := [key1] } }]
    moved := 0 }

/-- The project of `editorMoving` after another command went on top of the command stack, so
that the move command is no longer the modifiable one. -/
def projectStale : Project :=
  { projectMoving with stack := Command.remover key2 :: projectMoving.stack }

/-- The editor of `editorMoving`, its project being `projectStale`. -/
def editorStale : TimeLineEditor Focus Scale Project :=
  { editorMoving with mProject := some projectStale }

/-- The editor after a press on empty ground at (20, 30), a drag to (60, 50) and the
release: state EncloseKeys with both keys enclosed. -/
def editorEnclosing : TimeLineEditor Focus Scale Project :=
  let ed := (TimeLineEditor.updateCursor collab editor0 (pressAt 20 30)).2
  let ed := (TimeLineEditor.updateCursor collab ed (moveTo 60 50)).2
  (TimeLineEditor.updateCursor collab ed (releaseAt 60 50)).2

/-- The project of `editorEnclosing`: nothing has been pushed. -/
def projectEnclosing : Project := project0

/-- The reference collaborators looking at a scene with `key1` at world point (34, 40) and
`key2` at (54, 40): the focus is constructed knowing these keys. -/
def scene : Collab Focus Scale Project :=
  { collab with
    focusNew := fun _ =>
      { keys := [({ x := 34, y := 40 }, key1), ({ x := 54, y := 40 }, key2)]
        anchor := { x := 0, y := 0 }, state := FocusState.Empty, changed := false } }

/-- The project of `editor0` after its maximum frame was changed to 300. -/
def projectShort : Project := { project0 with maxFrame := 300 }

end Ref

/-! ## Sequences of cursor events -/

/-- The commands pushed on the command stack among a sequence of calls, in order. -/
def pushed : List Call → List Command
  | [] => []
  | Call.push cmd :: cs => cmd :: pushed cs
  | _ :: cs => pushed cs

/-- The call amends the move command `m`: it is `modifyMove` on `m`, or the
`onTimeLineModified(event, false)` that follows an accepted amendment. -/
def Call.Amends (m : MoveKey) : Call → Prop
  | Call.modifyMove m1 _ _ => m1 = m
  | Call.onTimeLineModified _ undo => undo = false
  | _ => False

/-- The editor `b` agrees with the editor `a` on everything a call on the project side made
under the guard leaves alone: every member but `mProject`, and the record of the
unguarded calls. -/
structure SameButProject {F S P : Type} (a b : TimeLineEditor F S P) : Prop where
  rows : b.mRows = a.mRows
  selectingRow : b.mSelectingRow = a.mSelectingRow
  timeMax : b.mTimeMax = a.mTimeMax
  state : b.mState = a.mState
  timeCurrent : b.mTimeCurrent = a.mTimeCurrent
  timeScale : b.mTimeScale = a.mTimeScale
  focus : b.mFocus = a.mFocus
  moveRef : b.mMoveRef = a.mMoveRef
  moveFrame : b.mMoveFrame = a.mMoveFrame
  onUpdatingKey : b.mOnUpdatingKey = a.mOnUpdatingKey
  showSelectionRange : b.mShowSelectionRange = a.mShowSelectionRange
  unguarded : b.unguarded = a.unguarded

/-- What a call of `updateCursor` with the cursor `c` keeps of the editor `a` in the editor
`b` it produces: the project stays set, scale, maximum frame and rows are the same, the
playback cursor is the same or has been set from the pointer, no call was made outside
the guard, the guard flag is down again if it was down, and the state is MoveKeys exactly
when there is a move command if that was so before. -/
structure CursorKeeps {F S P : Type} (E : Collab F S P) (c : AbstractCursor)
    (a b : TimeLineEditor F S P) : Prop where
  project : a.mProject.isSome = true → b.mProject.isSome = true
  timeScale : b.mTimeScale = a.mTimeScale
  timeMax : b.mTimeMax = a.mTimeMax
  rows : b.mRows = a.mRows
  timeCurrent : b.mTimeCurrent = a.mTimeCurrent
    ∨ b.mTimeCurrent = a.mTimeCurrent.setHandlePos E a.mTimeScale c.worldPosPoint
  unguarded : b.unguarded = a.unguarded
  guard : a.mOnUpdatingKey = false → b.mOnUpdatingKey = false
  moveRef : (a.mState = State.MoveKeys ↔ a.mMoveRef ≠ none) →
    (b.mState = State.MoveKeys ↔ b.mMoveRef ≠ none)

/-- One step in the life of an editor: a call of one of its public member functions with
its arguments, or a change made to the project by someone else between two calls (the
editor only holds a link pointer to the project and its command stack). -/
inductive Step (P : Type) where
  | setMaxFrame (aValue : Int)
  | setProject (aProject : Option P)
  | clearRows
  | clearState
  | pushRow (aNode : Option Nat) (aWorldTB : Range) (aClosedFolder : Bool)
  | updateRowSelection (aRepresent : Option Nat)
  | updateKey
  | updateProjectAttribute
  | updateCursor (aCursor : AbstractCursor)
  | checkDeletableKeys (aEvent : TimeLineEvent) (aPos : QPoint)
  | deleteCheckedKeys (aEvent : TimeLineEvent)
  | updateWheel (aDelta : Int)
  | setFrame (aFrame : Int)
  | projectChanged (g : P → P)

/-- The editor after one step. -/
def Step.apply {F S P : Type} (E : Collab F S P) (ed : TimeLineEditor F S P) :
    Step P → TimeLineEditor F S P
  | Step.setMaxFrame aValue => TimeLineEditor.setMaxFrame E ed aValue
  | Step.setProject aProject => TimeLineEditor.setProject E ed aProject
  | Step.clearRows => TimeLineEditor.clearRows E ed
  | Step.clearState => TimeLineEditor.clearState E ed
  | Step.pushRow aNode aWorldTB aClosedFolder =>
      TimeLineEditor.pushRow E ed aNode aWorldTB aClosedFolder
  | Step.updateRowSelection aRepresent => TimeLineEditor.updateRowSelection ed aRepresent
  | Step.updateKey => TimeLineEditor.updateKey E ed
  | Step.updateProjectAttribute => TimeLineEditor.updateProjectAttribute E ed
  | Step.updateCursor aCursor => (TimeLineEditor.updateCursor E ed aCursor).2
  | Step.checkDeletableKeys aEvent aPos => (TimeLineEditor.checkDeletableKeys E ed aEvent aPos).2.2
  | Step.deleteCheckedKeys aEvent => TimeLineEditor.deleteCheckedKeys E ed aEvent
  | Step.updateWheel aDelta => TimeLineEditor.updateWheel E ed aDelta
  | Step.setFrame aFrame => TimeLineEditor.setFrame E ed aFrame
  | Step.projectChanged g => { ed with mProject := ed.mProject.map g }

/-- The editor after a sequence of steps. -/
def runSteps {F S P : Type} (E : Collab F S P) (ed : TimeLineEditor F S P) :
    List (Step P) → TimeLineEditor F S P
  | [] => ed
  | s :: ss => runSteps E (s.apply E ed) ss

/-- The step is a call of a public member function of the editor, not a change made to the
project by someone else. -/
def Step.isPublic {P : Type} : Step P → Bool
  | Step.projectChanged _ => false
  | _ => true

/-- The maximum frame a step supplies to the editor, if it supplies one, is non-negative:
the argument of `setMaxFrame`, the maximum frame of the project handed to `setProject`, and
the maximum frame `updateProjectAttribute` reads from the current project. -/
def Step.SuppliesNonneg {F S P : Type} (E : Collab F S P) (ed : TimeLineEditor F S P) :
    Step P → Prop
  | Step.setMaxFrame aValue => 0 ≤ aValue
  | Step.setProject (some p) => 0 ≤ E.maxFrame p
  | Step.updateProjectAttribute =>
      match ed.mProject with
      | some p => 0 ≤ E.maxFrame p
      | none => True
  | _ => True

/-- Every maximum frame supplied along a sequence of steps is non-negative. -/
def SuppliesNonnegAll {F S P : Type} (E : Collab F S P) (ed : TimeLineEditor F S P) :
    List (Step P) → Prop
  | [] => True
  | s :: ss => s.SuppliesNonneg E ed ∧ SuppliesNonnegAll E (s.apply E ed) ss

instance Step.SuppliesNonneg.decidable {F S P : Type} (E : Collab F S P)
    (ed : TimeLineEditor F S P) (s : Step P) : Decidable (s.SuppliesNonneg E ed) := by
  cases s with
  | setProject aProject => cases aProject <;> simp only [Step.SuppliesNonneg] <;> infer_instance
  | updateProjectAttribute =>
    simp only [Step.SuppliesNonneg]
    cases ed.mProject <;> infer_instance
  | _ =>
    simp only [Step.SuppliesNonneg]
    infer_instance

instance SuppliesNonnegAll.decidable {F S P : Type} (E : Collab F S P)
    (ed : TimeLineEditor F S P) (ss : List (Step P)) : Decidable (SuppliesNonnegAll E ed ss) := by
  induction ss generalizing ed with
  | nil => exact isTrue trivial
  | cons s ss ih =>
    simp only [SuppliesNonnegAll]
    exact @instDecidableAnd _ _ _ (ih _)

/-- The playback cursor is consistent: its maximum frame is the editor's, which is not
negative, the current frame lies between 0 and the maximum frame, and the handle stands at
the `int` value of `kTimeLineMargin + pixelWidth(currentFrame())` for the current scale. -/
def CursorConsistent {F S P : Type} (E : Collab F S P) (ed : TimeLineEditor F S P) : Prop :=
  ed.mTimeCurrent.mMaxFrame = ed.mTimeMax
    ∧ 0 ≤ ed.mTimeMax
    ∧ 0 ≤ ed.currentFrame
    ∧ ed.currentFrame ≤ ed.mTimeMax
    ∧ ed.currentTimeCursorPos.x
        = toInt32 (kTimeLineMargin + E.pixelWidth ed.mTimeScale ed.currentFrame)

/-- Modelled from the spec: what the command stack promises while the editor is its only
user ("is this specific pushed command still the live, amendable top", "amend-in-place
semantics for incremental drags"): the move command pushed last is modifiable once its macro
is closed, and amending it, or reporting the amendment, leaves it modifiable. -/
structure KeepsAmendable {F S P : Type} (E : Collab F S P) : Prop where
  pushed : ∀ (p : P) (m : MoveKey),
    E.isModifiable (E.exec (E.exec p (Call.push (Command.moveKey m))) Call.endMacro) (some m)
      = true
  amended : ∀ (p : P) (m : MoveKey) (add : Int) (range : Range),
    E.isModifiable p (some m) = true →
    E.isModifiable (E.exec p (Call.modifyMove m add range)) (some m) = true
  reported : ∀ (p : P) (m : MoveKey) (ev : TimeLineEvent) (b : Bool),
    E.isModifiable p (some m) = true →
    E.isModifiable (E.exec p (Call.onTimeLineModified ev b)) (some m) = true

/-- The editor after `modifyMoveKeys` has been called for each world position of a
sequence. -/
def modifyAll {F S P : Type} (E : Collab F S P) (ed : TimeLineEditor F S P) :
    List QPoint → TimeLineEditor F S P
  | [] => ed
  | w :: ws => modifyAll E (TimeLineEditor.modifyMoveKeys E ed w).2 ws

/-- The editor has a project and a move command, and the command stack calls the command
modifiable. -/
def modifiableNow {F S P : Type} (E : Collab F S P) (ed : TimeLineEditor F S P) : Bool :=
  match ed.mProject, ed.mMoveRef with
  | some p, some m => E.isModifiable p (some m)
  | _, _ => false

/-- The selection-range overlay is shown only in EncloseKeys or MoveKeys, and in MoveKeys
the editor has a project and a move command that the command stack calls modifiable. -/
def OverlayOk {F S P : Type} (E : Collab F S P) (ed : TimeLineEditor F S P) : Prop :=
  (ed.mShowSelectionRange = true →
      ed.mState = State.EncloseKeys ∨ ed.mState = State.MoveKeys)
    ∧ (ed.mState = State.MoveKeys → modifiableNow E ed = true)

/-- The command `mMoveRef` is modifiable at each call of `modifyMoveKeys` of the sequence. -/
def StillModifiable {F S P : Type} (E : Collab F S P) (ed : TimeLineEditor F S P) :
    List QPoint → Prop
  | [] => True
  | w :: ws =>
      modifiableNow E ed = true ∧ StillModifiable E (TimeLineEditor.modifyMoveKeys E ed w).2 ws

instance StillModifiable.decidable {F S P : Type} (E : Collab F S P)
    (ed : TimeLineEditor F S P) (ws : List QPoint) : Decidable (StillModifiable E ed ws) := by
  induction ws generalizing ed with
  | nil => exact isTrue trivial
  | cons w ws ih =>
    simp only [StillModifiable]
    exact @instDecidableAnd _ _ _ (ih _)

/-- The frame delta of a call of `modifyMoveKeys`: the frame of the pointer minus the
anchor `mMoveFrame`. -/
def frameDelta {F S P : Type} (E : Collab F S P) (ed : TimeLineEditor F S P) (w : QPoint) :
    Int :=
  E.frame ed.mTimeScale (w.x - kTimeLineMargin) - ed.mMoveFrame

/-- Whether `modifyMove` returns true for the frame delta of a call of `modifyMoveKeys`. -/
def moveAccepted {F S P : Type} (E : Collab F S P) (ed : TimeLineEditor F S P) (w : QPoint) :
    Bool :=
  match ed.mProject, ed.mMoveRef with
  | some p, some m => (E.modifyMove p m (frameDelta E ed w) { min := 0, max := ed.mTimeMax }).1
  | _, _ => false

/-- The frame deltas of the calls of `modifyMoveKeys` of a sequence for which `modifyMove`
returned true, in order. -/
def acceptedDeltas {F S P : Type} (E : Collab F S P) (ed : TimeLineEditor F S P) :
    List QPoint → List Int
  | [] => []
  | w :: ws =>
      (if moveAccepted E ed w then [frameDelta E ed w] else [])
        ++ acceptedDeltas E (TimeLineEditor.modifyMoveKeys E ed w).2 ws

namespace Ref

/-- A session on a fresh editor: a project is set and a row pushed; both keys are enclosed
by a drag from (20, 30) to (60, 50); a press inside the enclosure starts to move them and
the pointer moves on. -/
def dragFromEnclosure : List (Step Project) :=
  [Step.setProject (some project0),
   Step.pushRow (some 1) { min := 30, max := 50 } false,
   Step.updateCursor (pressAt 20 30),
   Step.updateCursor (moveTo 60 50),
   Step.updateCursor (releaseAt 60 50),
   Step.updateCursor (pressAt 40 40),
   Step.updateCursor (moveTo 50 40)]

/-- A session on a fresh editor: a project is set, a row pushed, the timeline zoomed, the
frame set, the handle dragged by a press on the header and a move, and the maximum frame
changed. -/
def scrubbing : List (Step Project) :=
  [Step.setProject (some project0),
   Step.pushRow (some 1) { min := 30, max := 50 } false,
   Step.updateWheel 1,
   Step.setFrame 700,
   Step.updateCursor (pressAt 100 10),
   Step.updateCursor (moveTo 200 10),
   Step.updateCursor (releaseAt 200 10),
   Step.setMaxFrame 100]

/-- A session on a fresh editor: the maximum frame is set to 1073741820 and the current
frame to the same value. At the initial zoom level this frame is 2147483640 pixels wide. -/
def farFrame : List (Step Project) :=
  [Step.setMaxFrame 1073741820, Step.setFrame 1073741820]

end Ref

/-- The editor after `updateCursor` has been called for each cursor of a sequence. -/
def drive {F S P : Type} (E : Collab F S P) (ed : TimeLineEditor F S P) :
    List AbstractCursor → TimeLineEditor F S P
  | [] => ed
  | c :: cs => drive E (TimeLineEditor.updateCursor E ed c).2 cs

end ctrl

/-! ## Sequences of `FFDKey::Data` operations -/

namespace core

/-- One call of a mutating member function of `FFDKey::Data`, with its arguments. -/
inductive DataOp (V : Type) where
  | alloc (aVtxCount : Int)
  | write (aSrc : List V) (aVtxCount : Int)
  | allocAndWrite (aSrc : List V) (aVtxCount : Int)
  | clear
  | swap (aRhs : List V)
  | insertVtx (aIndex : Int) (aPos : V)
  | pushBackVtx (aPos : V)
  | removeVtx (aIndex : Int)
  | popBackVtx

namespace DataOp

variable {P V : Type}

/-- The data after the call. -/
def apply [Inhabited V] (d : Data P V) : DataOp V → Data P V
  | alloc n => d.alloc n
  | write src n => d.write src n
  | allocAndWrite src n => d.allocAndWrite src n
  | clear => d.clear
  | swap rhs => (d.swap rhs).1
  | insertVtx i p => d.insertVtx i p
  | pushBackVtx p => d.pushBackVtx p
  | removeVtx i => (d.removeVtx i).2
  | popBackVtx => d.popBackVtx.2

/-- What the source asserts of the arguments at entry (`XC_ASSERT`): a positive count for
`alloc` (and so for `allocAndWrite`, which calls it), an index inside the buffer for
`insertVtx` and `removeVtx`, a non-empty buffer for `popBackVtx`. -/
def Asserted (d : Data P V) : DataOp V → Prop
  | alloc n => 0 < n
  | allocAndWrite _ n => 0 < n
  | insertVtx i _ => 0 ≤ i ∧ i ≤ d.count
  | removeVtx i => 0 ≤ i ∧ i < d.count
  | popBackVtx => 0 < d.count
  | _ => True

/-- The data after a sequence of calls. -/
def run [Inhabited V] (d : Data P V) : List (DataOp V) → Data P V
  | [] => d
  | op :: ops => run (op.apply d) ops

/-- Every call of the sequence is made with its assertions true. -/
def AssertedAll [Inhabited V] (d : Data P V) : List (DataOp V) → Prop
  | [] => True
  | op :: ops => op.Asserted d ∧ AssertedAll (op.apply d) ops

instance Asserted.decidable (d : Data P V) (op : DataOp V) : Decidable (op.Asserted d) := by
  cases op <;> simp only [Asserted] <;> infer_instance

instance AssertedAll.decidable [Inhabited V] (d : Data P V) (ops : List (DataOp V)) :
    Decidable (AssertedAll d ops) := by
  induction ops generalizing d with
  | nil => exact isTrue trivial
  | cons op ops ih =>
    simp only [AssertedAll]
    exact @instDecidableAnd _ _ _ (ih _)

end DataOp

/-- A payload with three vertices (vertices are integers here) and easing `7`. -/
def sampleKey : FFDKey Nat Int := { mData := { mEasing := 7, mBuffer := [10, 20, 30], mVtxCount := 3 } }

/-- A key in a different prior state, used as the target of a read. -/
def sampleTarget : FFDKey Nat Int := { mData := { mEasing := 0, mBuffer := [1], mVtxCount := 1 } }

/-- A sequence of calls exercising every operation of `FFDKey::Data`. -/
def sampleOps : List (DataOp Int) :=
  [DataOp.alloc 3, DataOp.write [1, 2, 3, 4, 5] 5, DataOp.insertVtx 1 9, DataOp.removeVtx 0,
   DataOp.pushBackVtx 8, DataOp.popBackVtx, DataOp.allocAndWrite [4, 5] 2, DataOp.swap [6, 7, 8, 9],
   DataOp.clear, DataOp.pushBackVtx 1]

/-- The stream holding what `serialize` writes for `sampleKey`, followed by one more value. -/
def sampleStream : Deserializer Nat Int :=
  { input := [Token.easing 7, Token.int 3, Token.vec 10, Token.vec 20, Token.vec 30, Token.int 99],
    failed := false, scopes := [], errors := [] }

/-- A stream that does not start with an easing parameter. -/
def sampleStreamNoEasing : Deserializer Nat Int :=
  { input := [Token.int 3, Token.vec 10, Token.vec 20, Token.vec 30],
    failed := false, scopes := [], errors := [] }

end core

/-! # Theorems -/

namespace core

variable {P V : Type}

/-! ## Lists, `FFDKey::Data`, streams -/

theorem memcpy_length (dst src : List V) (k : Nat) : (memcpy dst src k).length = dst.length := by
  induction dst generalizing src k with
  | nil => simp [memcpy]
  | cons d ds ih =>
    cases src with
    | nil => simp [memcpy]
    | cons s ss =>
      cases k with
      | zero => simp [memcpy]
      | succ k => simp [memcpy, ih]

theorem memcpy_all (dst src : List V) (h : dst.length = src.length) :
    memcpy dst src src.length = src := by
  induction dst generalizing src with
  | nil =>
    cases src with
    | nil => simp [memcpy]
    | cons s ss => simp at h
  | cons d ds ih =>
    cases src with
    | nil => simp at h
    | cons s ss =>
      simp only [List.length_cons, Nat.add_right_cancel_iff] at h
      simp [memcpy, ih ss h]

theorem qvResize_length [Inhabited V] (buf : List V) (n : Int) (h : 0 ≤ n) :
    ((qvResize buf n).length : Int) = n := by
  simp only [qvResize, List.length_append, List.length_take, List.length_replicate]
  omega

namespace Data

theorem alloc_count [Inhabited V] (d : Data P V) (n : Int) : (d.alloc n).mVtxCount = n := by
  simp only [alloc]
  split_ifs <;> rfl

theorem alloc_length [Inhabited V] (d : Data P V) (n : Int) (h : 0 ≤ n) :
    ((d.alloc n).mBuffer.length : Int) = n := by
  simp only [alloc]
  split_ifs with hne
  · exact qvResize_length _ _ h
  · simpa using hne

theorem write_count (d : Data P V) (src : List V) (n : Int) :
    (d.write src n).mVtxCount = d.mVtxCount := by
  simp only [write]
  split_ifs <;> rfl

theorem write_length (d : Data P V) (src : List V) (n : Int) :
    (d.write src n).mBuffer.length = d.mBuffer.length := by
  simp only [write]
  split_ifs <;> simp [memcpy_length]

end Data

theorem DataOp.apply_count_eq_length [Inhabited V] (d : Data P V) (op : DataOp V)
    (hinv : d.count = d.mBuffer.length) (hop : op.Asserted d) :
    (op.apply d).count = (op.apply d).mBuffer.length := by
  simp only [Data.count] at hinv
  cases op with
  | alloc n =>
    simp only [Asserted] at hop
    simp only [apply, Data.count, Data.alloc_count, Data.alloc_length d n (le_of_lt hop)]
  | write src n => simp [apply, Data.count, Data.write_count, Data.write_length, hinv]
  | allocAndWrite src n =>
    simp only [Asserted] at hop
    simp only [apply, Data.allocAndWrite, Data.count, Data.write_count, Data.write_length,
      Data.alloc_count, Data.alloc_length d n (le_of_lt hop)]
  | clear => simp [apply, Data.clear, Data.count]
  | swap rhs => simp [apply, Data.swap, Data.count]
  | insertVtx i p =>
    simp only [Asserted, Data.count] at hop
    have hi : i.toNat ≤ d.mBuffer.length := by omega
    simp [apply, Data.insertVtx, Data.count, List.length_insertIdx _ _ hi, hinv]
  | pushBackVtx p => simp [apply, Data.pushBackVtx, Data.count, hinv]
  | removeVtx i =>
    simp only [Asserted, Data.count] at hop
    have hi : i.toNat < d.mBuffer.length := by omega
    simp only [apply, Data.removeVtx, Data.count, List.length_eraseIdx_of_lt hi]
    omega
  | popBackVtx =>
    simp only [Asserted, Data.count] at hop
    simp only [apply, Data.popBackVtx, Data.count, List.length_dropLast]
    omega

theorem DataOp.run_count_eq_length [Inhabited V] (ops : List (DataOp V)) (d : Data P V)
    (hinv : d.count = d.mBuffer.length) (hops : DataOp.AssertedAll d ops) :
    (DataOp.run d ops).count = (DataOp.run d ops).mBuffer.length := by
  induction ops generalizing d with
  | nil => simpa [DataOp.run] using hinv
  | cons op ops ih =>
    exact ih (op.apply d) (DataOp.apply_count_eq_length d op hinv hops.1) hops.2

theorem Deserializer.takeVecs_map (vs : List V) (rest : List (Token P V)) :
    Deserializer.takeVecs vs.length (vs.map Token.vec ++ rest) = (vs, rest) := by
  induction vs with
  | nil => cases rest <;> simp [Deserializer.takeVecs]
  | cons v vs ih => simp [Deserializer.takeVecs, ih]

/-- The tokens `serialize` writes for a key whose count is the length of its buffer. -/
theorem FFDKey.serialize_eq (k : FFDKey P V) (aOut : Serializer P V)
    (hcount : k.mData.count = (k.mData.mBuffer.length : Int)) (hout : aOut.failed = false) :
    k.serialize aOut =
      (true, { aOut with
        out := aOut.out ++ (Token.easing k.mData.mEasing :: Token.int k.mData.mBuffer.length
                  :: k.mData.mBuffer.map Token.vec) }) := by
  simp only [Data.count] at hcount
  simp only [FFDKey.serialize, Serializer.write, Serializer.writeInt, Serializer.writeGL,
    Serializer.put, Serializer.checkStream, Data.count, Data.easing, Data.positions, hout, hcount]
  cases hb : k.mData.mBuffer with
  | nil => simp
  | cons v vs => simp [hout]

theorem FFDKey.deserialize_written [Inhabited V] (target : FFDKey P V) (aIn : Deserializer P V)
    (e : P) (vs : List V) (rest : List (Token P V)) (hin : aIn.failed = false)
    (hinput : aIn.input = Token.easing e :: Token.int vs.length :: vs.map Token.vec ++ rest) :
    target.deserialize aIn =
      (true, { aIn with input := rest },
       { mData := { mEasing := e, mBuffer := vs, mVtxCount := vs.length } }) := by
  obtain ⟨input, failed, scopes, errors⟩ := aIn
  simp only at hin hinput
  subst hin hinput
  by_cases hvs : vs = []
  · subst hvs
    simp [FFDKey.deserialize, Deserializer.pushLogScope, Deserializer.read, Deserializer.readInt,
      Deserializer.popLogScope, Deserializer.checkStream, Data.clear]
  · have hpos : (0 : Int) < (vs.length : Int) := by
      have := List.length_pos.mpr hvs
      omega
    have hlen : ∀ d : Data P V, (d.alloc (vs.length : Int)).mBuffer.length = vs.length := by
      intro d
      have := Data.alloc_length d (vs.length : Int) (le_of_lt hpos)
      omega
    simp [FFDKey.deserialize, Deserializer.pushLogScope, Deserializer.read, Deserializer.readInt,
      Deserializer.popLogScope, Deserializer.checkStream, Deserializer.readGL, hpos,
      Data.alloc_count, Data.count, Data.positions, Deserializer.takeVecs_map,
      memcpy_all _ vs (hlen _)]
    simp only [Data.alloc]
    split_ifs <;> rfl

theorem Deserializer.read_pushLogScope (aIn : Deserializer P V) (name : String) (t : P) :
    (aIn.pushLogScope name).read t
      = ((aIn.read t).1, (aIn.read t).2.1.pushLogScope name, (aIn.read t).2.2) := by
  simp only [Deserializer.read, Deserializer.pushLogScope]
  split_ifs
  · rfl
  · split <;> rfl

end core

namespace ctrl

variable {F S P : Type}

namespace TimeLineEditor

/-! ## The move operations and the blocks of `updateCursor` -/

theorem callProject_guarded (E : Collab F S P) (ed : TimeLineEditor F S P) (c : Call) (p : P)
    (hp : ed.mProject = some p) (hg : ed.mOnUpdatingKey = true) :
    callProject E ed c = { ed with mProject := some (E.exec p c), calls := ed.calls ++ [c] } := by
  simp [callProject, hp, updateKey, hg]

theorem beginMoveKey_eq (E : Collab F S P) (ed : TimeLineEditor F S P) (t : SingleFocus) (p : P)
    (hp : ed.mProject = some p) :
    beginMoveKey E ed t =
      { ed with
        mProject := some (E.exec (E.exec (E.exec (E.exec p (Call.beginMacro "move time key"))
          (Call.grabListener
            (E.createMoveNotifier (E.exec p (Call.beginMacro "move time key")) t)))
          (Call.push (Command.moveKey (MoveKey.mk
            (E.createMoveNotifier (E.exec p (Call.beginMacro "move time key")) t)))))
          Call.endMacro)
        calls := ed.calls ++ [Call.beginMacro "move time key",
          Call.grabListener (E.createMoveNotifier (E.exec p (Call.beginMacro "move time key")) t),
          Call.push (Command.moveKey (MoveKey.mk
            (E.createMoveNotifier (E.exec p (Call.beginMacro "move time key")) t))),
          Call.endMacro]
        mMoveRef :=
          some (MoveKey.mk (E.createMoveNotifier (E.exec p (Call.beginMacro "move time key")) t))
        mMoveFrame := t.target.index
        mOnUpdatingKey := false } := by
  simp [beginMoveKey, hp, callProject, updateKey]

theorem beginMoveKeys_eq (E : Collab F S P) (ed : TimeLineEditor F S P) (aWorldPos : QPoint)
    (p : P) (hp : ed.mProject = some p) :
    beginMoveKeys E ed aWorldPos =
      if (E.focusSelect ed.mRows ed.mTimeScale ed.mFocus
            { type := EventType.MoveKey, targets := [] }).1 then
        (true,
         { ed with
           mFocus := (E.focusSelect ed.mRows ed.mTimeScale ed.mFocus
             { type := EventType.MoveKey, targets := [] }).2.2
           mProject := some (E.exec (E.exec (E.exec (E.exec p (Call.beginMacro "move time keys"))
             (Call.grabListener (E.focusSelect ed.mRows ed.mTimeScale ed.mFocus
               { type := EventType.MoveKey, targets := [] }).2.1))
             (Call.push (Command.moveKey (MoveKey.mk (E.focusSelect ed.mRows ed.mTimeScale
               ed.mFocus { type := EventType.MoveKey, targets := [] }).2.1)))) Call.endMacro)
           calls := ed.calls ++ [Call.beginMacro "move time keys",
             Call.grabListener (E.focusSelect ed.mRows ed.mTimeScale ed.mFocus
               { type := EventType.MoveKey, targets := [] }).2.1,
             Call.push (Command.moveKey (MoveKey.mk (E.focusSelect ed.mRows ed.mTimeScale
               ed.mFocus { type := EventType.MoveKey, targets := [] }).2.1)),
             Call.endMacro]
           mMoveRef := some (MoveKey.mk (E.focusSelect ed.mRows ed.mTimeScale ed.mFocus
             { type := EventType.MoveKey, targets := [] }).2.1)
           mMoveFrame := E.frame ed.mTimeScale (aWorldPos.x - kTimeLineMargin)
           mOnUpdatingKey := false })
      else
        (false,
         { ed with
           mFocus := (E.focusSelect ed.mRows ed.mTimeScale ed.mFocus
             { type := EventType.MoveKey, targets := [] }).2.2
           mMoveRef := none
           mOnUpdatingKey := false }) := by
  simp only [beginMoveKeys, TimeLineEvent.init]
  split_ifs <;> simp [hp, callProject, updateKey]

theorem modifyMoveKeys_eq (E : Collab F S P) (ed : TimeLineEditor F S P) (aWorldPos : QPoint)
    (p : P) (m : MoveKey) (hp : ed.mProject = some p) (hm : ed.mMoveRef = some m)
    (hmod : E.isModifiable p (some m) = true) :
    modifyMoveKeys E ed aWorldPos =
      if (E.modifyMove p m (E.frame ed.mTimeScale (aWorldPos.x - kTimeLineMargin) - ed.mMoveFrame)
            { min := 0, max := ed.mTimeMax }).1 then
        (true,
         { ed with
           mProject := some (E.exec (E.exec p
             (Call.modifyMove m
               (E.frame ed.mTimeScale (aWorldPos.x - kTimeLineMargin) - ed.mMoveFrame)
               { min := 0, max := ed.mTimeMax }))
             (Call.onTimeLineModified
               (E.modifyMove p m
                 (E.frame ed.mTimeScale (aWorldPos.x - kTimeLineMargin) - ed.mMoveFrame)
                 { min := 0, max := ed.mTimeMax }).2 false))
           calls := ed.calls ++ [Call.modifyMove m
               (E.frame ed.mTimeScale (aWorldPos.x - kTimeLineMargin) - ed.mMoveFrame)
               { min := 0, max := ed.mTimeMax },
             Call.onTimeLineModified
               (E.modifyMove p m
                 (E.frame ed.mTimeScale (aWorldPos.x - kTimeLineMargin) - ed.mMoveFrame)
                 { min := 0, max := ed.mTimeMax }).2 false]
           mMoveFrame := E.frame ed.mTimeScale (aWorldPos.x - kTimeLineMargin)
           mFocus := E.focusMoveBoundingRect ed.mRows ed.mTimeScale ed.mFocus
             (E.frame ed.mTimeScale (aWorldPos.x - kTimeLineMargin) - ed.mMoveFrame)
           mOnUpdatingKey := false })
      else
        (true,
         { ed with
           mProject := some (E.exec p
             (Call.modifyMove m
               (E.frame ed.mTimeScale (aWorldPos.x - kTimeLineMargin) - ed.mMoveFrame)
               { min := 0, max := ed.mTimeMax }))
           calls := ed.calls ++ [Call.modifyMove m
               (E.frame ed.mTimeScale (aWorldPos.x - kTimeLineMargin) - ed.mMoveFrame)
               { min := 0, max := ed.mTimeMax }]
           mOnUpdatingKey := false }) := by
  simp only [modifyMoveKeys, hp, hm, hmod, if_true]
  split_ifs <;> simp [hp, callProject, updateKey]

theorem modifyMoveKeys_stale (E : Collab F S P) (ed : TimeLineEditor F S P) (aWorldPos : QPoint)
    (p : P) (hp : ed.mProject = some p) (hmod : E.isModifiable p ed.mMoveRef = false) :
    modifyMoveKeys E ed aWorldPos = (false, ed) := by
  simp [modifyMoveKeys, hp, hmod]

theorem updateCursor_eq_blocks (E : Collab F S P) (ed : TimeLineEditor F S P)
    (aCursor : AbstractCursor) :
    updateCursor E ed aCursor =
      match ed.mProject with
      | none => ({ modView := false, modFrame := false }, ed)
      | some _ =>
        viewChanged E
          (if aCursor.isLeftPressState then pressStandby E (pressEnclose E ed aCursor) aCursor
           else if aCursor.isLeftMoveState then onMove E ed aCursor
           else if aCursor.isLeftReleaseState then onRelease E ed
           else onIdle E ed aCursor) := by
  rfl

theorem updateCursor_of_project (E : Collab F S P) (ed : TimeLineEditor F S P)
    (aCursor : AbstractCursor) (p : P) (hp : ed.mProject = some p) :
    updateCursor E ed aCursor =
      viewChanged E
        (if aCursor.isLeftPressState then pressStandby E (pressEnclose E ed aCursor) aCursor
         else if aCursor.isLeftMoveState then onMove E ed aCursor
         else if aCursor.isLeftReleaseState then onRelease E ed
         else onIdle E ed aCursor) := by
  rw [updateCursor_eq_blocks, hp]

theorem updateCursor_no_project (E : Collab F S P) (ed : TimeLineEditor F S P)
    (aCursor : AbstractCursor) (hp : ed.mProject = none) :
    updateCursor E ed aCursor = ({ modView := false, modFrame := false }, ed) := by
  rw [updateCursor_eq_blocks, hp]

theorem viewChanged_snd (E : Collab F S P) (r : UpdateFlags × TimeLineEditor F S P) :
    (viewChanged E r).2 = r.2 := by
  unfold viewChanged
  split_ifs <;> rfl

theorem viewChanged_modView (E : Collab F S P) (r : UpdateFlags × TimeLineEditor F S P)
    (h : r.1.modView = true) : (viewChanged E r).1.modView = true := by
  unfold viewChanged
  split_ifs
  · rfl
  · exact h

theorem pushed_append (a b : List Call) : pushed (a ++ b) = pushed a ++ pushed b := by
  induction a with
  | nil => rfl
  | cons c cs ih => cases c <;> simp [pushed, ih]

theorem modifyMoveKeys_pushed (E : Collab F S P) (ed : TimeLineEditor F S P)
    (aWorldPos : QPoint) : pushed (modifyMoveKeys E ed aWorldPos).2.calls = pushed ed.calls := by
  cases hp : ed.mProject with
  | none => simp [modifyMoveKeys, hp]
  | some p =>
    cases hm : ed.mMoveRef with
    | none =>
      simp only [modifyMoveKeys, hp, hm]
      split_ifs <;> rfl
    | some m =>
      simp only [modifyMoveKeys, hp, hm]
      split_ifs <;> simp [callProject, hp, updateKey, pushed_append, pushed]

end TimeLineEditor

open TimeLineEditor

/-! ## Presses, moves and sequences of cursor events -/

theorem updateCursor_pushed_of_not_press (E : Collab F S P) (ed : TimeLineEditor F S P)
    (aCursor : AbstractCursor) (hpress : aCursor.isLeftPressState = false) :
    pushed (updateCursor E ed aCursor).2.calls = pushed ed.calls := by
  cases hp : ed.mProject with
  | none => rw [updateCursor_no_project E ed aCursor hp]
  | some p =>
    rw [updateCursor_of_project E ed aCursor p hp, viewChanged_snd]
    simp only [hpress, Bool.false_eq_true, if_false]
    split_ifs
    · simp only [onMove]
      split_ifs <;> simp [modifyMoveKeys_pushed]
    · simp only [onRelease]
      split_ifs <;> rfl
    · simp only [onIdle]
      split_ifs <;> rfl

theorem drive_pushed_of_not_press (E : Collab F S P) (cs : List AbstractCursor)
    (ed : TimeLineEditor F S P) (hcs : ∀ c ∈ cs, c.isLeftPressState = false) :
    pushed (drive E ed cs).calls = pushed ed.calls := by
  induction cs generalizing ed with
  | nil => rfl
  | cons c cs ih =>
    simp only [drive]
    rw [ih _ (fun c' hc' => hcs c' (List.mem_cons_of_mem _ hc')),
      updateCursor_pushed_of_not_press E ed c (hcs c (List.mem_cons_self _ _))]

theorem drive_append (E : Collab F S P) (a b : List AbstractCursor)
    (ed : TimeLineEditor F S P) : drive E ed (a ++ b) = drive E (drive E ed a) b := by
  induction a generalizing ed with
  | nil => rfl
  | cons c cs ih => exact ih _

theorem updateCursor_calls_of_release (E : Collab F S P) (ed : TimeLineEditor F S P)
    (aCursor : AbstractCursor) (hpress : aCursor.isLeftPressState = false)
    (hmove : aCursor.isLeftMoveState = false) (hrel : aCursor.isLeftReleaseState = true) :
    (updateCursor E ed aCursor).2.calls = ed.calls := by
  cases hp : ed.mProject with
  | none => rw [updateCursor_no_project E ed aCursor hp]
  | some p =>
    rw [updateCursor_of_project E ed aCursor p hp, viewChanged_snd]
    simp only [hpress, hmove, hrel, Bool.false_eq_true, if_false, if_true, onRelease]
    split_ifs <;> rfl

theorem pressStandby_of_not_standby (E : Collab F S P)
    (r1 : UpdateFlags × TimeLineEditor F S P) (aCursor : AbstractCursor)
    (h : r1.2.mState ≠ State.Standby) : pressStandby E r1 aCursor = r1 := by
  simp [pressStandby, h]

theorem pressStandby_entering_moveKeys (E : Collab F S P)
    (r1 : UpdateFlags × TimeLineEditor F S P) (aCursor : AbstractCursor) (p : P)
    (hp : r1.2.mProject = some p) (hs : r1.2.mState = State.Standby)
    (henter : (pressStandby E r1 aCursor).2.mState = State.MoveKeys) :
    ∃ m, (pressStandby E r1 aCursor).2.mMoveRef = some m
      ∧ pushed (pressStandby E r1 aCursor).2.calls = pushed r1.2.calls ++ [Command.moveKey m] := by
  simp only [pressStandby, hs, if_true] at henter ⊢
  split_ifs at henter ⊢
  all_goals try (simp at henter)
  refine ⟨MoveKey.mk (E.createMoveNotifier (E.exec p (Call.beginMacro "move time key"))
    (E.focusReset r1.2.mRows r1.2.mTimeScale r1.2.mFocus aCursor.worldPoint).2), ?_, ?_⟩
  · simp [beginMoveKey_eq E _ _ p, hp]
  · simp [beginMoveKey_eq E _ _ p, hp, pushed_append, pushed]

theorem pressEnclose_of_not_enclose (E : Collab F S P) (ed : TimeLineEditor F S P)
    (aCursor : AbstractCursor) (h : ed.mState ≠ State.EncloseKeys) :
    pressEnclose E ed aCursor = ({ modView := false, modFrame := false }, ed) := by
  simp [pressEnclose, h]

theorem press_entering_moveKeys (E : Collab F S P) (ed : TimeLineEditor F S P)
    (aCursor : AbstractCursor) (hpress : aCursor.isLeftPressState = true)
    (hbefore : ed.mState ≠ State.MoveKeys)
    (henter : (updateCursor E ed aCursor).2.mState = State.MoveKeys) :
    ∃ m, (updateCursor E ed aCursor).2.mMoveRef = some m
      ∧ pushed (updateCursor E ed aCursor).2.calls = pushed ed.calls ++ [Command.moveKey m] := by
  cases hp : ed.mProject with
  | none =>
    rw [updateCursor_no_project E ed aCursor hp] at henter
    exact absurd henter hbefore
  | some p =>
    rw [updateCursor_of_project E ed aCursor p hp, viewChanged_snd] at henter ⊢
    simp only [hpress, if_true] at henter ⊢
    by_cases hs : ed.mState = State.EncloseKeys
    · by_cases hin : E.focusIsInRange ed.mRows ed.mTimeScale ed.mFocus aCursor.worldPoint = true
      · by_cases hsel : (E.focusSelect ed.mRows ed.mTimeScale ed.mFocus
            { type := EventType.MoveKey, targets := [] }).1 = true
        · have hr : pressEnclose E ed aCursor =
              ({ modView := true, modFrame := false },
               { (beginMoveKeys E ed aCursor.worldPoint).2 with mState := State.MoveKeys }) := by
            simp [pressEnclose, hs, hin, beginMoveKeys_eq E ed _ p hp, hsel]
          rw [hr, pressStandby_of_not_standby E _ _ (by simp)]
          refine ⟨MoveKey.mk (E.focusSelect ed.mRows ed.mTimeScale ed.mFocus
            { type := EventType.MoveKey, targets := [] }).2.1, ?_, ?_⟩
          · simp only [beginMoveKeys_eq E ed _ p hp, hsel, if_true]
          · simp [beginMoveKeys_eq E ed _ p hp, hsel, pushed_append, pushed]
        · have hr : pressEnclose E ed aCursor =
              ({ modView := true, modFrame := false },
               { (beginMoveKeys E ed aCursor.worldPoint).2 with
                 mShowSelectionRange := false, mState := State.Standby }) := by
            simp [pressEnclose, hs, hin, beginMoveKeys_eq E ed _ p hp, hsel]
          rw [hr] at henter ⊢
          have hc : (beginMoveKeys E ed aCursor.worldPoint).2.calls = ed.calls := by
            simp [beginMoveKeys_eq E ed _ p hp, hsel]
          have hp2 : (beginMoveKeys E ed aCursor.worldPoint).2.mProject = some p := by
            simp [beginMoveKeys_eq E ed _ p hp, hsel, hp]
          have := pressStandby_entering_moveKeys E _ aCursor p (by simpa using hp2) rfl henter
          simpa [hc] using this
      · have hr : pressEnclose E ed aCursor =
            ({ modView := true, modFrame := false },
             { ed with mShowSelectionRange := false, mState := State.Standby }) := by
          simp [pressEnclose, hs, hin]
        rw [hr] at henter ⊢
        exact pressStandby_entering_moveKeys E _ aCursor p hp rfl henter
    · rw [pressEnclose_of_not_enclose E ed aCursor hs] at henter ⊢
      by_cases hst : ed.mState = State.Standby
      · exact pressStandby_entering_moveKeys E _ aCursor p hp hst henter
      · rw [pressStandby_of_not_standby E _ _ hst] at henter
        exact absurd henter hbefore

/-- A left move during a drag of `m`: the drag goes on with the same command or is
abandoned, and the calls made are amendments of `m`. -/
theorem updateCursor_move_amends (E : Collab F S P) (ed : TimeLineEditor F S P)
    (aCursor : AbstractCursor) (m : MoveKey) (hpress : aCursor.isLeftPressState = false)
    (hmove : aCursor.isLeftMoveState = true)
    (hinv : (ed.mState = State.MoveKeys ∧ ed.mMoveRef = some m) ∨ ed.mState = State.Standby) :
    (((updateCursor E ed aCursor).2.mState = State.MoveKeys
          ∧ (updateCursor E ed aCursor).2.mMoveRef = some m)
        ∨ (updateCursor E ed aCursor).2.mState = State.Standby)
      ∧ ∃ added, (updateCursor E ed aCursor).2.calls = ed.calls ++ added
          ∧ ∀ c ∈ added, Call.Amends m c := by
  cases hp : ed.mProject with
  | none =>
    rw [updateCursor_no_project E ed aCursor hp]
    exact ⟨hinv, [], by simp, by simp⟩
  | some p =>
    rw [updateCursor_of_project E ed aCursor p hp, viewChanged_snd]
    simp only [hpress, hmove, Bool.false_eq_true, if_false, if_true]
    rcases hinv with ⟨hs, hm⟩ | hs
    · by_cases hmod : E.isModifiable p (some m) = true
      · have hmk := modifyMoveKeys_eq E ed aCursor.worldPoint p m hp hm hmod
        by_cases hr : (E.modifyMove p m
            (E.frame ed.mTimeScale (aCursor.worldPoint.x - kTimeLineMargin) - ed.mMoveFrame)
            { min := 0, max := ed.mTimeMax }).1 = true
        · simp only [hr, if_true] at hmk
          refine ⟨Or.inl (by simp [onMove, hs, hmk, hm]),
            [Call.modifyMove m
              (E.frame ed.mTimeScale (aCursor.worldPoint.x - kTimeLineMargin) - ed.mMoveFrame)
              { min := 0, max := ed.mTimeMax },
             Call.onTimeLineModified
              (E.modifyMove p m
                (E.frame ed.mTimeScale (aCursor.worldPoint.x - kTimeLineMargin) - ed.mMoveFrame)
                { min := 0, max := ed.mTimeMax }).2 false], ?_, ?_⟩
          · simp [onMove, hs, hmk]
          · simp [Call.Amends]
        · simp only [hr, if_false] at hmk
          refine ⟨Or.inl (by simp [onMove, hs, hmk, hm]),
            [Call.modifyMove m
              (E.frame ed.mTimeScale (aCursor.worldPoint.x - kTimeLineMargin) - ed.mMoveFrame)
              { min := 0, max := ed.mTimeMax }], ?_, ?_⟩
          · simp [onMove, hs, hmk]
          · simp [Call.Amends]
      · have hst := modifyMoveKeys_stale E ed aCursor.worldPoint p hp
          (by rw [hm]; simpa using hmod)
        refine ⟨Or.inr (by simp [onMove, hs, hst]), [], ?_, by simp⟩
        simp [onMove, hs, hst]
    · refine ⟨Or.inr (by simp [onMove, hs]), [], ?_, by simp⟩
      simp [onMove, hs]

theorem drive_moves_amend (E : Collab F S P) (moves : List AbstractCursor)
    (ed : TimeLineEditor F S P) (m : MoveKey)
    (hmoves : ∀ c ∈ moves, c.isLeftPressState = false ∧ c.isLeftMoveState = true)
    (hinv : (ed.mState = State.MoveKeys ∧ ed.mMoveRef = some m) ∨ ed.mState = State.Standby) :
    ∃ added, (drive E ed moves).calls = ed.calls ++ added ∧ ∀ c ∈ added, Call.Amends m c := by
  induction moves generalizing ed with
  | nil => exact ⟨[], by simp [drive], by simp⟩
  | cons c cs ih =>
    obtain ⟨hinv1, a1, ha1, hall1⟩ :=
      updateCursor_move_amends E ed c m (hmoves c (List.mem_cons_self _ _)).1
        (hmoves c (List.mem_cons_self _ _)).2 hinv
    obtain ⟨a2, ha2, hall2⟩ :=
      ih (updateCursor E ed c).2 (fun c1 hc1 => hmoves c1 (List.mem_cons_of_mem _ hc1)) hinv1
    refine ⟨a1 ++ a2, ?_, ?_⟩
    · simp only [drive, ha2, ha1, List.append_assoc]
    · intro x hx
      rcases List.mem_append.mp hx with h | h
      · exact hall1 x h
      · exact hall2 x h

theorem pressStandby_snd (E : Collab F S P) (f g : UpdateFlags) (ed : TimeLineEditor F S P)
    (aCursor : AbstractCursor) :
    (pressStandby E (f, ed) aCursor).2 = (pressStandby E (g, ed) aCursor).2 := by
  simp only [pressStandby]
  split_ifs <;> rfl

theorem pressStandby_from_standby (E : Collab F S P) (r1 : UpdateFlags × TimeLineEditor F S P)
    (aCursor : AbstractCursor) (p : P) (hp : r1.2.mProject = some p)
    (hs : r1.2.mState = State.Standby) (hov : r1.2.mShowSelectionRange = false) :
    (pressStandby E r1 aCursor).2.mState ≠ State.Standby
      ∧ ((pressStandby E r1 aCursor).2.mShowSelectionRange = true
          ↔ (pressStandby E r1 aCursor).2.mState = State.EncloseKeys)
      ∧ (pressStandby E r1 aCursor).1.modView = true := by
  simp only [pressStandby, hs, if_true]
  split_ifs <;> simp [hov, beginMoveKey_eq E _ _ p, hp]

theorem pressEnclose_discard (E : Collab F S P) (ed : TimeLineEditor F S P)
    (aCursor : AbstractCursor) (p : P) (hp : ed.mProject = some p)
    (hs : ed.mState = State.EncloseKeys)
    (hnot : ¬ (E.focusIsInRange ed.mRows ed.mTimeScale ed.mFocus aCursor.worldPoint = true
      ∧ (beginMoveKeys E ed aCursor.worldPoint).1 = true)) :
    (pressEnclose E ed aCursor).2.mState = State.Standby
      ∧ (pressEnclose E ed aCursor).2.mShowSelectionRange = false
      ∧ (pressEnclose E ed aCursor).2.mProject = some p := by
  by_cases hin : E.focusIsInRange ed.mRows ed.mTimeScale ed.mFocus aCursor.worldPoint = true
  · have hb : (beginMoveKeys E ed aCursor.worldPoint).1 = false := by
      cases h : (beginMoveKeys E ed aCursor.worldPoint).1
      · rfl
      · exact absurd ⟨hin, h⟩ hnot
    have hproj : (beginMoveKeys E ed aCursor.worldPoint).2.mProject = some p := by
      rw [beginMoveKeys_eq E ed _ p hp] at hb ⊢
      split_ifs at hb ⊢
      exact hp
    simp [pressEnclose, hs, hin, hb, hproj]
  · simp [pressEnclose, hs, hin, hp]

/-! ## The timeline editor: C1 to C7 -/

/-- C1: in state Standby with a project set, a left press picks the next state in this
order: within the handle range, MoveCurrent (the handle stays where it is); else with
screen y above the header band (`y < 22`), the handle is snapped to the pointer and the
state is MoveCurrent; else with a valid single target returned by `mFocus.reset`, a
single-key move is begun (`beginMoveKey`, which pushes the one move command) and the state
is MoveKeys; else the selection overlay is shown and the state is EncloseKeys. In all four
cases the flags contain ModView. -/
theorem press_in_standby_priority (E : Collab F S P) (ed : TimeLineEditor F S P)
    (aCursor : AbstractCursor) (p : P) (hp : ed.mProject = some p)
    (hs : ed.mState = State.Standby) (hpress : aCursor.isLeftPressState = true) :
    (E.nearHandle aCursor.screenPos ed.mTimeCurrent.handlePos = true →
        (updateCursor E ed aCursor).2.mState = State.MoveCurrent
          ∧ (updateCursor E ed aCursor).2.mTimeCurrent = ed.mTimeCurrent)
      ∧ (E.nearHandle aCursor.screenPos ed.mTimeCurrent.handlePos = false →
          aCursor.screenPos.y < 22 →
        (updateCursor E ed aCursor).2.mState = State.MoveCurrent
          ∧ (updateCursor E ed aCursor).2.mTimeCurrent
              = ed.mTimeCurrent.setHandlePos E ed.mTimeScale aCursor.worldPosPoint)
      ∧ (E.nearHandle aCursor.screenPos ed.mTimeCurrent.handlePos = false →
          ¬ aCursor.screenPos.y < 22 →
          (E.focusReset ed.mRows ed.mTimeScale ed.mFocus aCursor.worldPoint).2.isValid = true →
        (updateCursor E ed aCursor).2.mState = State.MoveKeys
          ∧ (updateCursor E ed aCursor).2
              = { (beginMoveKey E
                    { ed with
                      mFocus := (E.focusReset ed.mRows ed.mTimeScale ed.mFocus
                        aCursor.worldPoint).1 }
                    (E.focusReset ed.mRows ed.mTimeScale ed.mFocus aCursor.worldPoint).2)
                  with mState := State.MoveKeys }
          ∧ (updateCursor E ed aCursor).2.mMoveRef
              = some (MoveKey.mk (E.createMoveNotifier
                  (E.exec p (Call.beginMacro "move time key"))
                  (E.focusReset ed.mRows ed.mTimeScale ed.mFocus aCursor.worldPoint).2))
          ∧ (updateCursor E ed aCursor).2.calls
              = ed.calls ++ [Call.beginMacro "move time key",
                  Call.grabListener (E.createMoveNotifier
                  (E.exec p (Call.beginMacro "move time key"))
                    (E.focusReset ed.mRows ed.mTimeScale ed.mFocus aCursor.worldPoint).2),
                  Call.push (Command.moveKey (MoveKey.mk (E.createMoveNotifier
                  (E.exec p (Call.beginMacro "move time key"))
                    (E.focusReset ed.mRows ed.mTimeScale ed.mFocus aCursor.worldPoint).2))),
                  Call.endMacro])
      ∧ (E.nearHandle aCursor.screenPos ed.mTimeCurrent.handlePos = false →
          ¬ aCursor.screenPos.y < 22 →
          (E.focusReset ed.mRows ed.mTimeScale ed.mFocus aCursor.worldPoint).2.isValid = false →
        (updateCursor E ed aCursor).2.mState = State.EncloseKeys
          ∧ (updateCursor E ed aCursor).2.mShowSelectionRange = true)
      ∧ (updateCursor E ed aCursor).1.modView = true := by
  have hk : ((kHeaderHeight : Int) : ℚ) = 22 := by norm_num [kHeaderHeight]
  refine ⟨?_, ?_, ?_, ?_, ?_⟩
  · intro hn
    simp only [updateCursor, hp, hs, hpress, TimeCurrent.handlePos] at hn ⊢
    simp [hn]
    split_ifs <;> simp
  · intro hn hy
    simp only [updateCursor, hp, hs, hpress, TimeCurrent.handlePos, hk] at hn ⊢
    simp [hn, hy]
    split_ifs <;> simp
  · intro hn hy hv
    simp only [updateCursor, hp, hs, hpress, TimeCurrent.handlePos, hk] at hn ⊢
    simp [hn, hy, hv]
    split_ifs <;> simp [beginMoveKey_eq E _ _ p, hp]
  · intro hn hy hv
    simp only [updateCursor, hp, hs, hpress, TimeCurrent.handlePos, hk] at hn ⊢
    simp [hn, hy, hv]
    split_ifs <;> simp
  · simp only [updateCursor, hp, hs, hpress, hk]
    simp
    split_ifs <;> simp

/-- A press on `key1` of `editor0`: third case of C1. -/
theorem press_in_standby_priority_witness :
    Ref.editor0.mProject = some Ref.project0
      ∧ Ref.editor0.mState = State.Standby
      ∧ Ref.collab.nearHandle (Ref.pressAt 34 40).screenPos Ref.editor0.mTimeCurrent.handlePos
          = false
      ∧ ¬ (Ref.pressAt 34 40).screenPos.y < 22
      ∧ (Ref.collab.focusReset Ref.editor0.mRows Ref.editor0.mTimeScale Ref.editor0.mFocus
          (Ref.pressAt 34 40).worldPoint).2.isValid = true
      ∧ (updateCursor Ref.collab Ref.editor0 (Ref.pressAt 34 40)).2.mState = State.MoveKeys
      ∧ (updateCursor Ref.collab Ref.editor0 (Ref.pressAt 34 40)).2.mMoveRef
          = some { event := { type := EventType.MoveKey, targets := [Ref.key1] } }
      ∧ (updateCursor Ref.collab Ref.editor0 (Ref.pressAt 34 40)).1.modView = true :=
  ⟨by decide!, by decide!, by decide!, by decide!, by decide!,
   ((press_in_standby_priority Ref.collab Ref.editor0 (Ref.pressAt 34 40) Ref.project0
      (by decide!) (by decide!) rfl).2.2.1 (by decide!) (by decide!) (by decide!)).1,
   ((press_in_standby_priority Ref.collab Ref.editor0 (Ref.pressAt 34 40) Ref.project0
      (by decide!) (by decide!) rfl).2.2.1 (by decide!) (by decide!) (by decide!)).2.2.1,
   (press_in_standby_priority Ref.collab Ref.editor0 (Ref.pressAt 34 40) Ref.project0
      (by decide!) (by decide!) rfl).2.2.2.2⟩

/-- C2, as stated, fails: `editorEnclosing` is in state EncloseKeys with a range; a press at
(200, 100), outside the range, leaves the editor in state EncloseKeys with the overlay
shown, not in Standby with the overlay hidden. -/
theorem press_outside_range_counterexample :
    Ref.editorEnclosing.mProject.isSome = true
      ∧ Ref.editorEnclosing.mState = State.EncloseKeys
      ∧ (Ref.pressAt 200 100).isLeftPressState = true
      ∧ Ref.collab.focusIsInRange Ref.editorEnclosing.mRows Ref.editorEnclosing.mTimeScale
          Ref.editorEnclosing.mFocus (Ref.pressAt 200 100).worldPoint = false
      ∧ (updateCursor Ref.collab Ref.editorEnclosing (Ref.pressAt 200 100)).2.mState
          = State.EncloseKeys
      ∧ (updateCursor Ref.collab Ref.editorEnclosing (Ref.pressAt 200 100)).2.mShowSelectionRange
          = true := by
  decide!

/-- C2, amended: in state EncloseKeys with a project set, when a left press is not (inside
the range with `beginMoveKeys` succeeding), the first block of `updateCursor` discards the
range (state Standby, overlay hidden) and the same call then handles the press as a press
in Standby on that editor: the call ends in MoveCurrent, MoveKeys or EncloseKeys, never in
Standby, the overlay flag is true exactly when it ends in EncloseKeys, and the flags contain
ModView. -/
theorem press_outside_range_restarts (E : Collab F S P) (ed : TimeLineEditor F S P)
    (aCursor : AbstractCursor) (p : P) (hp : ed.mProject = some p)
    (hs : ed.mState = State.EncloseKeys) (hpress : aCursor.isLeftPressState = true)
    (hnot : ¬ (E.focusIsInRange ed.mRows ed.mTimeScale ed.mFocus aCursor.worldPoint = true
      ∧ (beginMoveKeys E ed aCursor.worldPoint).1 = true)) :
    (pressEnclose E ed aCursor).2.mState = State.Standby
      ∧ (pressEnclose E ed aCursor).2.mShowSelectionRange = false
      ∧ (updateCursor E ed aCursor).2
          = (updateCursor E (pressEnclose E ed aCursor).2 aCursor).2
      ∧ (updateCursor E ed aCursor).2.mState ≠ State.Standby
      ∧ ((updateCursor E ed aCursor).2.mShowSelectionRange = true
          ↔ (updateCursor E ed aCursor).2.mState = State.EncloseKeys)
      ∧ (updateCursor E ed aCursor).1.modView = true := by
  obtain ⟨hds, hdo, hdp⟩ := pressEnclose_discard E ed aCursor p hp hs hnot
  obtain ⟨h1, h2, h3⟩ := pressStandby_from_standby E (pressEnclose E ed aCursor) aCursor p hdp hds hdo
  have hd : pressEnclose E (pressEnclose E ed aCursor).2 aCursor
      = ({ modView := false, modFrame := false }, (pressEnclose E ed aCursor).2) :=
    pressEnclose_of_not_enclose E _ aCursor (by rw [hds]; decide)
  refine ⟨hds, hdo, ?_, ?_, ?_, ?_⟩
  · rw [updateCursor_of_project E ed aCursor p hp,
      updateCursor_of_project E _ aCursor p hdp, viewChanged_snd, viewChanged_snd]
    simp only [hpress, if_true, hd]
    exact pressStandby_snd E _ _ _ aCursor
  · rw [updateCursor_of_project E ed aCursor p hp, viewChanged_snd]
    simpa only [hpress, if_true] using h1
  · rw [updateCursor_of_project E ed aCursor p hp, viewChanged_snd]
    simpa only [hpress, if_true] using h2
  · rw [updateCursor_of_project E ed aCursor p hp]
    apply viewChanged_modView
    simpa only [hpress, if_true] using h3

/-- A press below the enclosure of `editorEnclosing`. -/
theorem press_outside_range_restarts_witness :
    ¬ (Ref.collab.focusIsInRange Ref.editorEnclosing.mRows Ref.editorEnclosing.mTimeScale
          Ref.editorEnclosing.mFocus (Ref.pressAt 40 100).worldPoint = true
        ∧ (beginMoveKeys Ref.collab Ref.editorEnclosing (Ref.pressAt 40 100).worldPoint).1 = true)
      ∧ (updateCursor Ref.collab Ref.editorEnclosing (Ref.pressAt 40 100)).2.mState
          ≠ State.Standby
      ∧ ((updateCursor Ref.collab Ref.editorEnclosing (Ref.pressAt 40 100)).2.mShowSelectionRange
            = true
          ↔ (updateCursor Ref.collab Ref.editorEnclosing (Ref.pressAt 40 100)).2.mState
            = State.EncloseKeys) :=
  ⟨by decide!,
   (press_outside_range_restarts Ref.collab Ref.editorEnclosing (Ref.pressAt 40 100)
      Ref.projectEnclosing (by decide!) (by decide!) rfl (by decide!)).2.2.2.1,
   (press_outside_range_restarts Ref.collab Ref.editorEnclosing (Ref.pressAt 40 100)
      Ref.projectEnclosing (by decide!) (by decide!) rfl (by decide!)).2.2.2.2.1⟩

/-- C3: in state MoveKeys, when the command stack reports that the outstanding move command
is not modifiable, a left-move event leaves the editor in Standby with a null move
reference and the focus cleared; no call is made on the project side (`modifyMove` is not
called) and the project is as before. -/
theorem stale_move_is_abandoned (E : Collab F S P) (ed : TimeLineEditor F S P)
    (aCursor : AbstractCursor) (p : P) (hp : ed.mProject = some p)
    (hs : ed.mState = State.MoveKeys) (hmod : E.isModifiable p ed.mMoveRef = false)
    (hpress : aCursor.isLeftPressState = false) (hmove : aCursor.isLeftMoveState = true) :
    (updateCursor E ed aCursor).2.mState = State.Standby
      ∧ (updateCursor E ed aCursor).2.mMoveRef = none
      ∧ (updateCursor E ed aCursor).2.mFocus = E.focusClear ed.mRows ed.mTimeScale ed.mFocus
      ∧ (updateCursor E ed aCursor).2.calls = ed.calls
      ∧ (updateCursor E ed aCursor).2.mProject = some p := by
  simp only [updateCursor, hp, hs, hpress, hmove, modifyMoveKeys_stale E ed _ p hp hmod]
  simp

/-- A move of `editorStale`, whose move command is covered by another command. -/
theorem stale_move_is_abandoned_witness :
    Ref.editorStale.mProject = some Ref.projectStale
      ∧ Ref.editorStale.mState = State.MoveKeys
      ∧ Ref.collab.isModifiable Ref.projectStale Ref.editorStale.mMoveRef = false
      ∧ (updateCursor Ref.collab Ref.editorStale (Ref.moveTo 44 40)).2.mState = State.Standby
      ∧ (updateCursor Ref.collab Ref.editorStale (Ref.moveTo 44 40)).2.mMoveRef = none
      ∧ (updateCursor Ref.collab Ref.editorStale (Ref.moveTo 44 40)).2.calls
          = Ref.editorStale.calls :=
  ⟨rfl, by decide!, by decide!,
   (stale_move_is_abandoned Ref.collab Ref.editorStale (Ref.moveTo 44 40) Ref.projectStale rfl
      (by decide!) (by decide!) rfl rfl).1,
   (stale_move_is_abandoned Ref.collab Ref.editorStale (Ref.moveTo 44 40) Ref.projectStale rfl
      (by decide!) (by decide!) rfl rfl).2.1,
   (stale_move_is_abandoned Ref.collab Ref.editorStale (Ref.moveTo 44 40) Ref.projectStale rfl
      (by decide!) (by decide!) rfl rfl).2.2.2.1⟩

/-- C4: one drag is one undo entry. For a left press that enters MoveKeys (through
`beginMoveKey` or `beginMoveKeys`), any number of left moves and a left release: the press
pushes exactly one command, the move command `mMoveRef` refers to, and it is the only
command pushed during the whole sequence. No call of `updateCursor` other than a press
pushes a command. While the stack calls the command modifiable, a move in state MoveKeys
calls `modifyMove` on that same command (followed by `onTimeLineModified` when it is
accepted), and state and move reference stay as they are; all the calls made after the
press, up to and including the release, are such amendments of that one command. -/
theorem one_drag_one_command (E : Collab F S P) (ed : TimeLineEditor F S P)
    (press : AbstractCursor) (moves : List AbstractCursor) (release : AbstractCursor)
    (hpress : press.isLeftPressState = true)
    (hbefore : ed.mState ≠ State.MoveKeys)
    (henter : (updateCursor E ed press).2.mState = State.MoveKeys)
    (hmoves : ∀ c ∈ moves, c.isLeftPressState = false ∧ c.isLeftMoveState = true)
    (hrelease : release.isLeftPressState = false ∧ release.isLeftMoveState = false
      ∧ release.isLeftReleaseState = true) :
    (∃ m, (updateCursor E ed press).2.mMoveRef = some m
        ∧ pushed (updateCursor E ed press).2.calls = pushed ed.calls ++ [Command.moveKey m]
        ∧ pushed (drive E ed (press :: (moves ++ [release]))).calls
            = pushed ed.calls ++ [Command.moveKey m]
        ∧ ∃ amendments,
            (drive E ed (press :: (moves ++ [release]))).calls
                = (updateCursor E ed press).2.calls ++ amendments
              ∧ ∀ c ∈ amendments, Call.Amends m c)
      ∧ (∀ (ed1 : TimeLineEditor F S P) (c : AbstractCursor), c.isLeftPressState = false →
          pushed (updateCursor E ed1 c).2.calls = pushed ed1.calls)
      ∧ (∀ (ed1 : TimeLineEditor F S P) (c : AbstractCursor) (p : P) (m : MoveKey),
          ed1.mProject = some p → ed1.mState = State.MoveKeys → ed1.mMoveRef = some m →
          E.isModifiable p (some m) = true →
          c.isLeftPressState = false → c.isLeftMoveState = true →
          (updateCursor E ed1 c).2.mState = State.MoveKeys
            ∧ (updateCursor E ed1 c).2.mMoveRef = some m
            ∧ ((updateCursor E ed1 c).2.calls
                  = ed1.calls ++ [Call.modifyMove m
                      (E.frame ed1.mTimeScale (c.worldPoint.x - kTimeLineMargin) - ed1.mMoveFrame)
                      { min := 0, max := ed1.mTimeMax }]
                ∨ (updateCursor E ed1 c).2.calls
                  = ed1.calls ++ [Call.modifyMove m
                      (E.frame ed1.mTimeScale (c.worldPoint.x - kTimeLineMargin) - ed1.mMoveFrame)
                      { min := 0, max := ed1.mTimeMax },
                    Call.onTimeLineModified
                      (E.modifyMove p m
                        (E.frame ed1.mTimeScale (c.worldPoint.x - kTimeLineMargin)
                          - ed1.mMoveFrame)
                        { min := 0, max := ed1.mTimeMax }).2 false])) := by
  refine ⟨?_, fun ed1 c hc => updateCursor_pushed_of_not_press E ed1 c hc, ?_⟩
  · obtain ⟨m, hm, hpush⟩ := press_entering_moveKeys E ed press hpress hbefore henter
    refine ⟨m, hm, hpush, ?_, ?_⟩
    · simp only [drive]
      rw [drive_pushed_of_not_press E _ _ ?_, hpush]
      intro c hc
      rcases List.mem_append.mp hc with h | h
      · exact (hmoves c h).1
      · rw [List.mem_singleton.mp h]
        exact hrelease.1
    · obtain ⟨added, hadd, hall⟩ :=
        drive_moves_amend E moves (updateCursor E ed press).2 m hmoves (Or.inl ⟨henter, hm⟩)
      refine ⟨added, ?_, hall⟩
      simp only [drive, drive_append]
      rw [updateCursor_calls_of_release E _ release hrelease.1 hrelease.2.1 hrelease.2.2, hadd]
  · intro ed1 c p m hp hs hm hmod hcp hcm
    rw [updateCursor_of_project E ed1 c p hp, viewChanged_snd]
    have hmk := modifyMoveKeys_eq E ed1 c.worldPoint p m hp hm hmod
    by_cases hr : (E.modifyMove p m
        (E.frame ed1.mTimeScale (c.worldPoint.x - kTimeLineMargin) - ed1.mMoveFrame)
        { min := 0, max := ed1.mTimeMax }).1 = true
    · simp only [hr, if_true] at hmk
      simp [hcp, hcm, onMove, hs, hmk, hm]
    · simp only [hr, if_false] at hmk
      simp [hcp, hcm, onMove, hs, hmk, hm]

/-- A drag of `key1` of `editor0`: press, two moves, release. -/
theorem one_drag_one_command_witness :
    Ref.editor0.mState ≠ State.MoveKeys
      ∧ (updateCursor Ref.collab Ref.editor0 (Ref.pressAt 34 40)).2.mState = State.MoveKeys
      ∧ ∃ m, (updateCursor Ref.collab Ref.editor0 (Ref.pressAt 34 40)).2.mMoveRef = some m
        ∧ pushed (updateCursor Ref.collab Ref.editor0 (Ref.pressAt 34 40)).2.calls
            = pushed Ref.editor0.calls ++ [Command.moveKey m]
        ∧ pushed (drive Ref.collab Ref.editor0
              (Ref.pressAt 34 40 :: ([Ref.moveTo 44 40, Ref.moveTo 64 40] ++ [Ref.releaseAt 64 40]))).calls
            = pushed Ref.editor0.calls ++ [Command.moveKey m]
        ∧ ∃ amendments,
            (drive Ref.collab Ref.editor0
              (Ref.pressAt 34 40 :: ([Ref.moveTo 44 40, Ref.moveTo 64 40] ++ [Ref.releaseAt 64 40]))).calls
                = (updateCursor Ref.collab Ref.editor0 (Ref.pressAt 34 40)).2.calls ++ amendments
              ∧ ∀ c ∈ amendments, Call.Amends m c :=
  ⟨by decide!, by decide!,
   (one_drag_one_command Ref.collab Ref.editor0 (Ref.pressAt 34 40)
      [Ref.moveTo 44 40, Ref.moveTo 64 40] (Ref.releaseAt 64 40) rfl (by decide!) (by decide!)
      (by
        intro c hc
        simp only [List.mem_cons, List.mem_singleton, List.not_mem_nil, or_false] at hc
        rcases hc with h | h <;> rw [h] <;> exact ⟨rfl, rfl⟩)
      ⟨rfl, rfl, rfl⟩).1⟩

/-- C5: with a project set, on a left-release event: if the state is not EncloseKeys or the
focus has no range, then afterwards the state is Standby, the move reference is null, the
overlay flag is false and the flags contain ModView; otherwise (EncloseKeys with a range)
the state stays EncloseKeys and the overlay flag and the move reference are unchanged. -/
theorem release_transition (E : Collab F S P) (ed : TimeLineEditor F S P)
    (aCursor : AbstractCursor) (p : P) (hp : ed.mProject = some p)
    (hpress : aCursor.isLeftPressState = false) (hmove : aCursor.isLeftMoveState = false)
    (hrel : aCursor.isLeftReleaseState = true) :
    (ed.mState ≠ State.EncloseKeys ∨ E.focusHasRange ed.mRows ed.mTimeScale ed.mFocus = false →
        (updateCursor E ed aCursor).2.mState = State.Standby
          ∧ (updateCursor E ed aCursor).2.mMoveRef = none
          ∧ (updateCursor E ed aCursor).2.mShowSelectionRange = false
          ∧ (updateCursor E ed aCursor).1.modView = true)
      ∧ (ed.mState = State.EncloseKeys
          ∧ E.focusHasRange ed.mRows ed.mTimeScale ed.mFocus = true →
        (updateCursor E ed aCursor).2.mState = State.EncloseKeys
          ∧ (updateCursor E ed aCursor).2.mShowSelectionRange = ed.mShowSelectionRange
          ∧ (updateCursor E ed aCursor).2.mMoveRef = ed.mMoveRef) := by
  constructor
  · intro h
    simp only [updateCursor, hp, hpress, hmove, hrel]
    simp only [Bool.false_eq_true, if_false, if_true, if_pos h]
    split_ifs <;> simp
  · rintro ⟨h1, h2⟩
    simp only [updateCursor, hp, hpress, hmove, hrel]
    simp [h1, h2]
    split_ifs <;> simp [h1]

/-- A release of `editorMoving`. -/
theorem release_transition_witness :
    (Ref.editorMoving.mState ≠ State.EncloseKeys
        ∨ Ref.collab.focusHasRange Ref.editorMoving.mRows Ref.editorMoving.mTimeScale
            Ref.editorMoving.mFocus = false)
      ∧ (updateCursor Ref.collab Ref.editorMoving (Ref.releaseAt 34 40)).2.mState = State.Standby
      ∧ (updateCursor Ref.collab Ref.editorMoving (Ref.releaseAt 34 40)).2.mMoveRef = none
      ∧ (updateCursor Ref.collab Ref.editorMoving (Ref.releaseAt 34 40)).2.mShowSelectionRange
          = false
      ∧ (updateCursor Ref.collab Ref.editorMoving (Ref.releaseAt 34 40)).1.modView = true :=
  ⟨by decide!,
   (release_transition Ref.collab Ref.editorMoving (Ref.releaseAt 34 40) Ref.projectMoving
      (by decide!)
      rfl rfl rfl).1 (by decide!)⟩

/-- C7, as stated, fails: in `editor0` nothing is focused and no enclosure is active, yet
`checkDeletableKeys` returns false at the point (40, 40). -/
theorem checkDeletableKeys_counterexample :
    Ref.editor0.mFocus.state = Ref.FocusState.Empty
      ∧ Ref.collab.focusHasRange Ref.editor0.mRows Ref.editor0.mTimeScale Ref.editor0.mFocus
          = false
      ∧ (checkDeletableKeys Ref.collab Ref.editor0 TimeLineEvent.init { x := 40, y := 40 }).1
          = false := by
  decide!

/-- C7, amended: `checkDeletableKeys` returns false, leaving the event and the editor as they
were, for every point outside an active non-empty enclosure (`hasRange()` and not
`isInRange(point)`); for a point inside the enclosure, and for every point when no
enclosure is active, it returns what `mFocus.select(event)` returns, with the event as
`select` filled it. -/
theorem checkDeletableKeys_result (E : Collab F S P) (ed : TimeLineEditor F S P)
    (aEvent : TimeLineEvent) (aPos : QPoint) :
    (E.focusHasRange ed.mRows ed.mTimeScale ed.mFocus = true
        ∧ E.focusIsInRange ed.mRows ed.mTimeScale ed.mFocus aPos = false →
      (checkDeletableKeys E ed aEvent aPos).1 = false
        ∧ (checkDeletableKeys E ed aEvent aPos).2.1 = aEvent
        ∧ (checkDeletableKeys E ed aEvent aPos).2.2 = ed)
    ∧ (E.focusIsInRange ed.mRows ed.mTimeScale ed.mFocus aPos = true
        ∨ E.focusHasRange ed.mRows ed.mTimeScale ed.mFocus = false →
      (checkDeletableKeys E ed aEvent aPos).1
          = (E.focusSelect ed.mRows ed.mTimeScale ed.mFocus aEvent).1
        ∧ (checkDeletableKeys E ed aEvent aPos).2.1
          = (E.focusSelect ed.mRows ed.mTimeScale ed.mFocus aEvent).2.1) := by
  constructor
  · rintro ⟨h1, h2⟩
    simp [checkDeletableKeys, h1, h2]
  · intro h
    rcases h with h | h <;> simp [checkDeletableKeys, h]

/-- Deleting outside and inside the enclosure of `editorEnclosing`. -/
theorem checkDeletableKeys_result_witness :
    (Ref.collab.focusHasRange Ref.editorEnclosing.mRows Ref.editorEnclosing.mTimeScale
          Ref.editorEnclosing.mFocus = true
        ∧ Ref.collab.focusIsInRange Ref.editorEnclosing.mRows Ref.editorEnclosing.mTimeScale
          Ref.editorEnclosing.mFocus { x := 400, y := 40 } = false)
      ∧ (checkDeletableKeys Ref.collab Ref.editorEnclosing TimeLineEvent.init
          { x := 400, y := 40 }).1 = false
      ∧ (checkDeletableKeys Ref.collab Ref.editorEnclosing TimeLineEvent.init
          { x := 400, y := 40 }).2.1 = TimeLineEvent.init
      ∧ (checkDeletableKeys Ref.collab Ref.editorEnclosing TimeLineEvent.init
          { x := 40, y := 40 }).1 = true
      ∧ (checkDeletableKeys Ref.collab Ref.editorEnclosing TimeLineEvent.init
          { x := 40, y := 40 }).2.1.targets = [Ref.key1, Ref.key2] :=
  ⟨by decide!,
   ((checkDeletableKeys_result Ref.collab Ref.editorEnclosing TimeLineEvent.init
      { x := 400, y := 40 }).1 (by decide!)).1,
   ((checkDeletableKeys_result Ref.collab Ref.editorEnclosing TimeLineEvent.init
      { x := 400, y := 40 }).1 (by decide!)).2.1,
   by decide!, by decide!⟩

end ctrl

namespace core

variable {P V : Type}

/-! ## The FFD key: C8 to C10 -/

/-- C8: serialize then deserialize is the identity on FFD key payloads. For a key whose
count is the length of its vertex list (the empty list included) and any target key:
`serialize` on an error-free stream returns true, and `deserialize` reading the tokens it
wrote (followed by anything) returns true, leaves the target with the same easing, a count
equal to the number of vertices and the same vertices in the same order, and stops right
after those tokens. -/
theorem serialize_deserialize_roundtrip [Inhabited V] (k target : FFDKey P V)
    (aOut : Serializer P V) (aIn : Deserializer P V) (rest : List (Token P V))
    (hcount : k.mData.count = (k.mData.mBuffer.length : Int))
    (hout : aOut.failed = false) (hin : aIn.failed = false)
    (hsame : aIn.input = (k.serialize aOut).2.out.drop aOut.out.length ++ rest) :
    (k.serialize aOut).1 = true
      ∧ (target.deserialize aIn).1 = true
      ∧ (target.deserialize aIn).2.2.mData.easing = k.mData.easing
      ∧ (target.deserialize aIn).2.2.mData.count = (k.mData.mBuffer.length : Int)
      ∧ (target.deserialize aIn).2.2.mData.positions = k.mData.positions
      ∧ (target.deserialize aIn).2.1.input = rest := by
  rw [FFDKey.serialize_eq k aOut hcount hout] at hsame
  simp only [List.drop_left, List.cons_append] at hsame
  rw [FFDKey.serialize_eq k aOut hcount hout,
    FFDKey.deserialize_written target aIn k.mData.mEasing k.mData.mBuffer rest hin hsame]
  simp [Data.easing, Data.count, Data.positions]

/-- Writing `sampleKey` and reading it back into `sampleTarget`. -/
theorem serialize_deserialize_roundtrip_witness :
    (sampleKey.serialize { out := [], failed := false }).1 = true
      ∧ (sampleKey.serialize { out := [], failed := false }).2.out ++ [Token.int 99]
          = sampleStream.input
      ∧ (sampleTarget.deserialize
          sampleStream).1 = true
      ∧ (sampleTarget.deserialize
          sampleStream).2.2.mData.easing = 7
      ∧ (sampleTarget.deserialize
          sampleStream).2.2.mData.count = 3
      ∧ (sampleTarget.deserialize
          sampleStream).2.2.mData.positions = [10, 20, 30]
      ∧ (sampleTarget.deserialize
          sampleStream).2.1.input = [Token.int 99] :=
  ⟨(serialize_deserialize_roundtrip sampleKey sampleTarget { out := [], failed := false }
      sampleStream [Token.int 99] rfl rfl rfl rfl).1, rfl,
   (serialize_deserialize_roundtrip sampleKey sampleTarget { out := [], failed := false }
      sampleStream [Token.int 99] rfl rfl rfl rfl).2⟩

/-- C9: when reading the easing parameter fails, `deserialize` returns the result of
`errored("invalid easing param")`, which is failure; the stream is where the failed read
left it (nothing further is read); the vertex buffer and the count are as before the call,
so a count equal to the buffer length stays so. -/
theorem deserialize_easing_failure [Inhabited V] (k : FFDKey P V) (aIn : Deserializer P V)
    (hfail : (aIn.read k.mData.mEasing).1 = false) :
    (k.deserialize aIn).1 = false
      ∧ (k.deserialize aIn).1
          = (((aIn.pushLogScope "FFDKey").read k.mData.mEasing).2.1.errored
              "invalid easing param").1
      ∧ (k.deserialize aIn).2.1
          = (((aIn.pushLogScope "FFDKey").read k.mData.mEasing).2.1.errored
              "invalid easing param").2
      ∧ (k.deserialize aIn).2.1.input = (aIn.read k.mData.mEasing).2.1.input
      ∧ (k.deserialize aIn).2.2.mData.mBuffer = k.mData.mBuffer
      ∧ (k.deserialize aIn).2.2.mData.count = k.mData.count
      ∧ (k.mData.count = (k.mData.mBuffer.length : Int) →
          (k.deserialize aIn).2.2.mData.count
            = ((k.deserialize aIn).2.2.mData.mBuffer.length : Int)) := by
  have h : ((aIn.pushLogScope "FFDKey").read k.mData.mEasing).1 = false := by
    rw [Deserializer.read_pushLogScope]; exact hfail
  simp only [FFDKey.deserialize, h, Bool.not_false, if_true, Data.count]
  rw [Deserializer.read_pushLogScope]
  simp [Deserializer.errored, Deserializer.pushLogScope]

/-- Reading `sampleTarget` from a stream that starts with an `int`. -/
theorem deserialize_easing_failure_witness :
    (sampleStreamNoEasing.read sampleTarget.mData.mEasing).1 = false
      ∧ (sampleTarget.deserialize sampleStreamNoEasing).1 = false
      ∧ (sampleTarget.deserialize sampleStreamNoEasing).2.1.input = sampleStreamNoEasing.input
      ∧ (sampleTarget.deserialize sampleStreamNoEasing).2.2.mData.mBuffer = [1]
      ∧ (sampleTarget.deserialize sampleStreamNoEasing).2.2.mData.count = 1 :=
  ⟨rfl, (deserialize_easing_failure sampleTarget sampleStreamNoEasing rfl).1,
   (deserialize_easing_failure sampleTarget sampleStreamNoEasing rfl).2.2.2.1,
   (deserialize_easing_failure sampleTarget sampleStreamNoEasing rfl).2.2.2.2.1,
   (deserialize_easing_failure sampleTarget sampleStreamNoEasing rfl).2.2.2.2.2.1⟩

/-- C10: starting from a freshly constructed `FFDKey::Data`, after any sequence of `alloc`,
`write`, `allocAndWrite`, `clear`, `swap`, `insertVtx`, `pushBackVtx`, `removeVtx` and
`popBackVtx` calls made with their asserted preconditions, `count()` equals the length of
`mBuffer`; and `alloc(n)` with `n > 0` leaves both equal to `n`, whatever the data before. -/
theorem count_eq_buffer_length_after_ops [Inhabited P] [Inhabited V] (ops : List (DataOp V))
    (hops : DataOp.AssertedAll (Data.init : Data P V) ops) :
    (DataOp.run (Data.init : Data P V) ops).count
        = ((DataOp.run (Data.init : Data P V) ops).mBuffer.length : Int)
      ∧ ∀ (d : Data P V) (n : Int), 0 < n →
          (d.alloc n).count = n ∧ ((d.alloc n).mBuffer.length : Int) = n := by
  refine ⟨DataOp.run_count_eq_length ops Data.init ?_ hops, ?_⟩
  · simp [Data.init, Data.count]
  · intro d n hn
    exact ⟨Data.alloc_count d n, Data.alloc_length d n (le_of_lt hn)⟩

/-- The calls of `sampleOps` on a fresh `FFDKey::Data`. -/
theorem count_eq_buffer_length_after_ops_witness :
    DataOp.AssertedAll (Data.init : Data Nat Int) sampleOps
      ∧ (DataOp.run (Data.init : Data Nat Int) sampleOps).count = 1
      ∧ (DataOp.run (Data.init : Data Nat Int) sampleOps).mBuffer = [1]
      ∧ (DataOp.run (Data.init : Data Nat Int) sampleOps).count
          = ((DataOp.run (Data.init : Data Nat Int) sampleOps).mBuffer.length : Int) :=
  ⟨by decide, by decide, by decide,
   (count_eq_buffer_length_after_ops (P := Nat) sampleOps (by decide)).1⟩

end core

namespace core

variable {P V : Type}

/-- C12: remove undoes insert. For a buffer whose count is its length, an index
`0 ≤ i ≤ count` and a point `p`: `insertVtx(i, p)` then `removeVtx(i)` returns `p` and
gives back the data as it was; `pushBackVtx(p)` then `popBackVtx()` does the same; an
insert raises the count by exactly 1 and a remove lowers it by exactly 1. -/
theorem remove_undoes_insert [Inhabited V] (d : Data P V) (i : Int) (p : V)
    (hinv : d.count = (d.mBuffer.length : Int)) (hi : 0 ≤ i ∧ i ≤ d.count) :
    ((d.insertVtx i p).removeVtx i).1 = p
      ∧ ((d.insertVtx i p).removeVtx i).2 = d
      ∧ ((d.pushBackVtx p).popBackVtx).1 = p
      ∧ ((d.pushBackVtx p).popBackVtx).2 = d
      ∧ (d.insertVtx i p).count = d.count + 1
      ∧ (d.pushBackVtx p).count = d.count + 1
      ∧ (∀ j, (d.removeVtx j).2.count = d.count - 1)
      ∧ d.popBackVtx.2.count = d.count - 1 := by
  obtain ⟨e, buf, c⟩ := d
  simp only [Data.count] at hinv hi
  have hle : i.toNat ≤ buf.length := by omega
  have hlt : i.toNat < (buf.insertIdx i.toNat p).length := by
    rw [List.length_insertIdx _ _ hle]; omega
  refine ⟨?_, ?_, ?_, ?_, rfl, rfl, fun _ => rfl, rfl⟩
  · simp only [Data.removeVtx, Data.insertVtx, List.getD_eq_getElem?_getD]
    rw [List.getElem?_eq_getElem hlt, List.getElem_insertIdx_self _ _ _ hle]
    rfl
  · simp [Data.removeVtx, Data.insertVtx, List.eraseIdx_insertIdx]
  · have hc : c.toNat = buf.length := by omega
    simp [Data.popBackVtx, Data.pushBackVtx, Data.count, hc]
  · simp [Data.popBackVtx, Data.pushBackVtx]

/-- Inserting `9` at index 1 of `sampleKey` and removing at index 1 again. -/
theorem remove_undoes_insert_witness :
    (sampleKey.mData.count = (sampleKey.mData.mBuffer.length : Int)
        ∧ (0 : Int) ≤ 1 ∧ (1 : Int) ≤ sampleKey.mData.count)
      ∧ (sampleKey.mData.insertVtx 1 9).mBuffer = [10, 9, 20, 30]
      ∧ ((sampleKey.mData.insertVtx 1 9).removeVtx 1).1 = 9
      ∧ ((sampleKey.mData.insertVtx 1 9).removeVtx 1).2 = sampleKey.mData :=
  ⟨by decide, by decide,
   (remove_undoes_insert sampleKey.mData 1 9 (by decide) (by decide)).1,
   (remove_undoes_insert sampleKey.mData 1 9 (by decide) (by decide)).2.1⟩

end core

namespace ctrl

variable {F S P : Type}

open TimeLineEditor

/-! ## Rows -/

/-- C13: after `updateWheel(delta)` the width of every row's rectangle is the
`maxPixelWidth()` of the updated scale, and the left edge, top and bottom of each row are
as before (the rows are the same rows, in the same order). -/
theorem updateWheel_row_widths (E : Collab F S P) (ed : TimeLineEditor F S P) (aDelta : Int) :
    (updateWheel E ed aDelta).mTimeScale = E.scaleUpdate ed.mTimeScale aDelta
      ∧ (∀ row ∈ (updateWheel E ed aDelta).mRows,
          row.rect.width = E.maxPixelWidth (updateWheel E ed aDelta).mTimeScale)
      ∧ (updateWheel E ed aDelta).mRows.map (fun row => row.rect.left)
          = ed.mRows.map (fun row => row.rect.left)
      ∧ (updateWheel E ed aDelta).mRows.map (fun row => row.rect.top)
          = ed.mRows.map (fun row => row.rect.top)
      ∧ (updateWheel E ed aDelta).mRows.map (fun row => row.rect.bottom)
          = ed.mRows.map (fun row => row.rect.bottom)
      ∧ (updateWheel E ed aDelta).mRows.map (fun row => row.node)
          = ed.mRows.map (fun row => row.node) := by
  refine ⟨rfl, ?_, ?_, ?_, ?_, ?_⟩
  · intro row hrow
    simp only [updateWheel, List.mem_map] at hrow
    obtain ⟨r0, _, rfl⟩ := hrow
    simp only [updateWheel, QRect.width, QRect.setWidth]
    omega
  all_goals simp [updateWheel, List.map_map, Function.comp_def, QRect.left, QRect.top,
    QRect.bottom, QRect.setWidth]

/-- Zooming `editor0` in by one notch: its row becomes 2400 pixels wide and keeps its left
edge, top and bottom. -/
theorem updateWheel_row_widths_witness :
    Ref.collab.maxPixelWidth (updateWheel Ref.collab Ref.editor0 1).mTimeScale = 2400
      ∧ (updateWheel Ref.collab Ref.editor0 1).mRows.map (fun row => row.rect.width) = [2400]
      ∧ (∀ row ∈ (updateWheel Ref.collab Ref.editor0 1).mRows,
          row.rect.width = Ref.collab.maxPixelWidth (updateWheel Ref.collab Ref.editor0 1).mTimeScale)
      ∧ (updateWheel Ref.collab Ref.editor0 1).mRows.map (fun row => row.rect.left) = [14] :=
  ⟨by decide, by decide, (updateWheel_row_widths Ref.collab Ref.editor0 1).2.1, by decide⟩

end ctrl

namespace ctrl

variable {F S P : Type}

namespace TimeLineEditor

/-! ## What the blocks of `updateCursor` leave alone -/

theorem modifyMoveKeys_cases (E : Collab F S P) (ed : TimeLineEditor F S P) (w : QPoint) :
    modifyMoveKeys E ed w = (false, ed)
      ∨ ((modifyMoveKeys E ed w).1 = true
        ∧ (modifyMoveKeys E ed w).2.mState = ed.mState
        ∧ (modifyMoveKeys E ed w).2.mMoveRef = ed.mMoveRef
        ∧ (modifyMoveKeys E ed w).2.mShowSelectionRange = ed.mShowSelectionRange
        ∧ (modifyMoveKeys E ed w).2.mTimeScale = ed.mTimeScale
        ∧ (modifyMoveKeys E ed w).2.mTimeMax = ed.mTimeMax
        ∧ (modifyMoveKeys E ed w).2.mRows = ed.mRows
        ∧ (modifyMoveKeys E ed w).2.mTimeCurrent = ed.mTimeCurrent
        ∧ (modifyMoveKeys E ed w).2.unguarded = ed.unguarded
        ∧ (modifyMoveKeys E ed w).2.mOnUpdatingKey = false
        ∧ (modifyMoveKeys E ed w).2.mProject.isSome = ed.mProject.isSome) := by
  cases hp : ed.mProject with
  | none => left; simp [modifyMoveKeys, hp]
  | some p =>
    by_cases hmod : E.isModifiable p ed.mMoveRef = true
    · right
      cases hm : ed.mMoveRef with
      | none =>
        rw [hm] at hmod
        simp [modifyMoveKeys, hp, hm, hmod]
      | some m =>
        rw [hm] at hmod
        rw [modifyMoveKeys_eq E ed w p m hp hm hmod]
        split_ifs <;> simp [hm, hp]
    · left
      exact modifyMoveKeys_stale E ed w p hp (by simpa using hmod)

theorem sameButProject_refl (a : TimeLineEditor F S P) : SameButProject a a :=
  ⟨rfl, rfl, rfl, rfl, rfl, rfl, rfl, rfl, rfl, rfl, rfl, rfl⟩

theorem sameButProject_trans {a b c : TimeLineEditor F S P} (h1 : SameButProject a b)
    (h2 : SameButProject b c) : SameButProject a c :=
  ⟨h2.rows.trans h1.rows, h2.selectingRow.trans h1.selectingRow, h2.timeMax.trans h1.timeMax,
   h2.state.trans h1.state, h2.timeCurrent.trans h1.timeCurrent,
   h2.timeScale.trans h1.timeScale, h2.focus.trans h1.focus, h2.moveRef.trans h1.moveRef,
   h2.moveFrame.trans h1.moveFrame, h2.onUpdatingKey.trans h1.onUpdatingKey,
   h2.showSelectionRange.trans h1.showSelectionRange, h2.unguarded.trans h1.unguarded⟩

/-- Under the guard a call on the project side touches nothing but the project. -/
theorem callProject_sameButProject (E : Collab F S P) (ed : TimeLineEditor F S P) (c : Call)
    (hg : ed.mOnUpdatingKey = true) : SameButProject ed (callProject E ed c) := by
  cases hp : ed.mProject with
  | none =>
    have : callProject E ed c = ed := by simp [callProject, hp]
    rw [this]
    exact sameButProject_refl ed
  | some p =>
    rw [callProject_guarded E ed c p hp hg]
    exact ⟨rfl, rfl, rfl, rfl, rfl, rfl, rfl, rfl, rfl, rfl, rfl, rfl⟩

theorem foldl_callProject_sameButProject (E : Collab F S P) (cs : List Call)
    (ed : TimeLineEditor F S P) (hg : ed.mOnUpdatingKey = true) :
    SameButProject ed (cs.foldl (fun e c => callProject E e c) ed) := by
  induction cs generalizing ed with
  | nil => exact sameButProject_refl ed
  | cons c cs ih =>
    have h1 := callProject_sameButProject E ed c hg
    exact sameButProject_trans h1 (ih _ (h1.onUpdatingKey.trans hg))

theorem deleteCheckedKeys_eq (E : Collab F S P) (ed : TimeLineEditor F S P)
    (aEvent : TimeLineEvent) :
    ∃ ed1, SameButProject { ed with mOnUpdatingKey := true } ed1
      ∧ deleteCheckedKeys E ed aEvent = clearState E { ed1 with mOnUpdatingKey := false } := by
  refine ⟨_, ?_, rfl⟩
  have h0 : ({ ed with mOnUpdatingKey := true } : TimeLineEditor F S P).mOnUpdatingKey = true :=
    rfl
  have h1 := callProject_sameButProject E _ (Call.beginMacro "remove time keys") h0
  have h2 := callProject_sameButProject E _
    (Call.grabListener { aEvent with type := EventType.RemoveKey }) (h1.onUpdatingKey.trans h0)
  have h3 := foldl_callProject_sameButProject E
    (aEvent.targets.map fun t => Call.push (Command.remover t)) _
    (h2.onUpdatingKey.trans (h1.onUpdatingKey.trans h0))
  rw [List.foldl_map] at h3
  have h4 := callProject_sameButProject E _ Call.endMacro
    (h3.onUpdatingKey.trans (h2.onUpdatingKey.trans (h1.onUpdatingKey.trans h0)))
  exact sameButProject_trans (sameButProject_trans (sameButProject_trans h1 h2) h3) h4

theorem cursorKeeps_refl (E : Collab F S P) (c : AbstractCursor) (a : TimeLineEditor F S P) :
    CursorKeeps E c a a :=
  ⟨id, rfl, rfl, rfl, Or.inl rfl, rfl, id, id⟩

theorem pressEnclose_keeps (E : Collab F S P) (ed : TimeLineEditor F S P) (c : AbstractCursor)
    (p : P) (hp : ed.mProject = some p) :
    CursorKeeps E c ed (pressEnclose E ed c).2
      ∧ (pressEnclose E ed c).2.mTimeCurrent = ed.mTimeCurrent := by
  by_cases hs : ed.mState = State.EncloseKeys
  · by_cases hin : E.focusIsInRange ed.mRows ed.mTimeScale ed.mFocus c.worldPoint = true
    · by_cases hsel : (E.focusSelect ed.mRows ed.mTimeScale ed.mFocus
          { type := EventType.MoveKey, targets := [] }).1 = true
      · refine ⟨⟨?_, ?_, ?_, ?_, ?_, ?_, ?_, ?_⟩, ?_⟩ <;>
          simp [pressEnclose, hs, hin, beginMoveKeys_eq E ed _ p hp, hsel]
      · refine ⟨⟨?_, ?_, ?_, ?_, ?_, ?_, ?_, ?_⟩, ?_⟩ <;>
          simp [pressEnclose, hs, hin, beginMoveKeys_eq E ed _ p hp, hsel]
    · refine ⟨⟨?_, ?_, ?_, ?_, ?_, ?_, ?_, ?_⟩, ?_⟩ <;>
        simp [pressEnclose, hs, hin]
  · rw [pressEnclose_of_not_enclose E ed c hs]
    exact ⟨cursorKeeps_refl E c ed, rfl⟩

theorem pressStandby_keeps (E : Collab F S P) (r1 : UpdateFlags × TimeLineEditor F S P)
    (c : AbstractCursor) (p : P) (hp : r1.2.mProject = some p) :
    CursorKeeps E c r1.2 (pressStandby E r1 c).2 := by
  by_cases hs : r1.2.mState = State.Standby
  · simp only [pressStandby, hs, if_true]
    split_ifs <;>
      refine ⟨?_, ?_, ?_, ?_, ?_, ?_, ?_, ?_⟩ <;>
      simp [beginMoveKey_eq E _ _ p, hp, hs]
  · rw [pressStandby_of_not_standby E r1 c hs]
    exact cursorKeeps_refl E c r1.2

theorem onMove_keeps (E : Collab F S P) (ed : TimeLineEditor F S P) (c : AbstractCursor) :
    CursorKeeps E c ed (onMove E ed c).2 := by
  by_cases h1 : ed.mState = State.MoveCurrent
  · refine ⟨?_, ?_, ?_, ?_, ?_, ?_, ?_, ?_⟩ <;> simp [onMove, h1]
  · by_cases h2 : ed.mState = State.MoveKeys
    · rcases modifyMoveKeys_cases E ed c.worldPoint with
        hst | ⟨hok, hs, hm, -, hsc, hmax, hrows, htc, hun, hg, hpr⟩
      · refine ⟨?_, ?_, ?_, ?_, ?_, ?_, ?_, ?_⟩ <;> simp [onMove, h2, hst]
      · refine ⟨?_, ?_, ?_, ?_, ?_, ?_, ?_, ?_⟩ <;>
          simp [onMove, h2, hok, hs, hm, hsc, hmax, hrows, htc, hun, hg, hpr]
    · by_cases h3 : ed.mState = State.EncloseKeys
      · refine ⟨?_, ?_, ?_, ?_, ?_, ?_, ?_, ?_⟩ <;> simp [onMove, h3]
      · simp only [onMove, h1, h2, h3, if_false]
        exact cursorKeeps_refl E c ed

theorem onRelease_keeps (E : Collab F S P) (ed : TimeLineEditor F S P) (c : AbstractCursor) :
    CursorKeeps E c ed (onRelease E ed).2 := by
  simp only [onRelease]
  split_ifs
  · refine ⟨?_, ?_, ?_, ?_, ?_, ?_, ?_, ?_⟩ <;> simp
  · exact cursorKeeps_refl E c ed

theorem onIdle_keeps (E : Collab F S P) (ed : TimeLineEditor F S P) (c : AbstractCursor) :
    CursorKeeps E c ed (onIdle E ed c).2 := by
  simp only [onIdle]
  split_ifs
  · refine ⟨?_, ?_, ?_, ?_, ?_, ?_, ?_, ?_⟩ <;> simp
  · exact cursorKeeps_refl E c ed

theorem updateCursor_keeps (E : Collab F S P) (ed : TimeLineEditor F S P)
    (c : AbstractCursor) : CursorKeeps E c ed (updateCursor E ed c).2 := by
  cases hp : ed.mProject with
  | none =>
    rw [updateCursor_no_project E ed c hp]
    exact cursorKeeps_refl E c ed
  | some p =>
    rw [updateCursor_of_project E ed c p hp, viewChanged_snd]
    split_ifs
    · obtain ⟨k1, htc⟩ := pressEnclose_keeps E ed c p hp
      obtain ⟨p1, hp1⟩ := Option.isSome_iff_exists.mp (k1.project (by simp [hp]))
      have k2 := pressStandby_keeps E (pressEnclose E ed c) c p1 hp1
      refine ⟨fun h => k2.project (k1.project h), k2.timeScale.trans k1.timeScale,
        k2.timeMax.trans k1.timeMax, k2.rows.trans k1.rows, ?_,
        k2.unguarded.trans k1.unguarded, fun h => k2.guard (k1.guard h),
        fun h => k2.moveRef (k1.moveRef h)⟩
      have := k2.timeCurrent
      rw [htc, k1.timeScale] at this
      exact this
    · exact onMove_keeps E ed c
    · exact onRelease_keeps E ed c
    · exact onIdle_keeps E ed c

end TimeLineEditor

end ctrl

namespace ctrl

variable {F S P : Type}

open TimeLineEditor

theorem modifiableNow_iff (E : Collab F S P) (ed : TimeLineEditor F S P) :
    modifiableNow E ed = true ↔
      ∃ p m, ed.mProject = some p ∧ ed.mMoveRef = some m ∧ E.isModifiable p (some m) = true := by
  unfold modifiableNow
  constructor
  · intro h
    split at h
    · next p m hp hm => exact ⟨p, m, hp, hm, h⟩
    · simp at h
  · rintro ⟨p, m, hp, hm, h⟩
    simp [hp, hm, h]

/-! ## Invariants of the reachable editors -/

theorem step_guard (E : Collab F S P) (ed : TimeLineEditor F S P) (s : Step P)
    (hg : ed.mOnUpdatingKey = false) (hu : ed.unguarded = []) :
    (s.apply E ed).mOnUpdatingKey = false ∧ (s.apply E ed).unguarded = [] := by
  cases s with
  | updateCursor c =>
    have k := updateCursor_keeps E ed c
    exact ⟨k.guard hg, k.unguarded.trans hu⟩
  | deleteCheckedKeys ev =>
    obtain ⟨ed1, h1, h2⟩ := deleteCheckedKeys_eq E ed ev
    simp only [Step.apply, h2]
    exact ⟨rfl, h1.unguarded.trans hu⟩
  | updateKey =>
    simp only [Step.apply, updateKey, hg, Bool.not_false, if_true]
    exact ⟨hg, hu⟩
  | setProject q =>
    cases q <;> simp [Step.apply, setProject, clearRows, clearState, setMaxFrame, hg, hu]
  | updateProjectAttribute =>
    simp only [Step.apply, updateProjectAttribute, clearState, setMaxFrame]
    split
    · split_ifs <;> exact ⟨hg, hu⟩
    · exact ⟨hg, hu⟩
  | checkDeletableKeys ev pos =>
    simp only [Step.apply, checkDeletableKeys]
    split_ifs <;> exact ⟨hg, hu⟩
  | _ => exact ⟨hg, hu⟩

theorem step_moveRef (E : Collab F S P) (ed : TimeLineEditor F S P) (s : Step P)
    (h : ed.mState = State.MoveKeys ↔ ed.mMoveRef ≠ none) :
    (s.apply E ed).mState = State.MoveKeys ↔ (s.apply E ed).mMoveRef ≠ none := by
  cases s with
  | updateCursor c => exact (updateCursor_keeps E ed c).moveRef h
  | deleteCheckedKeys ev =>
    obtain ⟨ed1, -, h2⟩ := deleteCheckedKeys_eq E ed ev
    simp [Step.apply, h2, clearState]
  | updateKey =>
    simp only [Step.apply, updateKey, clearState]
    split_ifs
    · simp
    · exact h
  | setProject q =>
    cases q <;> simp [Step.apply, setProject, clearRows, clearState, setMaxFrame]
  | updateProjectAttribute =>
    simp only [Step.apply, updateProjectAttribute, clearState, setMaxFrame]
    split
    · split_ifs <;> simp
    · simp
  | checkDeletableKeys ev pos =>
    simp only [Step.apply, checkDeletableKeys]
    split_ifs <;> exact h
  | clearRows => simp [Step.apply, clearRows, clearState]
  | clearState => simp [Step.apply, clearState]
  | _ => exact h

theorem runSteps_guard (E : Collab F S P) (ss : List (Step P)) (ed : TimeLineEditor F S P)
    (hg : ed.mOnUpdatingKey = false) (hu : ed.unguarded = []) :
    (runSteps E ed ss).mOnUpdatingKey = false ∧ (runSteps E ed ss).unguarded = [] := by
  induction ss generalizing ed with
  | nil => exact ⟨hg, hu⟩
  | cons s ss ih =>
    exact ih _ (step_guard E ed s hg hu).1 (step_guard E ed s hg hu).2

theorem runSteps_moveRef (E : Collab F S P) (ss : List (Step P)) (ed : TimeLineEditor F S P)
    (h : ed.mState = State.MoveKeys ↔ ed.mMoveRef ≠ none) :
    (runSteps E ed ss).mState = State.MoveKeys ↔ (runSteps E ed ss).mMoveRef ≠ none := by
  induction ss generalizing ed with
  | nil => exact h
  | cons s ss ih => exact ih _ (step_moveRef E ed s h)

/-! ## The re-entrancy guard -/

theorem beginMoveKey_guard (E : Collab F S P) (ed : TimeLineEditor F S P) (t : SingleFocus)
    (hg : ed.mOnUpdatingKey = false) :
    (beginMoveKey E ed t).mOnUpdatingKey = false
      ∧ (beginMoveKey E ed t).unguarded = ed.unguarded := by
  cases hp : ed.mProject with
  | none => simp [beginMoveKey, hp, hg]
  | some p => simp [beginMoveKey_eq E ed t p hp]

theorem beginMoveKeys_guard (E : Collab F S P) (ed : TimeLineEditor F S P) (w : QPoint) :
    (beginMoveKeys E ed w).2.mOnUpdatingKey = false
      ∧ (beginMoveKeys E ed w).2.unguarded = ed.unguarded := by
  cases hp : ed.mProject with
  | none =>
    simp only [beginMoveKeys, callProject, hp]
    split_ifs <;> simp
  | some p =>
    rw [beginMoveKeys_eq E ed w p hp]
    split_ifs <;> simp

theorem modifyMoveKeys_guard (E : Collab F S P) (ed : TimeLineEditor F S P) (w : QPoint)
    (hg : ed.mOnUpdatingKey = false) :
    (modifyMoveKeys E ed w).2.mOnUpdatingKey = false
      ∧ (modifyMoveKeys E ed w).2.unguarded = ed.unguarded := by
  rcases modifyMoveKeys_cases E ed w with h | h
  · rw [h]
    exact ⟨hg, rfl⟩
  · exact ⟨h.2.2.2.2.2.2.2.2.2.1, h.2.2.2.2.2.2.2.2.1⟩

theorem deleteCheckedKeys_guard (E : Collab F S P) (ed : TimeLineEditor F S P)
    (ev : TimeLineEvent) :
    (deleteCheckedKeys E ed ev).mOnUpdatingKey = false
      ∧ (deleteCheckedKeys E ed ev).unguarded = ed.unguarded := by
  obtain ⟨ed1, h1, h2⟩ := deleteCheckedKeys_eq E ed ev
  rw [h2]
  exact ⟨rfl, h1.unguarded⟩

/-- C14: entered with the flag `mOnUpdatingKey` false, each of `beginMoveKey`,
`beginMoveKeys`, `modifyMoveKeys` and `deleteCheckedKeys` returns with the flag false on
every path, and every call it makes on the project side is made while the flag is true (none
is recorded as unguarded); a call made while the flag is true keeps the flag and every
editor field except the project; `updateKey()` under a true flag leaves the editor as it is,
and under a false flag it is `clearState()`: state Standby, move reference null, anchor 0,
focus cleared, overlay hidden. The flag is false after every sequence of public
operations on a fresh editor. -/
theorem reentrancy_guard (E : Collab F S P) (ed : TimeLineEditor F S P) (t : SingleFocus)
    (w : QPoint) (ev : TimeLineEvent) (hg : ed.mOnUpdatingKey = false) :
    ((beginMoveKey E ed t).mOnUpdatingKey = false
        ∧ (beginMoveKeys E ed w).2.mOnUpdatingKey = false
        ∧ (modifyMoveKeys E ed w).2.mOnUpdatingKey = false
        ∧ (deleteCheckedKeys E ed ev).mOnUpdatingKey = false)
      ∧ ((beginMoveKey E ed t).unguarded = ed.unguarded
        ∧ (beginMoveKeys E ed w).2.unguarded = ed.unguarded
        ∧ (modifyMoveKeys E ed w).2.unguarded = ed.unguarded
        ∧ (deleteCheckedKeys E ed ev).unguarded = ed.unguarded)
      ∧ (∀ (e : TimeLineEditor F S P) (c : Call), e.mOnUpdatingKey = true →
          (callProject E e c).mOnUpdatingKey = true
            ∧ (callProject E e c).mState = e.mState
            ∧ (callProject E e c).mMoveRef = e.mMoveRef
            ∧ (callProject E e c).mMoveFrame = e.mMoveFrame
            ∧ (callProject E e c).mFocus = e.mFocus
            ∧ (callProject E e c).mShowSelectionRange = e.mShowSelectionRange)
      ∧ (∀ e : TimeLineEditor F S P, e.mOnUpdatingKey = true → updateKey E e = e)
      ∧ (updateKey E ed = clearState E ed
        ∧ (updateKey E ed).mState = State.Standby
        ∧ (updateKey E ed).mMoveRef = none
        ∧ (updateKey E ed).mMoveFrame = 0
        ∧ (updateKey E ed).mFocus = E.focusClear ed.mRows ed.mTimeScale ed.mFocus
        ∧ (updateKey E ed).mShowSelectionRange = false)
      ∧ (∀ steps : List (Step P),
          (runSteps E (init E) steps).mOnUpdatingKey = false
            ∧ (runSteps E (init E) steps).unguarded = []) := by
  have hk : updateKey E ed = clearState E ed := by simp [updateKey, hg]
  refine ⟨⟨(beginMoveKey_guard E ed t hg).1, (beginMoveKeys_guard E ed w).1,
      (modifyMoveKeys_guard E ed w hg).1, (deleteCheckedKeys_guard E ed ev).1⟩,
    ⟨(beginMoveKey_guard E ed t hg).2, (beginMoveKeys_guard E ed w).2,
      (modifyMoveKeys_guard E ed w hg).2, (deleteCheckedKeys_guard E ed ev).2⟩, ?_, ?_, ?_, ?_⟩
  · intro e c he
    have h := callProject_sameButProject E e c he
    exact ⟨h.onUpdatingKey.trans he, h.state, h.moveRef, h.moveFrame, h.focus,
      h.showSelectionRange⟩
  · intro e he
    simp [updateKey, he]
  · rw [hk]
    exact ⟨rfl, rfl, rfl, rfl, rfl, rfl⟩
  · intro steps
    exact runSteps_guard E steps (init E) (by simp [init, setMaxFrame])
      (by simp [init, setMaxFrame])

/-- On `editor0` a press on `key1` builds the move transaction with four calls on the
project, among them a push that re-enters `updateKey()`, and the move reference survives;
on `editorMoving` a drag amends it; the flag is false afterwards. -/
theorem reentrancy_guard_witness :
    Ref.editorMoving.mOnUpdatingKey = false
      ∧ (beginMoveKey Ref.collab Ref.editor0 (SingleFocus.mk true Ref.key1)).calls.length = 4
      ∧ (beginMoveKey Ref.collab Ref.editor0 (SingleFocus.mk true Ref.key1)).mMoveRef ≠ none
      ∧ (modifyMoveKeys Ref.collab Ref.editorMoving (QPoint.mk 44 40)).1 = true
      ∧ (modifyMoveKeys Ref.collab Ref.editorMoving (QPoint.mk 44 40)).2.mOnUpdatingKey = false
      ∧ (modifyMoveKeys Ref.collab Ref.editorMoving (QPoint.mk 44 40)).2.unguarded
          = Ref.editorMoving.unguarded
      ∧ (updateKey Ref.collab Ref.editorMoving).mMoveRef = none :=
  ⟨by decide!, by decide!, by decide!, by decide!,
   (reentrancy_guard Ref.collab Ref.editorMoving (SingleFocus.mk true Ref.key1)
      (QPoint.mk 44 40) (TimeLineEvent.mk EventType.RemoveKey [Ref.key2]) (by decide!)).1.2.2.1,
   (reentrancy_guard Ref.collab Ref.editorMoving (SingleFocus.mk true Ref.key1)
      (QPoint.mk 44 40) (TimeLineEvent.mk EventType.RemoveKey [Ref.key2]) (by decide!)).2.1.2.2.1,
   (reentrancy_guard Ref.collab Ref.editorMoving (SingleFocus.mk true Ref.key1)
      (QPoint.mk 44 40) (TimeLineEvent.mk EventType.RemoveKey [Ref.key2])
      (by decide!)).2.2.2.2.1.2.2.1⟩

end ctrl

namespace core

variable {P V : Type}

theorem FFDKey.deserialize_scopes_of_easing_failure [Inhabited V] (k : FFDKey P V)
    (aIn : Deserializer P V) (hfail : (aIn.read k.mData.mEasing).1 = false) :
    (k.deserialize aIn).2.1.scopes = "FFDKey" :: aIn.scopes := by
  have h : ((aIn.pushLogScope "FFDKey").read k.mData.mEasing).1 = false := by
    rw [Deserializer.read_pushLogScope]; exact hfail
  simp only [FFDKey.deserialize, h, Bool.not_false, if_true]
  rw [Deserializer.read_pushLogScope]
  simp only [Deserializer.errored, Deserializer.pushLogScope, Deserializer.read]
  split_ifs
  · rfl
  · split <;> rfl

theorem Deserializer.read_scopes (aIn : Deserializer P V) (t : P) :
    (aIn.read t).2.1.scopes = aIn.scopes := by
  simp only [Deserializer.read]
  split_ifs
  · rfl
  · split <;> rfl

theorem Deserializer.readInt_scopes (aIn : Deserializer P V) (t : Int) :
    (aIn.readInt t).1.scopes = aIn.scopes := by
  simp only [Deserializer.readInt]
  split_ifs
  · rfl
  · split <;> rfl

theorem Deserializer.readGL_scopes (aIn : Deserializer P V) (dst : List V) (n : Int) :
    (aIn.readGL dst n).1.scopes = aIn.scopes := by
  simp only [Deserializer.readGL]
  split_ifs <;> rfl

theorem FFDKey.deserialize_scopes_of_easing_read [Inhabited V] (k : FFDKey P V)
    (aIn : Deserializer P V) (hread : (aIn.read k.mData.mEasing).1 = true) :
    (k.deserialize aIn).2.1.scopes = aIn.scopes := by
  have h : ((aIn.pushLogScope "FFDKey").read k.mData.mEasing).1 = true := by
    rw [Deserializer.read_pushLogScope]; exact hread
  simp only [FFDKey.deserialize, h, Bool.not_true, Bool.false_eq_true, if_false]
  split_ifs <;>
    simp [Deserializer.popLogScope, Deserializer.readGL_scopes, Deserializer.readInt_scopes,
      Deserializer.read_scopes, Deserializer.pushLogScope]

/-- C15, evaluated on `sampleStreamNoEasing`, a stream with no scope pushed on which the
read of the easing parameter fails: `deserialize` returns false with the scope "FFDKey"
still on the scope stack. On `sampleStream`, where the read succeeds, the scope stack is
empty again after the call. -/
theorem deserialize_leaves_scope_pushed :
    sampleStreamNoEasing.scopes = []
      ∧ (sampleStreamNoEasing.read sampleTarget.mData.mEasing).1 = false
      ∧ (sampleTarget.deserialize sampleStreamNoEasing).1 = false
      ∧ (sampleTarget.deserialize sampleStreamNoEasing).2.1.scopes = ["FFDKey"]
      ∧ (sampleTarget.deserialize sampleStream).1 = true
      ∧ (sampleTarget.deserialize sampleStream).2.1.scopes = [] := by
  decide

end core

namespace ctrl

variable {F S P : Type}

open TimeLineEditor

/-! ## Reachable states and row geometry -/

/-- C16: in every state reached from a freshly constructed editor by any sequence of
public operations (and of changes made to the project by others), the state is MoveKeys if
and only if the move reference `mMoveRef` is not null. -/
theorem moveKeys_iff_moveRef (E : Collab F S P) (steps : List (Step P)) :
    (runSteps E (init E) steps).mState = State.MoveKeys
      ↔ (runSteps E (init E) steps).mMoveRef ≠ none :=
  runSteps_moveRef E steps (init E) (by simp [init, setMaxFrame])

/-! ## The selection-range overlay -/

theorem overlayOk_of_not_moveKeys (E : Collab F S P) (ed : TimeLineEditor F S P)
    (hov : ed.mShowSelectionRange = false) (hs : ed.mState ≠ State.MoveKeys) :
    OverlayOk E ed :=
  ⟨fun h => by simp [hov] at h, fun h => absurd h hs⟩

theorem pressEnclose_overlay (E : Collab F S P) (hE : KeepsAmendable E)
    (ed : TimeLineEditor F S P) (c : AbstractCursor) (p : P) (hp : ed.mProject = some p)
    (h : OverlayOk E ed) : OverlayOk E (pressEnclose E ed c).2 := by
  by_cases hs : ed.mState = State.EncloseKeys
  · by_cases hin : E.focusIsInRange ed.mRows ed.mTimeScale ed.mFocus c.worldPoint = true
    · by_cases hsel : (E.focusSelect ed.mRows ed.mTimeScale ed.mFocus
          { type := EventType.MoveKey, targets := [] }).1 = true
      · refine ⟨?_, ?_⟩ <;>
          simp [pressEnclose, hs, hin, beginMoveKeys_eq E ed _ p hp, hsel, modifiableNow,
            hE.pushed]
      · exact overlayOk_of_not_moveKeys E _
          (by simp [pressEnclose, hs, hin, beginMoveKeys_eq E ed _ p hp, hsel])
          (by simp [pressEnclose, hs, hin, beginMoveKeys_eq E ed _ p hp, hsel])
    · exact overlayOk_of_not_moveKeys E _ (by simp [pressEnclose, hs, hin])
        (by simp [pressEnclose, hs, hin])
  · rw [pressEnclose_of_not_enclose E ed c hs]
    exact h

theorem pressStandby_overlay (E : Collab F S P) (hE : KeepsAmendable E)
    (r1 : UpdateFlags × TimeLineEditor F S P) (c : AbstractCursor) (p : P)
    (hp : r1.2.mProject = some p) (h : OverlayOk E r1.2) :
    OverlayOk E (pressStandby E r1 c).2 := by
  by_cases hs : r1.2.mState = State.Standby
  · have hov : r1.2.mShowSelectionRange = false := by
      cases hb : r1.2.mShowSelectionRange with
      | false => rfl
      | true => rcases h.1 hb with h1 | h1 <;> simp [hs] at h1
    simp only [pressStandby, hs, if_true]
    split_ifs
    · exact overlayOk_of_not_moveKeys E _ hov (by simp)
    · exact overlayOk_of_not_moveKeys E _ hov (by simp)
    · refine ⟨?_, ?_⟩ <;>
        simp [beginMoveKey_eq E _ _ p, hp, hov, modifiableNow, hE.pushed]
    · refine ⟨?_, ?_⟩ <;> simp
  · rw [pressStandby_of_not_standby E r1 c hs]
    exact h

theorem onMove_overlay (E : Collab F S P) (hE : KeepsAmendable E)
    (ed : TimeLineEditor F S P) (c : AbstractCursor) (h : OverlayOk E ed) :
    OverlayOk E (onMove E ed c).2 := by
  by_cases h1 : ed.mState = State.MoveCurrent
  · refine ⟨?_, ?_⟩
    · intro hov
      have := h.1 (by simpa [onMove, h1] using hov)
      simp [h1] at this
    · simp [onMove, h1]
  · by_cases h2 : ed.mState = State.MoveKeys
    · obtain ⟨p, m, hp, hm, hmod⟩ := (modifiableNow_iff E ed).mp (h.2 h2)
      have hmk := modifyMoveKeys_eq E ed c.worldPoint p m hp hm hmod
      by_cases hr : (E.modifyMove p m
          (E.frame ed.mTimeScale (c.worldPoint.x - kTimeLineMargin) - ed.mMoveFrame)
          { min := 0, max := ed.mTimeMax }).1 = true
      · simp only [hr, if_true] at hmk
        refine ⟨?_, ?_⟩ <;>
          simp [onMove, h1, h2, hmk, modifiableNow, hm, hE.reported, hE.amended, hmod]
      · simp only [hr, if_false] at hmk
        refine ⟨?_, ?_⟩ <;>
          simp [onMove, h1, h2, hmk, modifiableNow, hm, hE.amended, hmod]
    · by_cases h3 : ed.mState = State.EncloseKeys
      · refine ⟨?_, ?_⟩ <;> simp [onMove, h3]
      · simp only [onMove, h1, h2, h3, if_false]
        exact h

theorem onRelease_overlay (E : Collab F S P) (ed : TimeLineEditor F S P)
    (h : OverlayOk E ed) : OverlayOk E (onRelease E ed).2 := by
  simp only [onRelease]
  split_ifs
  · exact overlayOk_of_not_moveKeys E _ rfl (by simp)
  · exact h

theorem onIdle_overlay (E : Collab F S P) (ed : TimeLineEditor F S P) (c : AbstractCursor)
    (h : OverlayOk E ed) : OverlayOk E (onIdle E ed c).2 := by
  simp only [onIdle]
  split_ifs
  · exact h
  · exact h

theorem updateCursor_overlay (E : Collab F S P) (hE : KeepsAmendable E)
    (ed : TimeLineEditor F S P) (c : AbstractCursor) (h : OverlayOk E ed) :
    OverlayOk E (updateCursor E ed c).2 := by
  cases hp : ed.mProject with
  | none =>
    rw [updateCursor_no_project E ed c hp]
    exact h
  | some p =>
    rw [updateCursor_of_project E ed c p hp, viewChanged_snd]
    split_ifs
    · obtain ⟨k1, -⟩ := pressEnclose_keeps E ed c p hp
      obtain ⟨p1, hp1⟩ := Option.isSome_iff_exists.mp (k1.project (by simp [hp]))
      exact pressStandby_overlay E hE _ c p1 hp1 (pressEnclose_overlay E hE ed c p hp h)
    · exact onMove_overlay E hE ed c h
    · exact onRelease_overlay E ed h
    · exact onIdle_overlay E ed c h

theorem step_overlay (E : Collab F S P) (hE : KeepsAmendable E) (ed : TimeLineEditor F S P)
    (s : Step P) (hs : s.isPublic = true) (h : OverlayOk E ed) : OverlayOk E (s.apply E ed) := by
  cases s with
  | updateCursor c => exact updateCursor_overlay E hE ed c h
  | projectChanged g => simp [Step.isPublic] at hs
  | deleteCheckedKeys ev =>
    obtain ⟨ed1, -, h2⟩ := deleteCheckedKeys_eq E ed ev
    simp only [Step.apply, h2]
    exact overlayOk_of_not_moveKeys E _ rfl (by simp [clearState])
  | updateKey =>
    simp only [Step.apply, TimeLineEditor.updateKey]
    split_ifs
    · exact overlayOk_of_not_moveKeys E _ rfl (by simp [clearState])
    · exact h
  | setProject q =>
    cases q <;>
      exact overlayOk_of_not_moveKeys E _ rfl
        (by simp [Step.apply, setProject, clearRows, clearState, setMaxFrame])
  | updateProjectAttribute =>
    refine overlayOk_of_not_moveKeys E _ ?_ ?_
    · simp only [Step.apply, updateProjectAttribute, clearState, setMaxFrame]
      split
      · split_ifs <;> rfl
      · rfl
    · simp only [Step.apply, updateProjectAttribute, clearState, setMaxFrame]
      split
      · split_ifs <;> simp
      · simp
  | checkDeletableKeys ev pos =>
    simp only [Step.apply, checkDeletableKeys]
    split_ifs
    · exact h
    · exact ⟨h.1, h.2⟩
  | clearRows => exact overlayOk_of_not_moveKeys E _ rfl (by simp [Step.apply, clearRows, clearState])
  | clearState => exact overlayOk_of_not_moveKeys E _ rfl (by simp [Step.apply, clearState])
  | _ => exact ⟨h.1, h.2⟩

theorem runSteps_overlay (E : Collab F S P) (hE : KeepsAmendable E) (ss : List (Step P))
    (ed : TimeLineEditor F S P) (hs : ∀ s ∈ ss, s.isPublic = true) (h : OverlayOk E ed) :
    OverlayOk E (runSteps E ed ss) := by
  induction ss generalizing ed with
  | nil => exact h
  | cons s ss ih =>
    exact ih _ (fun t ht => hs t (List.mem_cons_of_mem _ ht))
      (step_overlay E hE ed s (hs s (List.mem_cons_self _ _)) h)

/-- The abandon branch of `updateCursor` (a left move in MoveKeys whose command the stack
no longer calls modifiable) leaves the overlay flag as it was: this branch sets the state,
the move reference and the focus only. -/
theorem abandon_leaves_overlay (E : Collab F S P) (ed : TimeLineEditor F S P)
    (aCursor : AbstractCursor) (p : P) (hp : ed.mProject = some p)
    (hs : ed.mState = State.MoveKeys) (hmod : E.isModifiable p ed.mMoveRef = false)
    (hpress : aCursor.isLeftPressState = false) (hmove : aCursor.isLeftMoveState = true) :
    (updateCursor E ed aCursor).2.mState = State.Standby
      ∧ (updateCursor E ed aCursor).2.mShowSelectionRange = ed.mShowSelectionRange := by
  simp only [updateCursor, hp, hs, hpress, hmove, modifyMoveKeys_stale E ed _ p hp hmod]
  simp

theorem Ref.scene_keepsAmendable : KeepsAmendable Ref.scene := by
  refine ⟨?_, ?_, ?_⟩
  · intro p m
    simp [Ref.scene, Ref.collab, Ref.Project.exec, Ref.Project.isModifiable]
  · intro p m add range h
    simp only [Ref.scene, Ref.collab, Ref.Project.exec, Ref.Project.isModifiable] at h ⊢
    split_ifs <;> simpa using h
  · intro p m ev b h
    simpa [Ref.scene, Ref.collab, Ref.Project.exec, Ref.Project.isModifiable] using h

/-- C17: for a command stack that keeps the move command of a drag modifiable while the
editor is its only user, in every state reached from a freshly constructed editor by a
sequence of public operations, the overlay flag `mShowSelectionRange` is true only in state
EncloseKeys or MoveKeys: it is false in Standby and in MoveCurrent. -/
theorem overlay_only_while_selecting (E : Collab F S P) (hE : KeepsAmendable E)
    (steps : List (Step P)) (hpublic : ∀ s ∈ steps, s.isPublic = true) :
    ((runSteps E (init E) steps).mShowSelectionRange = true →
        (runSteps E (init E) steps).mState = State.EncloseKeys
          ∨ (runSteps E (init E) steps).mState = State.MoveKeys)
      ∧ ((runSteps E (init E) steps).mState = State.Standby →
          (runSteps E (init E) steps).mShowSelectionRange = false)
      ∧ ((runSteps E (init E) steps).mState = State.MoveCurrent →
          (runSteps E (init E) steps).mShowSelectionRange = false) := by
  have h := runSteps_overlay E hE steps (init E) hpublic
    (overlayOk_of_not_moveKeys E _ (by simp [init, setMaxFrame]) (by simp [init, setMaxFrame]))
  refine ⟨h.1, ?_, ?_⟩
  · intro hs
    cases hb : (runSteps E (init E) steps).mShowSelectionRange with
    | false => rfl
    | true => rcases h.1 hb with h1 | h1 <;> simp [hs] at h1
  · intro hs
    cases hb : (runSteps E (init E) steps).mShowSelectionRange with
    | false => rfl
    | true => rcases h.1 hb with h1 | h1 <;> simp [hs] at h1

/-- The session `dragFromEnclosure` on a fresh editor: after the release the state is
EncloseKeys with the overlay shown; after the press inside the enclosure and the move it is
MoveKeys, overlay still shown; a release then gives Standby with the overlay hidden. -/
theorem overlay_only_while_selecting_witness :
    (∀ s ∈ Ref.dragFromEnclosure, s.isPublic = true)
      ∧ (runSteps Ref.scene (init Ref.scene) (Ref.dragFromEnclosure.take 5)).mState
          = State.EncloseKeys
      ∧ (runSteps Ref.scene (init Ref.scene) (Ref.dragFromEnclosure.take 5)).mShowSelectionRange
          = true
      ∧ (runSteps Ref.scene (init Ref.scene) Ref.dragFromEnclosure).mShowSelectionRange = true
      ∧ ((runSteps Ref.scene (init Ref.scene) Ref.dragFromEnclosure).mState = State.EncloseKeys
          ∨ (runSteps Ref.scene (init Ref.scene) Ref.dragFromEnclosure).mState = State.MoveKeys)
      ∧ (runSteps Ref.scene (init Ref.scene)
            (Ref.dragFromEnclosure ++ [Step.updateCursor (Ref.releaseAt 50 40)])).mState
          = State.Standby
      ∧ (runSteps Ref.scene (init Ref.scene)
            (Ref.dragFromEnclosure ++ [Step.updateCursor (Ref.releaseAt 50 40)])).mShowSelectionRange
          = false :=
  ⟨by decide, by decide!, by decide!, by decide!,
   (overlay_only_while_selecting Ref.scene Ref.scene_keepsAmendable Ref.dragFromEnclosure
      (by decide)).1 (by decide!),
   by decide!,
   (overlay_only_while_selecting Ref.scene Ref.scene_keepsAmendable
      (Ref.dragFromEnclosure ++ [Step.updateCursor (Ref.releaseAt 50 40)])
      (by decide)).2.1 (by decide!)⟩

theorem pushRow_rect (E : Collab F S P) (ed : TimeLineEditor F S P) (aNode : Option Nat)
    (aWorldTB : Range) (aClosedFolder : Bool) :
    ∃ row, (pushRow E ed aNode aWorldTB aClosedFolder).mRows = ed.mRows ++ [row]
      ∧ row.rect.left = kTimeLineMargin
      ∧ row.rect.right = kTimeLineMargin + E.maxPixelWidth ed.mTimeScale
      ∧ row.rect.top = aWorldTB.min ∧ row.rect.bottom = aWorldTB.max :=
  ⟨_, rfl, rfl, rfl, rfl, rfl⟩

theorem updateWheel_row_right (E : Collab F S P) (ed : TimeLineEditor F S P) (aDelta : Int) :
    ∀ row ∈ (updateWheel E ed aDelta).mRows,
      row.rect.right
        = row.rect.left + E.maxPixelWidth (updateWheel E ed aDelta).mTimeScale - 1 := by
  intro row hrow
  simp only [updateWheel, List.mem_map] at hrow
  obtain ⟨r0, _, rfl⟩ := hrow
  rfl

theorem updateProjectAttribute_row_right (E : Collab F S P) (ed : TimeLineEditor F S P)
    (p : P) (hp : ed.mProject = some p) (hmax : ed.mTimeMax ≠ E.maxFrame p) :
    ∀ row ∈ (updateProjectAttribute E ed).mRows,
      row.rect.right
        = kTimeLineMargin + E.maxPixelWidth (updateProjectAttribute E ed).mTimeScale := by
  intro row hrow
  simp only [updateProjectAttribute, clearState, hp, setMaxFrame, hmax, ne_eq,
    not_false_eq_true, if_true, List.mem_map] at hrow ⊢
  obtain ⟨r0, _, rfl⟩ := hrow
  rfl

/-- C18, evaluated on `editor0`, whose one row `pushRow` built at the current scale with
right edge `14 + maxPixelWidth() = 1214`: after `updateWheel(0)` the scale is the same and
the right edge of the row is 1213, one pixel short of the rectangle `pushRow` builds at
that scale; after `updateProjectAttribute` for a project of 300 frames the right edge is
`14 + maxPixelWidth() = 614`, as `pushRow` builds it. -/
theorem updateWheel_row_right_off_by_one :
    Ref.collab.maxPixelWidth Ref.editor0.mTimeScale = 1200
      ∧ Ref.editor0.mRows.map (fun row => (row.rect.left, row.rect.right)) = [(14, 1214)]
      ∧ (updateWheel Ref.collab Ref.editor0 0).mTimeScale = Ref.editor0.mTimeScale
      ∧ (updateWheel Ref.collab Ref.editor0 0).mRows.map
          (fun row => (row.rect.left, row.rect.right)) = [(14, 1213)]
      ∧ (pushRow Ref.collab (clearRows Ref.collab (updateWheel Ref.collab Ref.editor0 0))
            (some 1) { min := 30, max := 50 } false).mRows.map
          (fun row => (row.rect.left, row.rect.right)) = [(14, 1214)]
      ∧ Ref.collab.maxPixelWidth
          (updateProjectAttribute Ref.collab
            { Ref.editor0 with mProject := some Ref.projectShort }).mTimeScale = 600
      ∧ (updateProjectAttribute Ref.collab
            { Ref.editor0 with mProject := some Ref.projectShort }).mRows.map
          (fun row => (row.rect.left, row.rect.right)) = [(14, 614)] := by
  decide

/-! ## The playback cursor -/

theorem clampFrame_bounds (v hi : Int) (h : 0 ≤ hi) :
    0 ≤ clampFrame v 0 hi ∧ clampFrame v 0 hi ≤ hi := by
  simp only [clampFrame]
  omega

theorem clampFrame_zero (hi : Int) (h : 0 ≤ hi) : clampFrame 0 0 hi = 0 := by
  simp only [clampFrame]
  omega

theorem CursorConsistent.of_eq (E : Collab F S P) {a b : TimeLineEditor F S P}
    (h1 : b.mTimeCurrent = a.mTimeCurrent) (h2 : b.mTimeMax = a.mTimeMax)
    (h3 : b.mTimeScale = a.mTimeScale) (h : CursorConsistent E a) : CursorConsistent E b := by
  simpa only [CursorConsistent, currentFrame, currentTimeCursorPos, h1, h2, h3] using h

theorem setMaxFrame_consistent (E : Collab F S P) (ed : TimeLineEditor F S P) (v : Int)
    (hv : 0 ≤ v) :
    CursorConsistent E (setMaxFrame E ed v)
      ∧ (setMaxFrame E ed v).currentFrame = 0 ∧ (setMaxFrame E ed v).mTimeMax = v := by
  simp only [CursorConsistent, setMaxFrame, currentFrame, currentTimeCursorPos,
    TimeCurrent.setMaxFrame, TimeCurrent.setFrame, TimeCurrent.frame, TimeCurrent.handlePos,
    clampFrame_zero v hv]
  simp [hv]

theorem setHandlePos_consistent (E : Collab F S P) {a b : TimeLineEditor F S P} (pos : QPoint)
    (h1 : b.mTimeCurrent = a.mTimeCurrent.setHandlePos E a.mTimeScale pos)
    (h2 : b.mTimeMax = a.mTimeMax) (h3 : b.mTimeScale = a.mTimeScale)
    (h : CursorConsistent E a) : CursorConsistent E b := by
  obtain ⟨hm, hmax, -, -, -⟩ := h
  have hb := clampFrame_bounds (E.frame a.mTimeScale (pos.x - kTimeLineMargin)) a.mTimeMax hmax
  simp only [CursorConsistent, currentFrame, currentTimeCursorPos, h1, h2, h3,
    TimeCurrent.setHandlePos, TimeCurrent.frame, TimeCurrent.handlePos, hm]
  exact ⟨trivial, hmax, hb.1, hb.2, trivial⟩

theorem step_cursor (E : Collab F S P) (ed : TimeLineEditor F S P) (s : Step P)
    (hs : s.SuppliesNonneg E ed) (h : CursorConsistent E ed) :
    CursorConsistent E (s.apply E ed) := by
  cases s with
  | setMaxFrame v => exact (setMaxFrame_consistent E ed v hs).1
  | setProject q =>
    cases q with
    | none => exact (setMaxFrame_consistent E _ kDefaultMaxFrame (by decide)).1
    | some p => exact (setMaxFrame_consistent E _ (E.maxFrame p) hs).1
  | updateProjectAttribute =>
    simp only [Step.SuppliesNonneg] at hs
    simp only [Step.apply, updateProjectAttribute]
    have hc : (clearState E ed).mProject = ed.mProject := rfl
    rw [hc]
    cases hp : ed.mProject with
    | none => exact CursorConsistent.of_eq E rfl rfl rfl h
    | some p =>
      rw [hp] at hs
      simp only []
      split_ifs
      · exact CursorConsistent.of_eq E rfl rfl rfl
          (setMaxFrame_consistent E (clearState E ed) (E.maxFrame p) hs).1
      · exact CursorConsistent.of_eq E rfl rfl rfl h
  | updateCursor c =>
    have k := updateCursor_keeps E ed c
    rcases k.timeCurrent with htc | htc
    · exact CursorConsistent.of_eq E htc k.timeMax k.timeScale h
    · exact setHandlePos_consistent E c.worldPosPoint htc k.timeMax k.timeScale h
  | deleteCheckedKeys ev =>
    obtain ⟨ed1, h1, h2⟩ := deleteCheckedKeys_eq E ed ev
    simp only [Step.apply, h2]
    exact CursorConsistent.of_eq E h1.timeCurrent h1.timeMax h1.timeScale h
  | updateKey =>
    simp only [Step.apply, TimeLineEditor.updateKey]
    split_ifs
    · exact CursorConsistent.of_eq E rfl rfl rfl h
    · exact h
  | checkDeletableKeys ev pos =>
    simp only [Step.apply, TimeLineEditor.checkDeletableKeys]
    split_ifs <;> exact CursorConsistent.of_eq E rfl rfl rfl h
  | setFrame f =>
    obtain ⟨hm, hmax, -, -, -⟩ := h
    have hb := clampFrame_bounds f ed.mTimeMax hmax
    simp only [Step.apply, CursorConsistent, TimeLineEditor.setFrame, currentFrame,
      currentTimeCursorPos, TimeCurrent.setFrame, TimeCurrent.frame, TimeCurrent.handlePos, hm]
    exact ⟨trivial, hmax, hb.1, hb.2, trivial⟩
  | updateWheel d =>
    obtain ⟨hm, hmax, h0, h1, -⟩ := h
    simp only [currentFrame, TimeCurrent.frame] at h0 h1
    simp only [Step.apply, CursorConsistent, TimeLineEditor.updateWheel, currentFrame,
      currentTimeCursorPos, TimeCurrent.update, TimeCurrent.frame, TimeCurrent.handlePos]
    exact ⟨hm, hmax, h0, h1, trivial⟩
  | _ => exact CursorConsistent.of_eq E rfl rfl rfl h

theorem runSteps_cursor (E : Collab F S P) (ss : List (Step P)) (ed : TimeLineEditor F S P)
    (hs : SuppliesNonnegAll E ed ss) (h : CursorConsistent E ed) :
    CursorConsistent E (runSteps E ed ss) := by
  induction ss generalizing ed with
  | nil => exact h
  | cons s ss ih => exact ih _ hs.2 (step_cursor E ed s hs.1 h)

theorem toInt32_of_fits (v : Int) (hlo : -2147483648 ≤ v) (hhi : v ≤ 2147483647) :
    toInt32 v = v := by
  simp only [toInt32]
  omega

/-- C19, as stated, fails: after `setMaxFrame(1073741820)` and `setFrame(1073741820)` on a
fresh editor the current frame is 1073741820, within `[0, mTimeMax]`, and
`pixelWidth(currentFrame())` is 2147483640; the `int` sum `14 + 2147483640` wraps, the handle
stands at x = -2147483642 and not at `14 + pixelWidth(currentFrame())`. -/
theorem handle_position_overflow_counterexample :
    SuppliesNonnegAll Ref.scene (init Ref.scene) Ref.farFrame
      ∧ (runSteps Ref.scene (init Ref.scene) Ref.farFrame).currentFrame = 1073741820
      ∧ (runSteps Ref.scene (init Ref.scene) Ref.farFrame).mTimeMax = 1073741820
      ∧ Ref.scene.pixelWidth (runSteps Ref.scene (init Ref.scene) Ref.farFrame).mTimeScale
          (runSteps Ref.scene (init Ref.scene) Ref.farFrame).currentFrame = 2147483640
      ∧ (runSteps Ref.scene (init Ref.scene) Ref.farFrame).currentTimeCursorPos.x = -2147483642
      ∧ (runSteps Ref.scene (init Ref.scene) Ref.farFrame).currentTimeCursorPos.x
          ≠ 14 + Ref.scene.pixelWidth (runSteps Ref.scene (init Ref.scene) Ref.farFrame).mTimeScale
              (runSteps Ref.scene (init Ref.scene) Ref.farFrame).currentFrame := by
  decide!

/-- C19, amended: provided every maximum frame supplied is non-negative, after the
constructor and after every sequence of public operations the current frame lies between 0
and `mTimeMax`, and the handle's x position is the `int` value of
`14 + pixelWidth(currentFrame())` at the current scale, which is
`14 + pixelWidth(currentFrame())` itself whenever that sum is at most 2147483647 (and at
least -2147483648); `setMaxFrame`, `setProject` and an `updateProjectAttribute` that finds a
different maximum frame reset the current frame to 0. -/
theorem playback_cursor_invariant (E : Collab F S P) (steps : List (Step P))
    (hsteps : SuppliesNonnegAll E (init E) steps) :
    0 ≤ (runSteps E (init E) steps).currentFrame
      ∧ (runSteps E (init E) steps).currentFrame ≤ (runSteps E (init E) steps).mTimeMax
      ∧ (runSteps E (init E) steps).currentTimeCursorPos.x
          = toInt32 (14 + E.pixelWidth (runSteps E (init E) steps).mTimeScale
              (runSteps E (init E) steps).currentFrame)
      ∧ (-2147483648 ≤ 14 + E.pixelWidth (runSteps E (init E) steps).mTimeScale
              (runSteps E (init E) steps).currentFrame →
          14 + E.pixelWidth (runSteps E (init E) steps).mTimeScale
              (runSteps E (init E) steps).currentFrame ≤ 2147483647 →
          (runSteps E (init E) steps).currentTimeCursorPos.x
            = 14 + E.pixelWidth (runSteps E (init E) steps).mTimeScale
                (runSteps E (init E) steps).currentFrame)
      ∧ (∀ (ed : TimeLineEditor F S P) (v : Int), 0 ≤ v →
          (setMaxFrame E ed v).currentFrame = 0 ∧ (setMaxFrame E ed v).mTimeMax = v)
      ∧ (∀ (ed : TimeLineEditor F S P) (p : P), 0 ≤ E.maxFrame p →
          (setProject E ed (some p)).currentFrame = 0
            ∧ (setProject E ed (some p)).mTimeMax = E.maxFrame p)
      ∧ (∀ (ed : TimeLineEditor F S P) (p : P), ed.mProject = some p →
          ed.mTimeMax ≠ E.maxFrame p → 0 ≤ E.maxFrame p →
          (updateProjectAttribute E ed).currentFrame = 0
            ∧ (updateProjectAttribute E ed).mTimeMax = E.maxFrame p) := by
  have hinit : CursorConsistent E (init E) :=
    (setMaxFrame_consistent E _ kDefaultMaxFrame (by decide)).1
  obtain ⟨-, -, h0, h1, hx⟩ := runSteps_cursor E steps (init E) hsteps hinit
  refine ⟨h0, h1, hx, fun hlo hhi => hx.trans (toInt32_of_fits _ hlo hhi),
    fun ed v hv => (setMaxFrame_consistent E ed v hv).2,
    fun ed p hp => (setMaxFrame_consistent E _ (E.maxFrame p) hp).2, ?_⟩
  intro ed p hp hne hmax
  have := (setMaxFrame_consistent E (clearState E ed) (E.maxFrame p) hmax).2
  simp only [updateProjectAttribute]
  have hc : (clearState E ed).mProject = some p := hp
  have hm : (clearState E ed).mTimeMax = ed.mTimeMax := rfl
  simp only [hc, hm, hne, ne_eq, not_false_eq_true, if_true]
  exact this

/-- The session `scrubbing` on a fresh editor: after the drag of the handle the current
frame is 47 of 600 with the handle at pixel 202; after `setMaxFrame(100)` it is 0 and the
handle stands at `14 + pixelWidth(0)`. -/
theorem playback_cursor_invariant_witness :
    SuppliesNonnegAll Ref.scene (init Ref.scene) Ref.scrubbing
      ∧ (runSteps Ref.scene (init Ref.scene) (Ref.scrubbing.take 7)).currentFrame = 47
      ∧ (runSteps Ref.scene (init Ref.scene) (Ref.scrubbing.take 7)).currentTimeCursorPos.x = 202
      ∧ (runSteps Ref.scene (init Ref.scene) Ref.scrubbing).currentFrame = 0
      ∧ (runSteps Ref.scene (init Ref.scene) Ref.scrubbing).currentFrame
          ≤ (runSteps Ref.scene (init Ref.scene) Ref.scrubbing).mTimeMax
      ∧ (runSteps Ref.scene (init Ref.scene) Ref.scrubbing).currentTimeCursorPos.x
          = 14 + Ref.scene.pixelWidth (runSteps Ref.scene (init Ref.scene) Ref.scrubbing).mTimeScale
              (runSteps Ref.scene (init Ref.scene) Ref.scrubbing).currentFrame :=
  ⟨by decide!, by decide!, by decide!, by decide!,
   (playback_cursor_invariant Ref.scene Ref.scrubbing (by decide!)).2.1,
   (playback_cursor_invariant Ref.scene Ref.scrubbing (by decide!)).2.2.2.1 (by decide!)
     (by decide!)⟩

/-! ## The anchor of a drag -/

theorem modifyMoveKeys_step (E : Collab F S P) (ed : TimeLineEditor F S P) (w : QPoint)
    (hmod : modifiableNow E ed = true) :
    (modifyMoveKeys E ed w).2.mRows = ed.mRows
      ∧ (modifyMoveKeys E ed w).2.mTimeScale = ed.mTimeScale
      ∧ (moveAccepted E ed w = true →
          (modifyMoveKeys E ed w).2.mMoveFrame = E.frame ed.mTimeScale (w.x - kTimeLineMargin)
            ∧ (modifyMoveKeys E ed w).2.mFocus
                = E.focusMoveBoundingRect ed.mRows ed.mTimeScale ed.mFocus (frameDelta E ed w))
      ∧ (moveAccepted E ed w = false →
          (modifyMoveKeys E ed w).2.mMoveFrame = ed.mMoveFrame
            ∧ (modifyMoveKeys E ed w).2.mFocus = ed.mFocus) := by
  obtain ⟨p, m, hp, hm, h⟩ := (modifiableNow_iff E ed).mp hmod
  have hmk := modifyMoveKeys_eq E ed w p m hp hm h
  by_cases hr : (E.modifyMove p m
      (E.frame ed.mTimeScale (w.x - kTimeLineMargin) - ed.mMoveFrame)
      { min := 0, max := ed.mTimeMax }).1 = true
  · simp only [hr, if_true] at hmk
    simp [hmk, moveAccepted, frameDelta, hp, hm, hr]
  · simp only [hr, if_false] at hmk
    simp [hmk, moveAccepted, frameDelta, hp, hm, hr]

theorem modifyAll_telescope (E : Collab F S P) (ws : List QPoint) (ed : TimeLineEditor F S P)
    (hmod : StillModifiable E ed ws) :
    (acceptedDeltas E ed ws).sum = (modifyAll E ed ws).mMoveFrame - ed.mMoveFrame
      ∧ (modifyAll E ed ws).mFocus
          = (acceptedDeltas E ed ws).foldl
              (fun f d => E.focusMoveBoundingRect ed.mRows ed.mTimeScale f d) ed.mFocus := by
  induction ws generalizing ed with
  | nil => simp [acceptedDeltas, modifyAll]
  | cons w ws ih =>
    obtain ⟨hnow, hrest⟩ := hmod
    obtain ⟨hrows, hscale, hacc, hrej⟩ := modifyMoveKeys_step E ed w hnow
    obtain ⟨ih1, ih2⟩ := ih (modifyMoveKeys E ed w).2 hrest
    simp only [acceptedDeltas, modifyAll, List.sum_append, List.foldl_append]
    rw [ih1, ih2, hrows, hscale]
    cases ha : moveAccepted E ed w
    · obtain ⟨h1, h2⟩ := hrej ha
      simp [h1, h2]
    · obtain ⟨h1, h2⟩ := hacc ha
      simp only [if_true, List.sum_cons, List.sum_nil, List.foldl_cons, List.foldl_nil, h1, h2,
        frameDelta]
      exact ⟨by omega, trivial⟩

/-- C20: the deltas of a drag telescope. For a sequence of `modifyMoveKeys` calls during
which the command stays modifiable, starting from the anchor `mMoveFrame` recorded at
move-begin: the sum of the frame deltas for which `modifyMove` returned true is the final
anchor minus the first one; the focus is the one obtained by passing exactly those deltas,
in order, to `moveBoundingRect`; a call for which `modifyMove` returns false leaves the
anchor and the focus unchanged, and one for which it returns true moves the anchor to the
frame of the pointer. -/
theorem drag_deltas_telescope (E : Collab F S P) (ed : TimeLineEditor F S P)
    (ws : List QPoint) (hmod : StillModifiable E ed ws) :
    (acceptedDeltas E ed ws).sum = (modifyAll E ed ws).mMoveFrame - ed.mMoveFrame
      ∧ (modifyAll E ed ws).mFocus
          = (acceptedDeltas E ed ws).foldl
              (fun f d => E.focusMoveBoundingRect ed.mRows ed.mTimeScale f d) ed.mFocus
      ∧ (∀ (ed1 : TimeLineEditor F S P) (w : QPoint), modifiableNow E ed1 = true →
          moveAccepted E ed1 w = false →
          (modifyMoveKeys E ed1 w).2.mMoveFrame = ed1.mMoveFrame
            ∧ (modifyMoveKeys E ed1 w).2.mFocus = ed1.mFocus)
      ∧ (∀ (ed1 : TimeLineEditor F S P) (w : QPoint), modifiableNow E ed1 = true →
          moveAccepted E ed1 w = true →
          (modifyMoveKeys E ed1 w).2.mMoveFrame
              = E.frame ed1.mTimeScale (w.x - kTimeLineMargin)
            ∧ (modifyMoveKeys E ed1 w).2.mFocus
                = E.focusMoveBoundingRect ed1.mRows ed1.mTimeScale ed1.mFocus
                    (frameDelta E ed1 w)) :=
  ⟨(modifyAll_telescope E ws ed hmod).1, (modifyAll_telescope E ws ed hmod).2,
   fun ed1 w h1 h2 => (modifyMoveKeys_step E ed1 w h1).2.2.2 h2,
   fun ed1 w h1 h2 => (modifyMoveKeys_step E ed1 w h1).2.2.1 h2⟩

/-- Dragging `key1` of `editorMoving` (anchor 10) to frame 15, then far beyond the last
frame (refused), then to frame 25: the accepted deltas are 5 and 10, the anchor ends at 25. -/
theorem drag_deltas_telescope_witness :
    StillModifiable Ref.collab Ref.editorMoving
        [{ x := 44, y := 40 }, { x := 2000, y := 40 }, { x := 64, y := 40 }]
      ∧ Ref.editorMoving.mMoveFrame = 10
      ∧ acceptedDeltas Ref.collab Ref.editorMoving
          [{ x := 44, y := 40 }, { x := 2000, y := 40 }, { x := 64, y := 40 }] = [5, 10]
      ∧ (modifyAll Ref.collab Ref.editorMoving
          [{ x := 44, y := 40 }, { x := 2000, y := 40 }, { x := 64, y := 40 }]).mMoveFrame = 25
      ∧ (acceptedDeltas Ref.collab Ref.editorMoving
          [{ x := 44, y := 40 }, { x := 2000, y := 40 }, { x := 64, y := 40 }]).sum
          = (modifyAll Ref.collab Ref.editorMoving
              [{ x := 44, y := 40 }, { x := 2000, y := 40 }, { x := 64, y := 40 }]).mMoveFrame
            - Ref.editorMoving.mMoveFrame :=
  ⟨by decide!, by decide!, by decide!, by decide!,
   (drag_deltas_telescope Ref.collab Ref.editorMoving
      [{ x := 44, y := 40 }, { x := 2000, y := 40 }, { x := 64, y := 40 }] (by decide!)).1⟩

end ctrl
